import Mathlib

/-!
# Command relay of remote-shell

A shallow embedding of the command relay implemented by
`src/controllers/deviceController.js` and `src/controllers/masterController.js`,
of the one-time-code and credential handlers of `src/controllers/authController.js`
and of the API-key middleware and credential store of `src/middlewares/auth.js`: the
in-memory tables (`activeCommands`, `deviceActivity`, `verificationCodes`) and the
`apiKeys` array of the data file become explicit state, every handler becomes a
function from the state and the request to a response and the next state.

Conventions of the embedding
* a JavaScript `Map` is an association list in insertion order;
* an ISO timestamp (`new Date().toISOString()`) is the millisecond clock value
  it renders, a natural number;
* the clock, the random sources, the outcome of sending an email and of writing
  the data file are inputs of the handler that uses them;
* built-ins of the runtime whose exact behaviour is not part of the repository
  (`toLowerCase`, `trim`, `toString`, SHA-256) are parameters;
* a JSON response is a constructor of `Response` or `AuthResponse`; the constant
  `success` flag of the body is determined by the constructor and not stored;
* no statement inside the `try` blocks of the four relay handlers throws on a
  parsed JSON body, so their `catch` branches (status 500) are not part of the
  functions; the handlers of authController.js can throw (a method call on a value
  that is not a string, the conversion of a code to a string, also in a log line, a
  failed email) and answer 500 in the model as well;
  `debugState` has no `try` block and sends nothing when it throws.
-/

namespace RemoteShell

/-! ## JavaScript values carried by request bodies -/

/-- A value as `express.json()` hands it to a handler. Numbers are the
integer-valued ones (a fractional number takes every branch a non-zero integer
takes); objects and arrays are kept as their JSON text, since the relay never
looks inside them. `undefined` is a missing field. -/
inductive JsVal where
  | undefined
  | null
  | bool (b : Bool)
  | num (n : Int)
  | str (s : String)
  | obj (json : String)
  deriving DecidableEq, Repr

namespace JsVal

/-- JavaScript truthiness (`!!v`): `undefined`, `null`, `false`, `0` and `""`
are falsy, every object is truthy. -/
def truthy : JsVal → Bool
  | undefined => false
  | null => false
  | bool b => b
  | num n => n != 0
  | str s => s != ""
  | obj _ => true

/-- Strict equality `a === b` between two values that come from different
requests: primitives are compared by type and value, two objects are distinct
references and never equal. -/
def strictEq : JsVal → JsVal → Bool
  | undefined, undefined => true
  | null, null => true
  | bool a, bool b => a == b
  | num a, num b => a == b
  | str a, str b => a == b
  | _, _ => false

/-- The value of `v || d`. -/
def orElse (v d : JsVal) : JsVal := if v.truthy then v else d

end JsVal

/-! ## JavaScript `Map` -/

/-- Method `Map.prototype.get` with key comparison `same`. -/
def mapGet {κ ν : Type} (same : κ → κ → Bool) : List (κ × ν) → κ → Option ν
  | [], _ => none
  | (k', v) :: rest, k => if same k' k then some v else mapGet same rest k

/-- Method `Map.prototype.set` with key comparison `same`: an existing key keeps its
position and gets the new value, a new key is appended. -/
def mapSet {κ ν : Type} (same : κ → κ → Bool) : List (κ × ν) → κ → ν → List (κ × ν)
  | [], k, v => [(k, v)]
  | (k', v') :: rest, k, v =>
    if same k' k then (k', v) :: rest else (k', v') :: mapSet same rest k v

/-- Key comparison of a `Map` with string keys: two strings are the same key
when they are equal. -/
abbrev sameKey : String → String → Bool := fun a b => a == b

/-! ## Data model -/

/-- An entry of `activeCommands`. `completedAt` is `null` (`none`) until a result
is submitted; `fetchedAt` and `success` are absent (`none`) on a new command. -/
structure Command where
  id : String
  command : JsVal
  deviceId : JsVal
  issuedBy : String
  timestamp : Nat
  result : JsVal
  completedAt : Option Nat
  fetchedAt : Option Nat
  success : Option Bool
  deriving DecidableEq, Repr

/-- The two module-level tables of `deviceController.js`. -/
structure State where
  activeCommands : List (String × Command)
  deviceActivity : List (JsVal × Nat)
  deriving DecidableEq, Repr

/-- The `req.user` object attached by the `authenticate` middleware. -/
structure User where
  email : String
  deriving DecidableEq, Repr

/-- The `req.apiKey` object attached by the `authenticateApiKey` middleware. The
relay handlers read `deviceId` and `deviceName` only; the other fields have a
default for the places that build a key by hand. -/
structure ApiKey where
  deviceId : JsVal
  deviceName : JsVal
  userEmail : String
  id : String := ""
  permissions : JsVal := .obj "[]"
  name : String := ""
  createdAt : Nat := 0
  deriving DecidableEq, Repr

/-- An element of the `commands` array returned to a polling device. -/
structure PendingCommand where
  id : String
  command : JsVal
  issuedBy : String
  timestamp : Nat
  deriving DecidableEq, Repr

/-- The `command` object of a result response. `result`, `completedAt` and
`success` are `none` when the key is absent from the object. -/
structure CommandView where
  id : String
  command : JsVal
  deviceId : JsVal
  issuedBy : String
  timestamp : Nat
  status : String
  result : Option JsVal
  completedAt : Option (Option Nat)
  success : Option (Option Bool)
  deriving DecidableEq, Repr

/-- What a handler sends: an error (`status`, `message`), the poll body, the
issue body, or a command view (all three with status 200). -/
inductive Response where
  | fail (status : Nat) (message : String)
  | commands (commands : List PendingCommand) (deviceId deviceName : JsVal) (timestamp : Nat)
  | sent (message : String) (commandId : String) (deviceId : JsVal) (timestamp : Nat)
  | command (view : CommandView)
  deriving DecidableEq, Repr

/-- HTTP status of a response. -/
def Response.status : Response → Nat
  | .fail s _ => s
  | _ => 200

/-- Lookup `activeCommands.get(commandId)`: the keys of the table are strings, so a
value of another type finds nothing. -/
def getCommand (cmds : List (String × Command)) : JsVal → Option Command
  | .str s => mapGet sameKey cmds s
  | _ => none

/-- The in-place mutation of the object found by `getCommand`: the entry under
`commandId` now holds the updated fields. -/
def setCommand (cmds : List (String × Command)) : JsVal → Command → List (String × Command)
  | .str s, c => mapSet sameKey cmds s c
  | _, _ => cmds

/-- Key comparison of a `Map` (SameValueZero) on the values of this model. -/
def sameValueZero (a b : JsVal) : Bool := JsVal.strictEq a b

/-! ## deviceController.js -/

/-- The guard of the polling loop: `command.deviceId === deviceId && !command.result`. -/
def isPendingFor (deviceId : JsVal) (command : Command) : Bool :=
  JsVal.strictEq command.deviceId deviceId && !command.result.truthy

/-- The `for … of activeCommands.entries()` loop of `checkForCommands`: collects
the pending commands of the device and marks them as fetched. -/
def pollLoop (deviceId : JsVal) (now : Nat) :
    List (String × Command) → List PendingCommand × List (String × Command)
  | [] => ([], [])
  | (commandId, command) :: rest =>
    let r := pollLoop deviceId now rest
    if isPendingFor deviceId command then
      ({ id := commandId, command := command.command, issuedBy := command.issuedBy,
         timestamp := command.timestamp } :: r.1,
       (commandId, { command with fetchedAt := some now }) :: r.2)
    else (r.1, (commandId, command) :: r.2)

/-- Handler `checkForCommands`. -/
def checkForCommands (st : State) (apiKey : Option ApiKey) (now : Nat) : Response × State :=
  match apiKey with
  | none => (.fail 401 "Device authentication required", st)
  | some key =>
    if !key.deviceId.truthy then (.fail 401 "Device authentication required", st)
    else
      let deviceId := key.deviceId
      let activity := mapSet sameValueZero st.deviceActivity deviceId now
      let r := pollLoop deviceId now st.activeCommands
      (.commands r.1 deviceId key.deviceName now,
       { activeCommands := r.2, deviceActivity := activity })

/-- Handler `submitCommandResult`; `commandId` and `result` are the two fields
read from the request body. -/
def submitCommandResult (st : State) (apiKey : Option ApiKey) (commandId result : JsVal)
    (now : Nat) : Response × State :=
  match apiKey with
  | none => (.fail 401 "Device authentication required", st)
  | some key =>
    if !key.deviceId.truthy then (.fail 401 "Device authentication required", st)
    else if !commandId.truthy then (.fail 400 "commandId is required", st)
    else
      let deviceId := key.deviceId
      let activity := mapSet sameValueZero st.deviceActivity deviceId now
      match getCommand st.activeCommands commandId with
      | none =>
        (.fail 404 "Command not found", { st with deviceActivity := activity })
      | some command =>
        if !JsVal.strictEq command.deviceId deviceId then
          (.fail 403 "Not authorized to submit result for this command",
           { st with deviceActivity := activity })
        else
          let command' : Command :=
            { command with
              result := result.orElse (.str "command executed")
              completedAt := some now
              success := some true }
          (.command
            { id := command'.id, command := command'.command, deviceId := command'.deviceId,
              issuedBy := command'.issuedBy, timestamp := command'.timestamp,
              status := "completed", result := some command'.result,
              completedAt := some command'.completedAt, success := some command'.success },
           { activeCommands := setCommand st.activeCommands commandId command',
             deviceActivity := activity })

/-! ## masterController.js -/

/-- Lower-case hexadecimal text of four random bytes,
`crypto.randomBytes(4).toString('hex')`; `rnd % 2 ^ 32` is the big-endian value
of the bytes. -/
def hex8 (rnd : Nat) : String :=
  String.mk ((List.range 8).map fun i => Nat.digitChar ((rnd % 2 ^ 32) / 16 ^ (7 - i) % 16))

/-- The command id of `sendCommand`: the text
`cmd_<Date.now()>_<crypto.randomBytes(4).toString('hex')>`. -/
def genCommandId (idTime rnd : Nat) : String :=
  "cmd_" ++ toString idTime ++ "_" ++ hex8 rnd

/-- Handler `sendCommand`; `deviceId` and `command` are the two fields read from
the request body, `idTime` is the clock read by `Date.now()`, `rnd` the random
bytes, `now` the clock read for `timestamp`. -/
def sendCommand (st : State) (user : Option User) (deviceId command : JsVal)
    (idTime rnd now : Nat) : Response × State :=
  match user with
  | none => (.fail 401 "Authentication required", st)
  | some user =>
    if user.email = "" then (.fail 401 "Authentication required", st)
    else if !deviceId.truthy || !command.truthy then
      (.fail 400 "Device ID and command are required", st)
    else
      let commandId := genCommandId idTime rnd
      let timestamp := now
      (.sent "Command sent to device" commandId deviceId timestamp,
       { st with
         activeCommands := mapSet sameKey st.activeCommands commandId
           { id := commandId, command := command, deviceId := deviceId,
             issuedBy := user.email, timestamp := timestamp, result := .null,
             completedAt := none, fetchedAt := none, success := none } })

/-- The `command` object built by `getCommandResult`. -/
def resultView (command : Command) : CommandView :=
  { id := command.id, command := command.command, deviceId := command.deviceId,
    issuedBy := command.issuedBy, timestamp := command.timestamp,
    status := if command.result.truthy then "completed" else "pending",
    result := if command.result.truthy then some command.result else none,
    completedAt := if command.result.truthy then some command.completedAt else none,
    success := none }

/-- Handler `getCommandResult`; `commandId` is the route parameter, a string.
The handler writes to neither table, the state is returned as it came. -/
def getCommandResult (st : State) (user : Option User) (commandId : String) :
    Response × State :=
  match user with
  | none => (.fail 401 "Authentication required", st)
  | some user =>
    if user.email = "" then (.fail 401 "Authentication required", st)
    else if commandId = "" then (.fail 400 "Command ID is required", st)
    else
      match mapGet sameKey st.activeCommands commandId with
      | none => (.fail 404 "Command not found", st)
      | some command =>
        if command.issuedBy ≠ user.email then
          (.fail 403 "Not authorized to view this command", st)
        else (.command (resultView command), st)

/-! ## Sequences of requests -/

/-- A request to one of the four relay handlers, with the environment inputs
(clock, random bytes) the handler reads. -/
inductive Request where
  | send (user : Option User) (deviceId command : JsVal) (idTime rnd now : Nat)
  | poll (apiKey : Option ApiKey) (now : Nat)
  | submit (apiKey : Option ApiKey) (commandId result : JsVal) (now : Nat)
  | getResult (user : Option User) (commandId : String)
  deriving DecidableEq, Repr

/-- One request handled in state `st`. -/
def step (st : State) : Request → Response × State
  | .send user deviceId command idTime rnd now => sendCommand st user deviceId command idTime rnd now
  | .poll apiKey now => checkForCommands st apiKey now
  | .submit apiKey commandId result now => submitCommandResult st apiKey commandId result now
  | .getResult user commandId => getCommandResult st user commandId

/-- The state after a sequence of requests, handled one after the other. -/
def run (st : State) : List Request → State
  | [] => st
  | r :: rs => run (step st r).2 rs

/-- The keys of the command table. -/
def commandIds (st : State) : List String := st.activeCommands.map Prod.fst

/-- Every accepted `send` of the sequence generates an id that is not a key of
the command table at the moment it is handled. -/
def FreshIds (st : State) : List Request → Prop
  | [] => True
  | r :: rs =>
    (match r with
     | .send _ _ _ idTime rnd _ =>
       (step st r).1.status = 200 → genCommandId idTime rnd ∉ commandIds st
     | _ => True) ∧ FreshIds (step st r).2 rs

/-- A JavaScript `Map` holds each key once. -/
def WellFormed (st : State) : Prop := (commandIds st).Nodup

instance (st : State) : Decidable (WellFormed st) :=
  inferInstanceAs (Decidable (commandIds st).Nodup)

/-- The command stored under `cid` has a result. -/
def Completed (cid : String) (st : State) : Prop :=
  ∃ c, mapGet sameKey st.activeCommands cid = some c ∧ c.result.truthy = true

/-- Value of a list of decimal digit characters, most significant first. -/
def decVal (l : List Char) : Nat := l.foldl (fun a c => 10 * a + (c.toNat - 48)) 0

/-- What the polling loop does to one command: a command that passes the guard
gets `fetchedAt = now`. -/
def markFetched (deviceId : JsVal) (now : Nat) (command : Command) : Command :=
  if isPendingFor deviceId command then { command with fetchedAt := some now } else command

/-- The command as `submitCommandResult` leaves it. -/
def completeWith (command : Command) (result : JsVal) (now : Nat) : Command :=
  { command with
    result := result.orElse (.str "command executed")
    completedAt := some now
    success := some true }

/-- The command object stored by `sendCommand`. -/
def newCommand (commandId : String) (command deviceId : JsVal) (email : String)
    (timestamp : Nat) : Command :=
  { id := commandId, command := command, deviceId := deviceId, issuedBy := email,
    timestamp := timestamp, result := .null, completedAt := none, fetchedAt := none,
    success := none }

/-- The `commands` array of a poll response (empty for any other response). -/
def Response.pending : Response → List PendingCommand
  | .commands l _ _ _ => l
  | _ => []

/-- The `status` field of a command view, if the response carries one. -/
def Response.shownStatus : Response → Option String
  | .command v => some v.status
  | _ => none

/-- The `result` field of a command view, if the response carries one. -/
def Response.shownResult : Response → Option JsVal
  | .command v => v.result
  | _ => none

/-! ### Sample data -/

/-- An operator. -/
def alice : User := { email := "alice@x.com" }

/-- Another operator. -/
def bob : User := { email := "bob@x.com" }

/-- The credential of device `dev1`. -/
def keyDev1 : ApiKey :=
  { deviceId := .str "dev1", deviceName := .str "Device One", userEmail := "alice@x.com" }

/-- The credential of device `dev2`. -/
def keyDev2 : ApiKey :=
  { deviceId := .str "dev2", deviceName := .str "Device Two", userEmail := "alice@x.com" }

/-- Both tables empty, as at process start. -/
def emptyState : State := { activeCommands := [], deviceActivity := [] }

/-- The state after `alice` issued `ping` to `dev1`; the id is `cmd_1000_00000007`. -/
def pingState : State :=
  (sendCommand emptyState (some alice) (.str "dev1") (.str "ping") 1000 7 1001).2

/-! ## Presence (`getDeviceStatus`, deviceController.js) -/

/-- The object returned by `getDeviceStatus`; `lastSeen` is `null` (`none`) and
`lastSeenAgo` is absent (`none`) for a device without a recorded heartbeat. -/
structure DeviceStatus where
  online : Bool
  lastSeen : Option Nat
  lastSeenAgo : Option String
  deriving DecidableEq, Repr

/-- Helper `getDeviceStatus`. `now` and `nowAgo` are the two reads of `Date.now()`
(for `isOnline` and for `lastSeenAgo`); the differences are taken in the integers,
as JavaScript does. The helper writes to neither table, the state is returned
as it came. -/
def getDeviceStatus (st : State) (deviceId : JsVal) (now nowAgo : Nat) : DeviceStatus × State :=
  match mapGet sameValueZero st.deviceActivity deviceId with
  | none => ({ online := false, lastSeen := none, lastSeenAgo := none }, st)
  | some lastActivity =>
    let lastActivityTime : Int := lastActivity
    let isOnline : Bool := decide ((now : Int) - lastActivityTime < 120000)
    ({ online := isOnline,
       lastSeen := some lastActivity,
       lastSeenAgo :=
         some (toString (Int.fdiv ((nowAgo : Int) - lastActivityTime) 1000) ++ " seconds ago") },
     st)

/-- The state after `dev1` polled `pingState` at clock value 5000. -/
def polledState : State := (checkForCommands pingState (some keyDev1) 5000).2

/-! ## One-time codes (authController.js) -/

/-- Method `Map.prototype.delete` with key comparison `same`: the entry stored
under the key is removed. -/
def mapDelete {κ ν : Type} (same : κ → κ → Bool) : List (κ × ν) → κ → List (κ × ν)
  | [], _ => []
  | (k', v) :: rest, k => if same k' k then rest else (k', v) :: mapDelete same rest k

/-- The JavaScript built-ins the login handlers call on request values. They
belong to the runtime, not to the repository, and are parameters of the model:
`String.prototype.toLowerCase`, `String.prototype.trim`, `Number.prototype.toString`,
and `toString()` on an object or array given by its JSON text (`none` when the call
throws). -/
structure Builtins where
  toLowerCase : String → String
  trim : String → String
  numberToString : Int → String
  objectToString : String → Option String

/-- An entry of `verificationCodes`; `lastSent` is absent (`none`) on the entries
written by `login`. -/
structure CodeEntry where
  code : String
  expiresAt : Nat
  verified : Bool
  createdAt : Nat
  lastSent : Option Nat
  deriving DecidableEq, Repr

/-- The payload signed by `jwt.sign` in `verify`, with the expiry that
`expiresIn: '24h'` adds (seconds). The signature itself is not modelled. -/
structure Token where
  email : String
  verified : Bool
  iat : Nat
  exp : Nat
  deriving DecidableEq, Repr

/-- The entry of the `apiKeys` array returned by `getUserApiKeys` (auth.js); `pfx`
is the `prefix` field. -/
structure KeyMetadata where
  id : String
  name : String
  deviceName : JsVal
  deviceID : JsVal
  pfx : String
  createdAt : Nat
  lastUsed : Option Nat
  isActive : Bool
  permissions : JsVal
  deriving DecidableEq, Repr

/-- What a handler of authController.js sends: an error (`status`, `message`),
the body of `login` and `resendCode`, the body of `verify`, or the key list (all
three with status 200). -/
inductive AuthResponse where
  | fail (status : Nat) (message : String)
  | codeSent (message : String) (email : String) (expiresIn : Nat)
  | verified (message : String) (token : Token) (email : String)
  | apiKeys (apiKeys : List KeyMetadata) (count : Nat)
  deriving DecidableEq, Repr

/-- HTTP status of a response of authController.js. -/
def AuthResponse.status : AuthResponse → Nat
  | .fail s _ => s
  | _ => 200

/-- The code generator `generateVerificationCode`: the text of
`Math.floor(100000 + Math.random() * 900000)`; `draw % 900000` is the integer part
of `Math.random() * 900000`. -/
def generateVerificationCode (draw : Nat) : String :=
  toString (100000 + draw % 900000)

/-- The expression `email.toLowerCase().trim()`; on a value that is not a string
the call throws (`none`). -/
def normalizeEmail (js : Builtins) : JsVal → Option String
  | .str s => some (js.trim (js.toLowerCase s))
  | _ => none

/-- The expression `code.toString()`; `none` when the call throws. -/
def codeToString (js : Builtins) : JsVal → Option String
  | .str s => some s
  | .num n => some (js.numberToString n)
  | .bool b => some (if b then "true" else "false")
  | .obj json => js.objectToString json
  | .undefined => none
  | .null => none

/-- Handler `login`. `draw` is the random draw of the code generator, `nowExp` and
`nowCreated` the two reads of `Date.now()`, `emailSent` tells whether
`sendVerificationEmail` returned (`true`) or threw (`false`). -/
def login (js : Builtins) (codes : List (String × CodeEntry)) (email : JsVal)
    (draw nowExp nowCreated : Nat) (emailSent : Bool) :
    AuthResponse × List (String × CodeEntry) :=
  if !email.truthy then (.fail 400 "Email is required", codes)
  else
    match normalizeEmail js email with
    | none => (.fail 500 "Internal server error", codes)
    | some normalizedEmail =>
      let verificationCode := generateVerificationCode draw
      let codes' := mapSet sameKey codes normalizedEmail
        { code := verificationCode, expiresAt := nowExp + 10 * 60 * 1000, verified := false,
          createdAt := nowCreated, lastSent := none }
      if !emailSent then (.fail 500 "Internal server error", codes')
      else (.codeSent "Verification code sent to your email" normalizedEmail 600, codes')

/-- The conversion of `code` to a string inside the template literal of the log line
`Provided code: ...` of `verify`; `none` when it throws. `undefined` and `null` print
as their names. An object or array of a parsed JSON body is converted through its
`toString` method, as the call `code.toString()` does: when that property is not
callable the conversion falls back on `valueOf`, which returns the object itself, and
throws. -/
def codeInTemplate (js : Builtins) : JsVal → Option String
  | .undefined => some "undefined"
  | .null => some "null"
  | .str s => some s
  | .num n => some (js.numberToString n)
  | .bool b => some (if b then "true" else "false")
  | .obj json => js.objectToString json

/-- Handler `verify`. `now` is the clock read by the expiry check, `nowIat` the
one read for the `iat` claim of the token. The log line that prints `code` comes
before the lookup: a code whose conversion throws is answered 500 whatever the
table holds. The loop of `debugVerificationCodes` prints stored entries only and
does not throw. -/
def verify (js : Builtins) (codes : List (String × CodeEntry)) (email code : JsVal)
    (now nowIat : Nat) : AuthResponse × List (String × CodeEntry) :=
  if !email.truthy || !code.truthy then
    (.fail 400 "Email and verification code are required", codes)
  else
    match normalizeEmail js email with
    | none => (.fail 500 "Internal server error. Please try again.", codes)
    | some normalizedEmail =>
      match codeInTemplate js code with
      | none => (.fail 500 "Internal server error. Please try again.", codes)
      | some _ =>
        match mapGet sameKey codes normalizedEmail with
        | none =>
          (.fail 400
            "No verification request found for this email. Please request a new code.",
           codes)
        | some storedData =>
          if now > storedData.expiresAt then
            (.fail 400 "Verification code has expired. Please request a new one.",
             mapDelete sameKey codes normalizedEmail)
          else
            match codeToString js code with
            | none => (.fail 500 "Internal server error. Please try again.", codes)
            | some text =>
              let providedCode := js.trim text
              let storedCode := js.trim storedData.code
              if providedCode ≠ storedCode then
                (.fail 400 "Invalid verification code. Please check and try again.", codes)
              else
                (.verified "Verification successful!"
                  { email := normalizedEmail, verified := true, iat := nowIat / 1000,
                    exp := nowIat / 1000 + 24 * 60 * 60 }
                  normalizedEmail,
                 mapDelete sameKey codes normalizedEmail)

/-- The cooldown test of `resendCode`:
`existingCode && existingCode.lastSent && Date.now() < existingCode.lastSent + 60000`. -/
def coolingDown (existingCode : Option CodeEntry) (now : Nat) : Bool :=
  match existingCode with
  | none => false
  | some entry =>
    match entry.lastSent with
    | none => false
    | some lastSent => lastSent != 0 && decide (now < lastSent + 60000)

/-- Handler `resendCode`. `now`, `nowExp`, `nowSent` and `nowCreated` are the four
reads of `Date.now()`, in source order; `draw` and `emailSent` are as in `login`. -/
def resendCode (js : Builtins) (codes : List (String × CodeEntry)) (email : JsVal)
    (draw now nowExp nowSent nowCreated : Nat) (emailSent : Bool) :
    AuthResponse × List (String × CodeEntry) :=
  if !email.truthy then (.fail 400 "Email is required", codes)
  else
    match normalizeEmail js email with
    | none => (.fail 500 "Internal server error", codes)
    | some normalizedEmail =>
      let existingCode := mapGet sameKey codes normalizedEmail
      if coolingDown existingCode now then
        (.fail 429 "Please wait before requesting a new code", codes)
      else
        let verificationCode := generateVerificationCode draw
        let codes' := mapSet sameKey codes normalizedEmail
          { code := verificationCode, expiresAt := nowExp + 10 * 60 * 1000,
            lastSent := some nowSent, verified := false, createdAt := nowCreated }
        if !emailSent then (.fail 500 "Internal server error", codes')
        else (.codeSent "New verification code sent" normalizedEmail 600, codes')

/-- The built-ins on plain ASCII text: letters are lower-cased, blanks are
trimmed at both ends, integers print in decimal, a plain object prints as
`[object Object]`. -/
def asciiBuiltins : Builtins :=
  { toLowerCase := fun s => String.mk (s.data.map Char.toLower)
    trim := fun s =>
      String.mk (((s.data.dropWhile fun c => c == ' ').reverse.dropWhile fun c => c == ' ').reverse)
    numberToString := fun n => toString n
    objectToString := fun _ => some "[object Object]" }

/-- The code table after `login` for `User@X.com` (draw 23456, clock 1000): the
entry is stored under `user@x.com` with code `123456`. -/
def loginCodes : List (String × CodeEntry) :=
  (login asciiBuiltins [] (.str "User@X.com") 23456 1000 1000 true).2

/-! ## Credential store and API-key middleware (middlewares/auth.js) -/

/-- A record of the `apiKeys` array of the data file. `pfx` is the `prefix` field;
`expiresAt` is absent (`none`) on the records this code base writes; `lastUsed` is
`null` (`none`) until the key is used. -/
structure ApiKeyRecord where
  id : String
  userEmail : String
  deviceId : JsVal
  deviceName : JsVal
  hashedKey : String
  pfx : String
  createdAt : Nat
  lastUsed : Option Nat
  isActive : Bool
  name : String
  permissions : JsVal
  metadata : JsVal
  expiresAt : Option Nat
  deriving DecidableEq, Repr

/-- What the middleware does with a request: answer it (`status`, `message`, `code`)
or call `next()` with `req.apiKey` and `req.user` attached. -/
inductive MiddlewareResult where
  | reject (status : Nat) (message code : String)
  | next (apiKey : ApiKey) (user : User)
  deriving DecidableEq, Repr

/-- Method `String.prototype.startsWith`. -/
def startsWith (s p : String) : Bool := p.data.isPrefixOf s.data

/-- The assignment `keyRecord.lastUsed = now` on the record found by
`find(key => key.hashedKey === hashedKey)`. -/
def touchLastUsed (hashedKey : String) (now : Nat) : List ApiKeyRecord → List ApiKeyRecord
  | [] => []
  | key :: rest =>
    if key.hashedKey == hashedKey then { key with lastUsed := some now } :: rest
    else key :: touchLastUsed hashedKey now rest

/-- Function `updateApiKeyLastUsed`; `writeOk` tells whether `writeApiKeys` wrote
the file (`true`) or failed and left it as it was (`false`). -/
def updateApiKeyLastUsed (store : List ApiKeyRecord) (hashedKey : String) (now : Nat)
    (writeOk : Bool) : Bool × List ApiKeyRecord :=
  match store.find? fun key => key.hashedKey == hashedKey with
  | some _ => if writeOk then (true, touchLastUsed hashedKey now store) else (false, store)
  | none => (false, store)

/-- Middleware `authenticateApiKey`. `hash` is `hashApiKey` (SHA-256 in hex, a
parameter), `presented` the string read from the `x-api-key` header or the `apiKey`
query parameter, `now` the clock of the expiry check, `nowUsed` the clock written to
`lastUsed`. -/
def authenticateApiKey (hash : String → String) (store : List ApiKeyRecord)
    (presented : Option String) (now nowUsed : Nat) (writeOk : Bool) :
    MiddlewareResult × List ApiKeyRecord :=
  match presented with
  | none => (.reject 401 "API key is required." "NO_API_KEY", store)
  | some apiKey =>
    if apiKey = "" then (.reject 401 "API key is required." "NO_API_KEY", store)
    else if !startsWith apiKey "sk_" then
      (.reject 401 "Invalid API key format." "INVALID_API_KEY_FORMAT", store)
    else
      let hashedKey := hash apiKey
      match store.find? fun key => key.hashedKey == hashedKey with
      | none => (.reject 401 "Invalid API key." "INVALID_API_KEY", store)
      | some keyRecord =>
        if !keyRecord.isActive then
          (.reject 401 "API key is inactive." "API_KEY_INACTIVE", store)
        else if (match keyRecord.expiresAt with
                 | none => false
                 | some expiresAt => decide (expiresAt < now)) then
          (.reject 401 "API key has expired." "API_KEY_EXPIRED", store)
        else
          (.next
            { id := keyRecord.id, deviceId := keyRecord.deviceId,
              deviceName := keyRecord.deviceName, userEmail := keyRecord.userEmail,
              permissions := keyRecord.permissions.orElse (.obj "[]"),
              name := keyRecord.name, createdAt := keyRecord.createdAt }
            { email := keyRecord.userEmail },
           (updateApiKeyLastUsed store hashedKey nowUsed writeOk).2)

/-- The object built for one record by `getUserApiKeys` (auth.js). -/
def toMetadata (key : ApiKeyRecord) : KeyMetadata :=
  { id := key.id, name := key.name, deviceName := key.deviceName, deviceID := key.deviceId,
    pfx := key.pfx, createdAt := key.createdAt, lastUsed := key.lastUsed,
    isActive := key.isActive, permissions := key.permissions }

/-- Function `getUserApiKeys` of auth.js, imported by the controller as
`getStoredUserApiKeys`. -/
def getStoredUserApiKeys (store : List ApiKeyRecord) (userEmail : String) : List KeyMetadata :=
  (store.filter fun key => key.userEmail == userEmail).map toMetadata

/-- Handler `getUserApiKeys` of authController.js. -/
def getUserApiKeys (store : List ApiKeyRecord) (user : Option User) :
    AuthResponse × List ApiKeyRecord :=
  match user with
  | none => (.fail 401 "User not authenticated", store)
  | some user =>
    if user.email = "" then (.fail 401 "User not authenticated", store)
    else
      let userKeys := getStoredUserApiKeys store user.email
      (.apiKeys userKeys userKeys.length, store)

/-- A hash for the samples: the text reversed. -/
def sampleHash (s : String) : String := String.mk s.data.reverse

/-- A record of `alice` for `dev1`, as `generateApiKeyForUser` writes it for the key
`sk_abc`. -/
def recordDev1 : ApiKeyRecord :=
  { id := "id-1", userEmail := "alice@x.com", deviceId := .str "dev1",
    deviceName := .str "Device One", hashedKey := sampleHash "sk_abc", pfx := "sk_abc...",
    createdAt := 100, lastUsed := none, isActive := true, name := "Device One API Key",
    permissions := .str "execute_commands", metadata := .obj "\x7b\x7d", expiresAt := none }

/-- A record of `bob`, disabled by hand, for the key `sk_bob`. -/
def recordBob : ApiKeyRecord :=
  { id := "id-2", userEmail := "bob@x.com", deviceId := .str "dev2",
    deviceName := .str "Device Two", hashedKey := sampleHash "sk_bob", pfx := "sk_bob...",
    createdAt := 200, lastUsed := none, isActive := false, name := "Device Two API Key",
    permissions := .str "execute_commands", metadata := .obj "\x7b\x7d", expiresAt := none }

/-- A store with the two sample records. -/
def sampleStore : List ApiKeyRecord := [recordBob, recordDev1]

/-! ## Invariants and relations on the command table -/

/-- Every command is stored under its own `id`. -/
def IdsMatchKeys (st : State) : Prop := ∀ e ∈ st.activeCommands, e.2.id = e.1

/-- The command `c'` has the `id`, text, `deviceId`, `issuedBy` and issuance
`timestamp` of `c`. -/
def SameIdentity (c c' : Command) : Prop :=
  c'.id = c.id ∧ c'.command = c.command ∧ c'.deviceId = c.deviceId ∧
  c'.issuedBy = c.issuedBy ∧ c'.timestamp = c.timestamp

/-- A command with its `fetchedAt` field removed. -/
def eraseFetched (c : Command) : Command := { c with fetchedAt := none }

/-- The state with the `fetchedAt` field of every command removed. -/
def eraseFetchedAll (st : State) : State :=
  { st with activeCommands := st.activeCommands.map fun e => (e.1, eraseFetched e.2) }

/-- Two states that differ at most in the `fetchedAt` fields of their commands. -/
def EqUpToFetched (st₁ st₂ : State) : Prop := eraseFetchedAll st₁ = eraseFetchedAll st₂

/-- The responses to a sequence of requests, handled one after the other. -/
def responses (st : State) : List Request → List Response
  | [] => []
  | r :: rs => (step st r).1 :: responses (step st r).2 rs

instance (st : State) : Decidable (IdsMatchKeys st) :=
  inferInstanceAs (Decidable (∀ e ∈ st.activeCommands, e.2.id = e.1))

instance (st₁ st₂ : State) : Decidable (EqUpToFetched st₁ st₂) :=
  inferInstanceAs (Decidable (eraseFetchedAll st₁ = eraseFetchedAll st₂))

/-- The state `pingState` with the fetch of `dev1` at clock value 5000 recorded on
the command, the presence table being the one of `pingState`. -/
def fetchedState : State :=
  { pingState with
    activeCommands := (checkForCommands pingState (some keyDev1) 5000).2.activeCommands }

/-! ## The debug endpoint (`debugState`, deviceController.js) -/

/-- An element of the `devices` array of `debugState`. -/
structure DebugDevice where
  deviceId : JsVal
  lastActivity : Nat
  online : Bool
  lastSeenAgo : Option String
  deriving DecidableEq, Repr

/-- The UTF-16 code units of a character: one unit inside the Basic Multilingual
Plane, a surrogate pair outside it. -/
def utf16Units (c : Char) : List Nat :=
  if c.toNat < 0x10000 then [c.toNat]
  else [0xD800 + (c.toNat - 0x10000) / 0x400, 0xDC00 + (c.toNat - 0x10000) % 0x400]

/-- A text as JavaScript holds it, a sequence of UTF-16 code units. -/
def utf16 (text : String) : List Nat := (text.data.map utf16Units).flatten

/-- Method `String.prototype.substring` on non-negative integer indices: the code
units from the smaller index up to, not including, the larger one. A cut inside a
surrogate pair keeps the first unit of the pair. -/
def substring (text : String) (indexStart indexEnd : Nat) : List Nat :=
  ((utf16 text).take (max indexStart indexEnd)).drop (min indexStart indexEnd)

/-- An element of the `commands` array of `debugState`; `command` is the shortened
text as UTF-16 code units. -/
structure DebugCommand where
  id : String
  deviceId : JsVal
  command : List Nat
  result : String
  issuedBy : String
  fetched : Bool
  deriving DecidableEq, Repr

/-- The body sent by `debugState`, with the three counters of `stats`. -/
structure DebugBody where
  devices : List DebugDevice
  commands : List DebugCommand
  totalDevices : Nat
  onlineDevices : Nat
  pendingCommands : Nat
  deriving DecidableEq, Repr

/-- The `devices` array of `debugState`. The key passed to `getDeviceStatus` is taken
from the map itself, so the lookup returns the value of that very entry; the
`i`-th entry reads the clock twice, `clock (2 * i)` and `clock (2 * i + 1)`. -/
def debugDevices (clock : Nat → Nat) : Nat → List (JsVal × Nat) → List DebugDevice
  | _, [] => []
  | i, (deviceId, lastActivity) :: rest =>
    { deviceId := deviceId, lastActivity := lastActivity,
      online := decide ((clock (2 * i) : Int) - (lastActivity : Int) < 120000),
      lastSeenAgo :=
        some (toString (Int.fdiv ((clock (2 * i + 1) : Int) - (lastActivity : Int)) 1000)
          ++ " seconds ago") }
    :: debugDevices clock (i + 1) rest

/-- The `commands` array of `debugState`; `cmd.command.substring(0, 50)` throws on
a command text that is not a string (`none`). -/
def debugCommands : List (String × Command) → Option (List DebugCommand)
  | [] => some []
  | (id, cmd) :: rest =>
    match cmd.command with
    | .str text =>
      (debugCommands rest).map fun tail =>
        { id := id, deviceId := cmd.deviceId, command := substring text 0 50,
          result := if cmd.result.truthy then "✓ Completed" else "⏳ Pending",
          issuedBy := cmd.issuedBy, fetched := cmd.fetchedAt.isSome } :: tail
    | _ => none

/-- Handler `debugState`, mounted on `GET /debug` without any authentication
middleware. The result is the body sent with status 200, or `none` when the
handler throws before sending one. -/
def debugState (st : State) (clock : Nat → Nat) : Option DebugBody :=
  let devices := debugDevices clock 0 st.deviceActivity
  (debugCommands st.activeCommands).map fun commands =>
    { devices := devices, commands := commands,
      totalDevices := st.deviceActivity.length,
      onlineDevices := (devices.filter fun d => d.online).length,
      pendingCommands := (commands.filter fun c => !c.result.data.contains '✓').length }

/-- Two command tables with the same keys in the same order whose entries under
a key are either equal or both foreign to the caller. -/
def AgreeExceptForeign (foreign : Command → Bool) (l₁ l₂ : List (String × Command)) : Prop :=
  List.Forall₂
    (fun e₁ e₂ => e₁.1 = e₂.1 ∧ (e₁.2 = e₂.2 ∨ (foreign e₁.2 = true ∧ foreign e₂.2 = true)))
    l₁ l₂

/-- The command is not addressed to the device `deviceId`. -/
def foreignToDevice (deviceId : JsVal) (c : Command) : Bool :=
  !JsVal.strictEq c.deviceId deviceId

/-- The command was not issued by the operator `email`. -/
def foreignToOperator (email : String) (c : Command) : Bool := c.issuedBy != email

/-- The state `pingState` with another text, `rm -rf`, in the command of `alice`. -/
def otherTextState : State :=
  (sendCommand emptyState (some alice) (.str "dev1") (.str "rm -rf") 1000 7 1001).2

/-! ## Issuing and revoking credentials (authController.js, middlewares/auth.js) -/

/-- The digit of `Number.prototype.toString(36)` for a value below 36: `0`-`9`,
then `a`-`z`. -/
def base36Char (d : Nat) : Char :=
  if d < 10 then Char.ofNat (48 + d) else Char.ofNat (87 + d)

/-- The digits of `n` in base 36, most significant first, in front of `acc`;
`fuel` bounds the number of digits. -/
def toBase36Core : Nat → Nat → List Char → List Char
  | 0, _, acc => acc
  | fuel + 1, n, acc =>
    if n / 36 = 0 then base36Char (n % 36) :: acc
    else toBase36Core fuel (n / 36) (base36Char (n % 36) :: acc)

/-- The text `n.toString(36)` of a non-negative integer. -/
def toBase36 (n : Nat) : String := String.mk (toBase36Core (n + 1) n [])

/-- Lower-case hexadecimal text of 32 random bytes,
`crypto.randomBytes(32).toString('hex')`; `rnd % 2 ^ 256` is the big-endian value of
the bytes. -/
def hex64 (rnd : Nat) : String :=
  String.mk ((List.range 64).map fun i => Nat.digitChar ((rnd % 2 ^ 256) / 16 ^ (63 - i) % 16))

/-- Function `generateApiKey`: the text `sk_<Date.now() in base 36>_<64 hex digits>`. -/
def generateApiKey (now rnd : Nat) : String :=
  "sk_" ++ toBase36 now ++ "_" ++ hex64 rnd

/-- The `apiKeyInfo` object of the response of `generateApiKeyForUser`. -/
structure ApiKeyInfo where
  id : String
  deviceId : JsVal
  deviceName : JsVal
  name : String
  pfx : String
  createdAt : Nat
  permissions : JsVal
  deriving DecidableEq, Repr

/-- What `generateApiKeyForUser` and `revokeApiKey` send: an error (`status`,
`message`), the body of a created key (status 201) or of a revoked one (200). -/
inductive KeyResponse where
  | fail (status : Nat) (message : String)
  | created (message : String) (apiKeyInfo : ApiKeyInfo) (securityNotice : String)
  | revoked (message : String)
  deriving DecidableEq, Repr

/-- HTTP status of a response of the credential handlers. -/
def KeyResponse.status : KeyResponse → Nat
  | .fail s _ => s
  | .created _ _ _ => 201
  | .revoked _ => 200

/-- The default of `req.body.permissions || ['execute_commands']`, as JSON text. -/
def defaultPermissions : JsVal := .obj "[\x22execute_commands\x22]"

/-- The device id generated when the request gives none:
`device_<Date.now()>_<4 random bytes in hex>`. -/
def genDeviceId (now rnd : Nat) : String := "device_" ++ toString now ++ "_" ++ hex8 rnd

/-- The `apiKeyRecord` object literal of `generateApiKeyForUser`. `apiKey` is the
generated key, `nameText` the text of `deviceName` in the template literal, `uuid`
the value of `crypto.randomUUID()`, `metadataJson` the JSON text of the `metadata`
object (`createdBy`, `ip`, `userAgent`). -/
def newApiKeyRecord (hash : String → String) (userEmail : String)
    (deviceName finalDeviceId permissions : JsVal) (nameText metadataJson apiKey uuid : String)
    (nowCreated : Nat) : ApiKeyRecord :=
  { id := uuid,
    userEmail := userEmail,
    deviceId := finalDeviceId,
    deviceName := deviceName,
    hashedKey := hash apiKey,
    pfx := String.mk (apiKey.data.take 10) ++ "...",
    createdAt := nowCreated,
    lastUsed := none,
    isActive := true,
    name := nameText ++ " API Key",
    permissions := permissions.orElse defaultPermissions,
    metadata := .obj metadataJson,
    expiresAt := none }

/-- Handler `generateApiKeyForUser`. `nowDevice`/`rndDevice` feed the generated
device id, `nowKey`/`rndKey` feed `generateApiKey`; `writeOk` tells whether
`writeApiKeys` wrote the file, `emailSent` whether `sendApiKeyEmail` returned. The
text of `deviceName` in the template literals is `codeToString`; when it throws
the handler answers 500. -/
def generateApiKeyForUser (hash : String → String) (js : Builtins)
    (store : List ApiKeyRecord) (user : Option User)
    (deviceName deviceId permissions : JsVal) (metadataJson : String)
    (nowDevice rndDevice nowKey rndKey : Nat) (uuid : String) (nowCreated : Nat)
    (writeOk emailSent : Bool) : KeyResponse × List ApiKeyRecord :=
  match user with
  | none => (.fail 401 "User not authenticated", store)
  | some user =>
    if user.email = "" then (.fail 401 "User not authenticated", store)
    else if !deviceName.truthy then (.fail 400 "Device name is required", store)
    else
      let finalDeviceId := deviceId.orElse (.str (genDeviceId nowDevice rndDevice))
      let apiKey := generateApiKey nowKey rndKey
      match codeToString js deviceName with
      | none => (.fail 500 "Internal server error", store)
      | some nameText =>
        let apiKeyRecord := newApiKeyRecord hash user.email deviceName finalDeviceId
          permissions nameText metadataJson apiKey uuid nowCreated
        if !writeOk then (.fail 500 "Failed to save API key", store)
        else if !emailSent then (.fail 500 "Internal server error", store ++ [apiKeyRecord])
        else
          (.created ("API key generated for " ++ nameText)
            { id := apiKeyRecord.id, deviceId := finalDeviceId, deviceName := deviceName,
              name := apiKeyRecord.name, pfx := apiKeyRecord.pfx,
              createdAt := apiKeyRecord.createdAt, permissions := apiKeyRecord.permissions }
            "API key has been sent to your email. Store it securely as it will not be shown again.",
           store ++ [apiKeyRecord])

/-- Method `Array.prototype.findIndex`; `none` is the result `-1`. -/
def findIndex {α : Type} (p : α → Bool) : List α → Option Nat
  | [] => none
  | a :: rest => if p a then some 0 else (findIndex p rest).map fun i => i + 1

/-- Function `deleteApiKeyRecord`: the first record with this id and owner is
spliced out and the file written; the result is `false` when there is no such
record or when the write fails (the file then stays as it was). -/
def deleteApiKeyRecord (store : List ApiKeyRecord) (apiKeyId userEmail : String)
    (writeOk : Bool) : Bool × List ApiKeyRecord :=
  match findIndex (fun key => key.id == apiKeyId && key.userEmail == userEmail) store with
  | none => (false, store)
  | some keyIndex => if writeOk then (true, store.eraseIdx keyIndex) else (false, store)

/-- Handler `revokeApiKey`; `apiKeyId` is the route parameter. -/
def revokeApiKey (store : List ApiKeyRecord) (user : Option User) (apiKeyId : String)
    (writeOk : Bool) : KeyResponse × List ApiKeyRecord :=
  match user with
  | none => (.fail 401 "User not authenticated", store)
  | some user =>
    if user.email = "" then (.fail 401 "User not authenticated", store)
    else
      let deleted := deleteApiKeyRecord store apiKeyId user.email writeOk
      if !deleted.1 then (.fail 404 "API key not found or access denied", deleted.2)
      else (.revoked "API key revoked successfully", deleted.2)

/-- The key generated at clock value 1700000000000 from the random bytes `…01`. -/
def sampleKey : String := generateApiKey 1700000000000 1

/-- The record written for `sampleKey` when `alice` asks for a key for `Device One`
without giving a device id. -/
def sampleRecord : ApiKeyRecord :=
  newApiKeyRecord sampleHash "alice@x.com" (.str "Device One")
    (.str (genDeviceId 1699999999999 7)) .undefined "Device One" "\x7b\x7d" sampleKey
    "123e4567-e89b-42d3-a456-426614174000" 1700000000001

/-! ## Lemmas on the tables -/

theorem strictEq_str_left {d : String} {x : JsVal} (h : JsVal.strictEq (.str d) x = true) :
    x = .str d := by
  cases x <;> simp_all [JsVal.strictEq]

theorem strictEq_str_self (d : String) : JsVal.strictEq (.str d) (.str d) = true := by
  simp [JsVal.strictEq]

theorem mapGet_mapSet_self (l : List (String × Command)) (k : String) (v : Command) :
    mapGet sameKey (mapSet sameKey l k v) k = some v := by
  induction l with
  | nil => simp [mapSet, mapGet]
  | cons e l ih =>
    obtain ⟨k', v'⟩ := e
    by_cases h : k' = k
    · simp [mapSet, mapGet, h]
    · simp [mapSet, mapGet, h, ih]

theorem mapGet_mapSet_other (l : List (String × Command)) (k k' : String) (v : Command)
    (h : k' ≠ k) : mapGet sameKey (mapSet sameKey l k v) k' = mapGet sameKey l k' := by
  induction l with
  | nil => simp [mapSet, mapGet, Ne.symm h]
  | cons e l ih =>
    obtain ⟨k₀, v₀⟩ := e
    by_cases h₀ : k₀ = k
    · subst h₀
      simp [mapSet, mapGet, Ne.symm h]
    · by_cases h₁ : k₀ = k'
      · subst h₁
        simp [mapSet, mapGet, h₀]
      · simp [mapSet, mapGet, h₀, h₁, ih]

theorem mem_mapSet_self (l : List (String × Command)) (k : String) (v : Command) :
    (k, v) ∈ mapSet sameKey l k v := by
  induction l with
  | nil => simp [mapSet]
  | cons e l ih =>
    obtain ⟨k', v'⟩ := e
    by_cases h : k' = k
    · simp [mapSet, h]
    · simp [mapSet, h, ih]

theorem keys_mapSet_of_mem (l : List (String × Command)) (k : String) (v : Command)
    (h : k ∈ l.map Prod.fst) : (mapSet sameKey l k v).map Prod.fst = l.map Prod.fst := by
  induction l with
  | nil => simp at h
  | cons e l ih =>
    obtain ⟨k', v'⟩ := e
    by_cases h' : k' = k
    · simp [mapSet, h']
    · have : k ∈ l.map Prod.fst := by
        simp only [List.map_cons, List.mem_cons] at h
        rcases h with h | h
        · exact absurd h.symm h'
        · exact h
      simp [mapSet, h', ih this]

theorem mapSet_of_not_mem (l : List (String × Command)) (k : String) (v : Command)
    (h : k ∉ l.map Prod.fst) : mapSet sameKey l k v = l ++ [(k, v)] := by
  induction l with
  | nil => simp [mapSet]
  | cons e l ih =>
    obtain ⟨k', v'⟩ := e
    simp only [List.map_cons, List.mem_cons, not_or] at h
    have h' : k' ≠ k := fun h'' => h.1 h''.symm
    simp [mapSet, h', ih h.2]

theorem keys_nodup_mapSet (l : List (String × Command)) (k : String) (v : Command)
    (h : (l.map Prod.fst).Nodup) : ((mapSet sameKey l k v).map Prod.fst).Nodup := by
  by_cases hk : k ∈ l.map Prod.fst
  · rw [keys_mapSet_of_mem l k v hk]; exact h
  · rw [mapSet_of_not_mem l k v hk]
    simp only [List.map_append, List.map_cons, List.map_nil]
    exact List.Nodup.append h (List.nodup_singleton k) (by simpa using hk)

theorem eq_of_mem_mapSet (l : List (String × Command)) (k : String) (v : Command)
    (h : (l.map Prod.fst).Nodup) (e : String × Command) (he : e ∈ mapSet sameKey l k v)
    (hk : e.1 = k) : e = (k, v) := by
  induction l with
  | nil => simpa [mapSet] using he
  | cons e₀ l ih =>
    obtain ⟨k', v'⟩ := e₀
    simp only [List.map_cons, List.nodup_cons] at h
    by_cases h' : k' = k
    · subst h'
      simp only [mapSet, sameKey, beq_self_eq_true, if_true, List.mem_cons] at he
      rcases he with he | he
      · exact he
      · exact absurd (List.mem_map_of_mem Prod.fst he) (hk ▸ h.1)
    · simp only [mapSet, sameKey, beq_iff_eq, h', if_false, List.mem_cons] at he
      rcases he with he | he
      · subst he; exact absurd hk h'
      · exact ih h.2 he

/-- The list returned by the polling loop: the entries that pass the guard, in
table order, each rendered as `{id, command, issuedBy, timestamp}`. -/
theorem pollLoop_fst (d : JsVal) (now : Nat) (l : List (String × Command)) :
    (pollLoop d now l).1 =
      (l.filter fun e => isPendingFor d e.2).map fun e =>
        ({ id := e.1, command := e.2.command, issuedBy := e.2.issuedBy,
           timestamp := e.2.timestamp } : PendingCommand) := by
  induction l with
  | nil => simp [pollLoop]
  | cons e l ih =>
    obtain ⟨k, c⟩ := e
    by_cases h : isPendingFor d c = true
    · simp [pollLoop, h, ih]
    · simp [pollLoop, h, ih]

/-- The table left by the polling loop: the entries that pass the guard get
`fetchedAt = now`, nothing else changes. -/
theorem pollLoop_snd (d : JsVal) (now : Nat) (l : List (String × Command)) :
    (pollLoop d now l).2 = l.map fun e => (e.1, markFetched d now e.2) := by
  induction l with
  | nil => simp [pollLoop]
  | cons e l ih =>
    obtain ⟨k, c⟩ := e
    by_cases h : isPendingFor d c = true
    · simp [pollLoop, markFetched, h, ih]
    · simp [pollLoop, markFetched, h, ih]

/-- The list returned by the polling loop reads only the key, `deviceId`, `result`,
`command`, `issuedBy` and `timestamp` of each entry. -/
theorem pollLoop_fst_congr (d : JsVal) (t t' : Nat) (g : String × Command → Command)
    (hg : ∀ e, (g e).deviceId = e.2.deviceId ∧ (g e).result = e.2.result ∧
      (g e).command = e.2.command ∧ (g e).issuedBy = e.2.issuedBy ∧
      (g e).timestamp = e.2.timestamp)
    (l : List (String × Command)) :
    (pollLoop d t' (l.map fun e => (e.1, g e))).1 = (pollLoop d t l).1 := by
  induction l with
  | nil => simp [pollLoop]
  | cons e l ih =>
    obtain ⟨k, c⟩ := e
    obtain ⟨h1, h2, h3, h4, h5⟩ := hg (k, c)
    simp only [] at h1 h2 h3 h4 h5
    have hp : isPendingFor d (g (k, c)) = isPendingFor d c := by
      simp [isPendingFor, h1, h2]
    by_cases h : isPendingFor d c = true
    · simp [pollLoop, hp, h, ih, h3, h4, h5]
    · simp [pollLoop, hp, h, ih]

theorem markFetched_fields (d : JsVal) (t : Nat) (c : Command) :
    (markFetched d t c).deviceId = c.deviceId ∧ (markFetched d t c).result = c.result ∧
    (markFetched d t c).command = c.command ∧ (markFetched d t c).issuedBy = c.issuedBy ∧
    (markFetched d t c).timestamp = c.timestamp := by
  unfold markFetched
  split <;> simp

/-- A poll by an authenticated device runs the loop and records the heartbeat. -/
theorem checkForCommands_ok (st : State) (key : ApiKey) (t : Nat)
    (h : key.deviceId.truthy = true) :
    checkForCommands st (some key) t =
      (.commands (pollLoop key.deviceId t st.activeCommands).1 key.deviceId key.deviceName t,
       { activeCommands := (pollLoop key.deviceId t st.activeCommands).2,
         deviceActivity := mapSet sameValueZero st.deviceActivity key.deviceId t }) := by
  simp [checkForCommands, h]

/-! ## Issue, then poll -/

/-- C1: after `sendCommand` by an authenticated operator stores command `C` (non-empty
text `c`) for the non-empty device id `d`, the response names the generated id, a poll by a
key of device `d` returns a list that contains `C` with its id, text, issuer and
timestamp, and the list returned to a key of any other device contains no entry
with the id of `C`. -/
theorem issue_then_poll (st : State) (hwf : WellFormed st) (user : User)
    (hu : user.email ≠ "") (d c : String) (hd : d ≠ "") (hc : c ≠ "")
    (idTime rnd now : Nat) :
    (sendCommand st (some user) (.str d) (.str c) idTime rnd now).1 =
        .sent "Command sent to device" (genCommandId idTime rnd) (.str d) now ∧
    (∀ (key : ApiKey) (t : Nat), key.deviceId = .str d →
      ∃ l, (checkForCommands (sendCommand st (some user) (.str d) (.str c) idTime rnd now).2
              (some key) t).1 = .commands l (.str d) key.deviceName t ∧
        ({ id := genCommandId idTime rnd, command := .str c, issuedBy := user.email,
           timestamp := now } : PendingCommand) ∈ l) ∧
    (∀ (key : ApiKey) (t : Nat), key.deviceId ≠ .str d → key.deviceId.truthy = true →
      ∃ l, (checkForCommands (sendCommand st (some user) (.str d) (.str c) idTime rnd now).2
              (some key) t).1 = .commands l key.deviceId key.deviceName t ∧
        ∀ p ∈ l, p.id ≠ genCommandId idTime rnd) := by
  have hsend : sendCommand st (some user) (.str d) (.str c) idTime rnd now =
      (.sent "Command sent to device" (genCommandId idTime rnd) (.str d) now,
       { st with
         activeCommands := mapSet sameKey st.activeCommands (genCommandId idTime rnd)
           { id := genCommandId idTime rnd, command := .str c, deviceId := .str d,
             issuedBy := user.email, timestamp := now, result := .null,
             completedAt := none, fetchedAt := none, success := none } }) := by
    simp [sendCommand, hu, JsVal.truthy, hd, hc]
  rw [hsend]
  refine ⟨rfl, ?_, ?_⟩
  · intro key t hkey
    have htr : key.deviceId.truthy = true := by simp [hkey, JsVal.truthy, hd]
    rw [checkForCommands_ok _ _ _ htr, hkey]
    refine ⟨_, rfl, ?_⟩
    · rw [pollLoop_fst]
      simp only [List.mem_map, List.mem_filter]
      exact ⟨_, ⟨mem_mapSet_self _ _ _, by simp [isPendingFor, JsVal.strictEq, JsVal.truthy]⟩, rfl⟩
  · intro key t hkey htr
    rw [checkForCommands_ok _ _ _ htr]
    refine ⟨_, rfl, ?_⟩
    · intro p hp
      rw [pollLoop_fst] at hp
      simp only [List.mem_map, List.mem_filter] at hp
      obtain ⟨e, ⟨hmem, hpend⟩, rfl⟩ := hp
      intro hid
      have he := eq_of_mem_mapSet _ _ _ hwf e hmem hid
      subst he
      simp only [isPendingFor, Bool.and_eq_true] at hpend
      exact hkey (strictEq_str_left hpend.1)

theorem issue_then_poll_witness :
    (WellFormed pingState ∧ alice.email ≠ "" ∧ "dev2" ≠ "" ∧ "ls" ≠ "") ∧
    ((sendCommand pingState (some alice) (.str "dev2") (.str "ls") 2000 255 2001).1 =
        .sent "Command sent to device" (genCommandId 2000 255) (.str "dev2") 2001 ∧
    (∀ (key : ApiKey) (t : Nat), key.deviceId = .str "dev2" →
      ∃ l, (checkForCommands (sendCommand pingState (some alice) (.str "dev2") (.str "ls")
              2000 255 2001).2 (some key) t).1 = .commands l (.str "dev2") key.deviceName t ∧
        ({ id := genCommandId 2000 255, command := .str "ls", issuedBy := alice.email,
           timestamp := 2001 } : PendingCommand) ∈ l) ∧
    (∀ (key : ApiKey) (t : Nat), key.deviceId ≠ .str "dev2" → key.deviceId.truthy = true →
      ∃ l, (checkForCommands (sendCommand pingState (some alice) (.str "dev2") (.str "ls")
              2000 255 2001).2 (some key) t).1 = .commands l key.deviceId key.deviceName t ∧
        ∀ p ∈ l, p.id ≠ genCommandId 2000 255)) :=
  ⟨⟨by decide, by decide, by decide, by decide⟩,
   issue_then_poll pingState (by decide) alice (by decide) "dev2" "ls" (by decide) (by decide)
     2000 255 2001⟩

/-! ## Submitting and reading a result -/

theorem mapGet_eq_none_iff (l : List (String × Command)) (k : String) :
    mapGet sameKey l k = none ↔ k ∉ l.map Prod.fst := by
  induction l with
  | nil => simp [mapGet]
  | cons e l ih =>
    obtain ⟨k', v'⟩ := e
    by_cases h : k' = k
    · simp [mapGet, h]
    · simp [mapGet, h, ih, Ne.symm h]

theorem orElse_truthy (r : JsVal) : (r.orElse (.str "command executed")).truthy = true := by
  unfold JsVal.orElse
  split
  · assumption
  · decide

theorem orElse_of_truthy {r : JsVal} (h : r.truthy = true) (d : JsVal) : r.orElse d = r := by
  simp [JsVal.orElse, h]

/-- A submission by the device the command is addressed to: the response and
the two tables it leaves. -/
theorem submitCommandResult_ok (st : State) (key : ApiKey) (cid : String) (c : Command)
    (r : JsVal) (now : Nat) (hkey : key.deviceId.truthy = true) (hcid : cid ≠ "")
    (hget : mapGet sameKey st.activeCommands cid = some c)
    (hdev : JsVal.strictEq c.deviceId key.deviceId = true) :
    submitCommandResult st (some key) (.str cid) r now =
      (.command
        { id := c.id, command := c.command, deviceId := c.deviceId, issuedBy := c.issuedBy,
          timestamp := c.timestamp, status := "completed",
          result := some (r.orElse (.str "command executed")),
          completedAt := some (some now), success := some (some true) },
       { activeCommands := mapSet sameKey st.activeCommands cid (completeWith c r now),
         deviceActivity := mapSet sameValueZero st.deviceActivity key.deviceId now }) := by
  have hc : (JsVal.str cid).truthy = true := by simpa [JsVal.truthy] using hcid
  simp only [submitCommandResult, hkey, hc, getCommand]
  rw [hget]
  simp [hdev, setCommand, completeWith]

/-- A read by the issuer of an existing command. -/
theorem getCommandResult_ok (st : State) (user : User) (cid : String) (c : Command)
    (hu : user.email ≠ "") (hcid : cid ≠ "")
    (hget : mapGet sameKey st.activeCommands cid = some c) (hby : c.issuedBy = user.email) :
    getCommandResult st (some user) cid = (.command (resultView c), st) := by
  simp only [getCommandResult, hu, hcid, if_false]
  rw [hget]
  simp [hby]

/-- A read by anyone but the issuer of an existing command. -/
theorem getCommandResult_forbidden (st : State) (user : User) (cid : String) (c : Command)
    (hu : user.email ≠ "") (hcid : cid ≠ "")
    (hget : mapGet sameKey st.activeCommands cid = some c) (hby : c.issuedBy ≠ user.email) :
    getCommandResult st (some user) cid =
      (.fail 403 "Not authorized to view this command", st) := by
  simp only [getCommandResult, hu, hcid, if_false]
  rw [hget]
  simp [hby]

/-- C2 (as amended): for a command stored under `cid`, addressed to the device of `key` and
issued by `user`, a submission with payload `r` succeeds and the issuer then reads
status `completed` with result `r || "command executed"`: the payload itself when
it is truthy, the literal `command executed` when it is falsy. -/
theorem submit_then_getResult (st : State) (key : ApiKey) (user : User) (cid : String)
    (c : Command) (r : JsVal) (now : Nat)
    (hkey : key.deviceId.truthy = true) (hu : user.email ≠ "") (hcid : cid ≠ "")
    (hget : mapGet sameKey st.activeCommands cid = some c)
    (hdev : JsVal.strictEq c.deviceId key.deviceId = true) (hby : c.issuedBy = user.email) :
    (submitCommandResult st (some key) (.str cid) r now).1.status = 200 ∧
    (getCommandResult (submitCommandResult st (some key) (.str cid) r now).2
        (some user) cid).1.shownStatus = some "completed" ∧
    (r.truthy = true →
      (getCommandResult (submitCommandResult st (some key) (.str cid) r now).2
        (some user) cid).1.shownResult = some r) ∧
    (r.truthy = false →
      (getCommandResult (submitCommandResult st (some key) (.str cid) r now).2
        (some user) cid).1.shownResult = some (.str "command executed")) := by
  rw [submitCommandResult_ok st key cid c r now hkey hcid hget hdev]
  have hget' := mapGet_mapSet_self st.activeCommands cid (completeWith c r now)
  rw [getCommandResult_ok _ user cid (completeWith c r now) hu hcid hget'
    (by simpa [completeWith] using hby)]
  have ht := orElse_truthy r
  refine ⟨rfl, ?_, ?_, ?_⟩
  · simp [Response.shownStatus, resultView, completeWith, ht]
  · intro hr
    simp [Response.shownResult, resultView, completeWith, JsVal.orElse, hr]
  · intro hr
    have he : r.orElse (.str "command executed") = .str "command executed" := by
      simp [JsVal.orElse, hr]
    have ht' : (JsVal.str "command executed").truthy = true := by decide
    simp [Response.shownResult, resultView, completeWith, he, ht']

/-- The scenario of the specification: `ping` issued to `dev1`, the device submits
`pong`, the operator reads `completed` and `pong`. -/
theorem submit_then_getResult_witness :
    (keyDev1.deviceId.truthy = true ∧ alice.email ≠ "" ∧ "cmd_1000_00000007" ≠ "" ∧
      mapGet sameKey pingState.activeCommands "cmd_1000_00000007" =
        some (newCommand "cmd_1000_00000007" (.str "ping") (.str "dev1") "alice@x.com" 1001) ∧
      JsVal.strictEq (.str "dev1") keyDev1.deviceId = true) ∧
    ((submitCommandResult pingState (some keyDev1) (.str "cmd_1000_00000007") (.str "pong")
        3000).1.status = 200 ∧
    (getCommandResult (submitCommandResult pingState (some keyDev1) (.str "cmd_1000_00000007")
        (.str "pong") 3000).2 (some alice) "cmd_1000_00000007").1.shownStatus
      = some "completed" ∧
    ((JsVal.str "pong").truthy = true →
      (getCommandResult (submitCommandResult pingState (some keyDev1) (.str "cmd_1000_00000007")
        (.str "pong") 3000).2 (some alice) "cmd_1000_00000007").1.shownResult
      = some (.str "pong")) ∧
    ((JsVal.str "pong").truthy = false →
      (getCommandResult (submitCommandResult pingState (some keyDev1) (.str "cmd_1000_00000007")
        (.str "pong") 3000).2 (some alice) "cmd_1000_00000007").1.shownResult
      = some (.str "command executed"))) :=
  ⟨⟨by decide, by decide, by decide, by decide, by decide⟩,
   submit_then_getResult pingState keyDev1 alice "cmd_1000_00000007"
     (newCommand "cmd_1000_00000007" (.str "ping") (.str "dev1") "alice@x.com" 1001)
     (.str "pong") 3000 (by decide) (by decide) (by decide) (by decide) (by decide) rfl⟩

/-- C2 (counterexample): `ping` is issued to `dev1` and the device submits the empty
string. The submission succeeds and the issuer reads `completed`, but
the result shown is `command executed`, not the submitted payload. -/
theorem submit_empty_payload_not_shown :
    (submitCommandResult pingState (some keyDev1) (.str "cmd_1000_00000007") (.str "")
        3000).1.status = 200 ∧
    (getCommandResult (submitCommandResult pingState (some keyDev1) (.str "cmd_1000_00000007")
        (.str "") 3000).2 (some alice) "cmd_1000_00000007").1.shownStatus = some "completed" ∧
    (getCommandResult (submitCommandResult pingState (some keyDev1) (.str "cmd_1000_00000007")
        (.str "") 3000).2 (some alice) "cmd_1000_00000007").1.shownResult
      = some (.str "command executed") ∧
    (getCommandResult (submitCommandResult pingState (some keyDev1) (.str "cmd_1000_00000007")
        (.str "") 3000).2 (some alice) "cmd_1000_00000007").1.shownResult ≠ some (.str "") := by
  decide

/-! ## Rejected submissions -/

theorem getCommand_eq_none_of_not_str {commandId : JsVal} (cmds : List (String × Command))
    (h : ∀ s, commandId ≠ .str s) : getCommand cmds commandId = none := by
  cases commandId <;> simp_all [getCommand]

/-- C3: a submission by an authenticated device with a non-empty `commandId` is answered
404 `Command not found` when no command is stored under that id and 403 when the
stored command's `deviceId` is not (`!==`) the caller's; in both cases the command
table is left exactly as it was. -/
theorem submit_rejected_leaves_commands (st : State) (key : ApiKey) (commandId result : JsVal)
    (now : Nat) (hkey : key.deviceId.truthy = true) (hcid : commandId.truthy = true) :
    ((∀ s, commandId = .str s → s ∉ commandIds st) →
      (submitCommandResult st (some key) commandId result now).1
          = .fail 404 "Command not found" ∧
      (submitCommandResult st (some key) commandId result now).2.activeCommands
          = st.activeCommands) ∧
    (∀ c, getCommand st.activeCommands commandId = some c →
      JsVal.strictEq c.deviceId key.deviceId = false →
      (submitCommandResult st (some key) commandId result now).1
          = .fail 403 "Not authorized to submit result for this command" ∧
      (submitCommandResult st (some key) commandId result now).2.activeCommands
          = st.activeCommands) := by
  constructor
  · intro hnot
    have hnone : getCommand st.activeCommands commandId = none := by
      by_cases hs : ∃ s, commandId = .str s
      · obtain ⟨s, rfl⟩ := hs
        exact (mapGet_eq_none_iff st.activeCommands s).2 (hnot s rfl)
      · exact getCommand_eq_none_of_not_str _ (fun s h => hs ⟨s, h⟩)
    simp [submitCommandResult, hkey, hcid, hnone]
  · intro c hget hdev
    simp [submitCommandResult, hkey, hcid, hget, hdev]

theorem submit_rejected_leaves_commands_witness :
    (keyDev2.deviceId.truthy = true ∧ (JsVal.str "cmd_1000_00000007").truthy = true) ∧
    (((∀ s, JsVal.str "cmd_1000_00000007" = .str s → s ∉ commandIds pingState) →
      (submitCommandResult pingState (some keyDev2) (.str "cmd_1000_00000007") (.str "pong")
          3000).1 = .fail 404 "Command not found" ∧
      (submitCommandResult pingState (some keyDev2) (.str "cmd_1000_00000007") (.str "pong")
          3000).2.activeCommands = pingState.activeCommands) ∧
    (∀ c, getCommand pingState.activeCommands (.str "cmd_1000_00000007") = some c →
      JsVal.strictEq c.deviceId keyDev2.deviceId = false →
      (submitCommandResult pingState (some keyDev2) (.str "cmd_1000_00000007") (.str "pong")
          3000).1 = .fail 403 "Not authorized to submit result for this command" ∧
      (submitCommandResult pingState (some keyDev2) (.str "cmd_1000_00000007") (.str "pong")
          3000).2.activeCommands = pingState.activeCommands)) :=
  ⟨⟨by decide, by decide⟩,
   submit_rejected_leaves_commands pingState keyDev2 (.str "cmd_1000_00000007") (.str "pong")
     3000 (by decide) (by decide)⟩

/-! ## Last write wins -/

theorem mapSet_mapSet (l : List (String × Command)) (k : String) (v v' : Command) :
    mapSet sameKey (mapSet sameKey l k v) k v' = mapSet sameKey l k v' := by
  induction l with
  | nil => simp [mapSet]
  | cons e l ih =>
    obtain ⟨k', v₀⟩ := e
    by_cases h : k' = k
    · simp [mapSet, h]
    · simp [mapSet, h, ih]

/-- C4: two submissions for the same command by the device it is addressed to both
succeed; the command table is then the one the second submission alone would have
left, so the stored result is the one the second submission recorded and returned
(`r2 || "command executed"`, the payload `r2` itself when it is truthy) and nothing of
`r1` remains; the issuer reads that result. -/
theorem submit_twice_last_write_wins (st : State) (key : ApiKey) (user : User) (cid : String)
    (c : Command) (r1 r2 : JsVal) (now1 now2 : Nat)
    (hkey : key.deviceId.truthy = true) (hu : user.email ≠ "") (hcid : cid ≠ "")
    (hget : mapGet sameKey st.activeCommands cid = some c)
    (hdev : JsVal.strictEq c.deviceId key.deviceId = true) (hby : c.issuedBy = user.email) :
    (submitCommandResult st (some key) (.str cid) r1 now1).1.status = 200 ∧
    (submitCommandResult (submitCommandResult st (some key) (.str cid) r1 now1).2
        (some key) (.str cid) r2 now2).1.status = 200 ∧
    (submitCommandResult (submitCommandResult st (some key) (.str cid) r1 now1).2
        (some key) (.str cid) r2 now2).2.activeCommands
      = (submitCommandResult st (some key) (.str cid) r2 now2).2.activeCommands ∧
    (mapGet sameKey (submitCommandResult (submitCommandResult st (some key) (.str cid) r1 now1).2
        (some key) (.str cid) r2 now2).2.activeCommands cid).map Command.result
      = some (r2.orElse (.str "command executed")) ∧
    (r2.truthy = true →
      (mapGet sameKey (submitCommandResult
          (submitCommandResult st (some key) (.str cid) r1 now1).2
          (some key) (.str cid) r2 now2).2.activeCommands cid).map Command.result = some r2) ∧
    (submitCommandResult (submitCommandResult st (some key) (.str cid) r1 now1).2
        (some key) (.str cid) r2 now2).1.shownResult
      = some (r2.orElse (.str "command executed")) ∧
    (getCommandResult (submitCommandResult (submitCommandResult st (some key) (.str cid) r1 now1).2
        (some key) (.str cid) r2 now2).2 (some user) cid).1.shownResult
      = some (r2.orElse (.str "command executed")) := by
  rw [submitCommandResult_ok st key cid c r1 now1 hkey hcid hget hdev]
  have hget1 := mapGet_mapSet_self st.activeCommands cid (completeWith c r1 now1)
  rw [submitCommandResult_ok _ key cid (completeWith c r1 now1) r2 now2 hkey hcid hget1
    (by simpa [completeWith] using hdev)]
  rw [submitCommandResult_ok st key cid c r2 now2 hkey hcid hget hdev]
  simp only [mapSet_mapSet]
  have hcc : completeWith (completeWith c r1 now1) r2 now2 = completeWith c r2 now2 := rfl
  have hget2 := mapGet_mapSet_self st.activeCommands cid (completeWith c r2 now2)
  rw [hcc, getCommandResult_ok _ user cid (completeWith c r2 now2) hu hcid hget2
    (by simpa [completeWith] using hby), hget2]
  have ht := orElse_truthy r2
  refine ⟨rfl, rfl, rfl, rfl, ?_, rfl, ?_⟩
  · intro hr
    simp [completeWith, orElse_of_truthy hr]
  · simp [Response.shownResult, resultView, completeWith, ht]

theorem submit_twice_last_write_wins_witness :
    (keyDev1.deviceId.truthy = true ∧ alice.email ≠ "" ∧ "cmd_1000_00000007" ≠ "" ∧
      mapGet sameKey pingState.activeCommands "cmd_1000_00000007" =
        some (newCommand "cmd_1000_00000007" (.str "ping") (.str "dev1") "alice@x.com" 1001) ∧
      JsVal.strictEq (.str "dev1") keyDev1.deviceId = true) ∧
    ((submitCommandResult pingState (some keyDev1) (.str "cmd_1000_00000007") (.str "first")
        3000).1.status = 200 ∧
    (submitCommandResult (submitCommandResult pingState (some keyDev1)
        (.str "cmd_1000_00000007") (.str "first") 3000).2
        (some keyDev1) (.str "cmd_1000_00000007") (.str "second") 4000).1.status = 200 ∧
    (submitCommandResult (submitCommandResult pingState (some keyDev1)
        (.str "cmd_1000_00000007") (.str "first") 3000).2
        (some keyDev1) (.str "cmd_1000_00000007") (.str "second") 4000).2.activeCommands
      = (submitCommandResult pingState (some keyDev1) (.str "cmd_1000_00000007")
          (.str "second") 4000).2.activeCommands ∧
    (mapGet sameKey (submitCommandResult (submitCommandResult pingState (some keyDev1)
        (.str "cmd_1000_00000007") (.str "first") 3000).2
        (some keyDev1) (.str "cmd_1000_00000007") (.str "second") 4000).2.activeCommands
        "cmd_1000_00000007").map Command.result
      = some ((JsVal.str "second").orElse (.str "command executed")) ∧
    ((JsVal.str "second").truthy = true →
      (mapGet sameKey (submitCommandResult (submitCommandResult pingState (some keyDev1)
        (.str "cmd_1000_00000007") (.str "first") 3000).2
        (some keyDev1) (.str "cmd_1000_00000007") (.str "second") 4000).2.activeCommands
        "cmd_1000_00000007").map Command.result = some (.str "second")) ∧
    (submitCommandResult (submitCommandResult pingState (some keyDev1)
        (.str "cmd_1000_00000007") (.str "first") 3000).2
        (some keyDev1) (.str "cmd_1000_00000007") (.str "second") 4000).1.shownResult
      = some ((JsVal.str "second").orElse (.str "command executed")) ∧
    (getCommandResult (submitCommandResult (submitCommandResult pingState (some keyDev1)
        (.str "cmd_1000_00000007") (.str "first") 3000).2
        (some keyDev1) (.str "cmd_1000_00000007") (.str "second") 4000).2
        (some alice) "cmd_1000_00000007").1.shownResult
      = some ((JsVal.str "second").orElse (.str "command executed"))) :=
  ⟨⟨by decide, by decide, by decide, by decide, by decide⟩,
   submit_twice_last_write_wins pingState keyDev1 alice "cmd_1000_00000007"
     (newCommand "cmd_1000_00000007" (.str "ping") (.str "dev1") "alice@x.com" 1001)
     (.str "first") (.str "second") 3000 4000
     (by decide) (by decide) (by decide) (by decide) (by decide) rfl⟩

/-! ## Reading a result -/

/-- C5: for an authenticated operator with email `E` and a non-empty `commandId`,
`getCommandResult` answers 404 `Command not found` iff the id is not a key of the table,
403 iff the stored command has `issuedBy ≠ E`, and otherwise the view of the stored
command; whatever the caller and the id, the state is returned unchanged. -/
theorem getCommandResult_cases (st : State) (user : User) (cid : String)
    (hu : user.email ≠ "") (hcid : cid ≠ "") :
    ((getCommandResult st (some user) cid).1 = .fail 404 "Command not found"
      ↔ cid ∉ commandIds st) ∧
    ((getCommandResult st (some user) cid).1 = .fail 403 "Not authorized to view this command"
      ↔ ∃ c, mapGet sameKey st.activeCommands cid = some c ∧ c.issuedBy ≠ user.email) ∧
    (∀ c, mapGet sameKey st.activeCommands cid = some c → c.issuedBy = user.email →
      (getCommandResult st (some user) cid).1 = .command (resultView c)) ∧
    (∀ (caller : Option User) (anyId : String), (getCommandResult st caller anyId).2 = st) := by
  have hnone := mapGet_eq_none_iff st.activeCommands cid
  refine ⟨?_, ?_, ?_, ?_⟩
  · rw [commandIds, ← hnone]
    simp only [getCommandResult, hu, hcid, if_false]
    cases hget : mapGet sameKey st.activeCommands cid with
    | none => simp
    | some c =>
      by_cases hby : c.issuedBy = user.email <;> simp [hby]
  · simp only [getCommandResult, hu, hcid, if_false]
    cases hget : mapGet sameKey st.activeCommands cid with
    | none => simp
    | some c =>
      by_cases hby : c.issuedBy = user.email <;> simp [hby]
  · intro c hget hby
    rw [getCommandResult_ok st user cid c hu hcid hget hby]
  · intro caller anyId
    unfold getCommandResult
    repeat' split
    all_goals rfl

theorem getCommandResult_cases_witness :
    (bob.email ≠ "" ∧ "cmd_1000_00000007" ≠ "") ∧
    (((getCommandResult pingState (some bob) "cmd_1000_00000007").1
        = .fail 404 "Command not found" ↔ "cmd_1000_00000007" ∉ commandIds pingState) ∧
    ((getCommandResult pingState (some bob) "cmd_1000_00000007").1
        = .fail 403 "Not authorized to view this command"
      ↔ ∃ c, mapGet sameKey pingState.activeCommands "cmd_1000_00000007" = some c ∧
          c.issuedBy ≠ bob.email) ∧
    (∀ c, mapGet sameKey pingState.activeCommands "cmd_1000_00000007" = some c →
      c.issuedBy = bob.email →
      (getCommandResult pingState (some bob) "cmd_1000_00000007").1
        = .command (resultView c)) ∧
    (∀ (caller : Option User) (anyId : String),
      (getCommandResult pingState caller anyId).2 = pingState)) :=
  ⟨⟨by decide, by decide⟩,
   getCommandResult_cases pingState bob "cmd_1000_00000007" (by decide) (by decide)⟩

/-! ## Status of a command -/

theorem genCommandId_ne_empty (idTime rnd : Nat) : genCommandId idTime rnd ≠ "" := by
  intro h
  have hl := congrArg String.length h
  simp only [genCommandId, String.length_append] at hl
  have h4 : "cmd_".length = 4 := by decide
  have h0 : "".length = 0 := by decide
  omega

/-- An accepted `sendCommand`: the response and the table it leaves. -/
theorem sendCommand_ok (st : State) (user : User) (deviceId command : JsVal)
    (idTime rnd now : Nat) (hu : user.email ≠ "") (hd : deviceId.truthy = true)
    (hc : command.truthy = true) :
    sendCommand st (some user) deviceId command idTime rnd now =
      (.sent "Command sent to device" (genCommandId idTime rnd) deviceId now,
       { activeCommands := mapSet sameKey st.activeCommands (genCommandId idTime rnd)
           (newCommand (genCommandId idTime rnd) command deviceId user.email now),
         deviceActivity := st.deviceActivity }) := by
  simp [sendCommand, hu, hd, hc, newCommand]

/-- C6: for a command `c` stored under `cid` and issued by the caller, `getCommandResult`
returns a view whose status is `completed` exactly when `c.result` is set (truthy)
and `pending` otherwise (in particular when it is `null`); the view carries `result` and
`completedAt` in the completed case only; the status is the same for any stored command
with the same result, whatever its other fields (`fetchedAt`, `completedAt`,
`success`); and a command just issued reads as `pending`. -/
theorem status_from_result (st : State) (user : User) (cid : String) (c : Command)
    (hu : user.email ≠ "") (hcid : cid ≠ "")
    (hget : mapGet sameKey st.activeCommands cid = some c) (hby : c.issuedBy = user.email) :
    (∃ v, (getCommandResult st (some user) cid).1 = .command v ∧
      (v.status = "completed" ↔ c.result.truthy = true) ∧
      (v.status = "pending" ↔ c.result.truthy = false) ∧
      (c.result = .null → v.status = "pending") ∧
      (c.result.truthy = true → v.result = some c.result ∧ v.completedAt = some c.completedAt) ∧
      (c.result.truthy = false → v.result = none ∧ v.completedAt = none)) ∧
    (∀ (st' : State) (c' : Command), mapGet sameKey st'.activeCommands cid = some c' →
      c'.issuedBy = user.email → c'.result = c.result →
      (getCommandResult st' (some user) cid).1.shownStatus
        = (getCommandResult st (some user) cid).1.shownStatus) ∧
    (∀ (deviceId command : JsVal) (idTime rnd now : Nat),
      deviceId.truthy = true → command.truthy = true →
      (getCommandResult (sendCommand st (some user) deviceId command idTime rnd now).2
        (some user) (genCommandId idTime rnd)).1.shownStatus = some "pending") := by
  refine ⟨⟨resultView c, ?_, ?_, ?_, ?_, ?_, ?_⟩, ?_, ?_⟩
  · rw [getCommandResult_ok st user cid c hu hcid hget hby]
  · by_cases h : c.result.truthy = true <;> simp [resultView, h]
  · by_cases h : c.result.truthy = true <;> simp [resultView, h]
  · intro h
    simp [resultView, h, JsVal.truthy]
  · intro h
    simp [resultView, h]
  · intro h
    simp [resultView, h]
  · intro st' c' hget' hby' hres
    rw [getCommandResult_ok st user cid c hu hcid hget hby,
      getCommandResult_ok st' user cid c' hu hcid hget' hby']
    simp [Response.shownStatus, resultView, hres]
  · intro deviceId command idTime rnd now hd hc
    rw [sendCommand_ok st user deviceId command idTime rnd now hu hd hc]
    rw [getCommandResult_ok _ user (genCommandId idTime rnd)
      (newCommand (genCommandId idTime rnd) command deviceId user.email now) hu
      (genCommandId_ne_empty idTime rnd) (mapGet_mapSet_self _ _ _) rfl]
    simp [Response.shownStatus, resultView, newCommand, JsVal.truthy]

theorem status_from_result_witness :
    (alice.email ≠ "" ∧ "cmd_1000_00000007" ≠ "" ∧
      mapGet sameKey pingState.activeCommands "cmd_1000_00000007" =
        some (newCommand "cmd_1000_00000007" (.str "ping") (.str "dev1") "alice@x.com" 1001)) ∧
    ((∃ v, (getCommandResult pingState (some alice) "cmd_1000_00000007").1 = .command v ∧
      (v.status = "completed" ↔
        (newCommand "cmd_1000_00000007" (.str "ping") (.str "dev1") "alice@x.com"
          1001).result.truthy = true) ∧
      (v.status = "pending" ↔
        (newCommand "cmd_1000_00000007" (.str "ping") (.str "dev1") "alice@x.com"
          1001).result.truthy = false) ∧
      ((newCommand "cmd_1000_00000007" (.str "ping") (.str "dev1") "alice@x.com"
          1001).result = .null → v.status = "pending") ∧
      ((newCommand "cmd_1000_00000007" (.str "ping") (.str "dev1") "alice@x.com"
          1001).result.truthy = true →
        v.result = some (newCommand "cmd_1000_00000007" (.str "ping") (.str "dev1")
          "alice@x.com" 1001).result ∧
        v.completedAt = some (newCommand "cmd_1000_00000007" (.str "ping") (.str "dev1")
          "alice@x.com" 1001).completedAt) ∧
      ((newCommand "cmd_1000_00000007" (.str "ping") (.str "dev1") "alice@x.com"
          1001).result.truthy = false → v.result = none ∧ v.completedAt = none)) ∧
    (∀ (st' : State) (c' : Command),
      mapGet sameKey st'.activeCommands "cmd_1000_00000007" = some c' →
      c'.issuedBy = alice.email →
      c'.result = (newCommand "cmd_1000_00000007" (.str "ping") (.str "dev1") "alice@x.com"
          1001).result →
      (getCommandResult st' (some alice) "cmd_1000_00000007").1.shownStatus
        = (getCommandResult pingState (some alice) "cmd_1000_00000007").1.shownStatus) ∧
    (∀ (deviceId command : JsVal) (idTime rnd now : Nat),
      deviceId.truthy = true → command.truthy = true →
      (getCommandResult (sendCommand pingState (some alice) deviceId command idTime rnd now).2
        (some alice) (genCommandId idTime rnd)).1.shownStatus = some "pending")) :=
  ⟨⟨by decide, by decide, by decide⟩,
   status_from_result pingState alice "cmd_1000_00000007"
     (newCommand "cmd_1000_00000007" (.str "ping") (.str "dev1") "alice@x.com" 1001)
     (by decide) (by decide) (by decide) rfl⟩

/-! ## Polling -/

/-- C7: a poll by an authenticated device returns, in table order, exactly the commands
whose `deviceId` is (`===`) the caller's and whose `result` is unset (falsy), each as
`{id, command, issuedBy, timestamp}`; the list is the same for a table that differs only
in `fetchedAt` fields, and a second poll right after the first returns the same list. -/
theorem poll_returns_pending (st : State) (key : ApiKey) (t : Nat)
    (hkey : key.deviceId.truthy = true) :
    (checkForCommands st (some key) t).1 =
      .commands
        ((st.activeCommands.filter fun e =>
            JsVal.strictEq e.2.deviceId key.deviceId && !e.2.result.truthy).map fun e =>
          ({ id := e.1, command := e.2.command, issuedBy := e.2.issuedBy,
             timestamp := e.2.timestamp } : PendingCommand))
        key.deviceId key.deviceName t ∧
    (∀ (f : String × Command → Option Nat),
      (checkForCommands
        { st with activeCommands :=
            st.activeCommands.map fun e => (e.1, { e.2 with fetchedAt := f e }) }
        (some key) t).1 = (checkForCommands st (some key) t).1) ∧
    (∀ t', (checkForCommands (checkForCommands st (some key) t).2 (some key) t').1.pending
      = (checkForCommands st (some key) t).1.pending) := by
  refine ⟨?_, ?_, ?_⟩
  · rw [checkForCommands_ok st key t hkey, pollLoop_fst]
    rfl
  · intro f
    rw [checkForCommands_ok _ key t hkey, checkForCommands_ok st key t hkey]
    simp only
    rw [pollLoop_fst_congr key.deviceId t t (fun e => { e.2 with fetchedAt := f e })
      (fun e => ⟨rfl, rfl, rfl, rfl, rfl⟩)]
  · intro t'
    rw [checkForCommands_ok st key t hkey, checkForCommands_ok _ key t' hkey]
    simp only [Response.pending]
    rw [pollLoop_snd, pollLoop_fst_congr key.deviceId t t'
      (fun e => markFetched key.deviceId t e.2)
      (fun e => markFetched_fields key.deviceId t e.2)]

theorem poll_returns_pending_witness :
    keyDev1.deviceId.truthy = true ∧
    ((checkForCommands pingState (some keyDev1) 5000).1 =
      .commands
        ((pingState.activeCommands.filter fun e =>
            JsVal.strictEq e.2.deviceId keyDev1.deviceId && !e.2.result.truthy).map fun e =>
          ({ id := e.1, command := e.2.command, issuedBy := e.2.issuedBy,
             timestamp := e.2.timestamp } : PendingCommand))
        keyDev1.deviceId keyDev1.deviceName 5000 ∧
    (∀ (f : String × Command → Option Nat),
      (checkForCommands
        { pingState with activeCommands :=
            pingState.activeCommands.map fun e => (e.1, { e.2 with fetchedAt := f e }) }
        (some keyDev1) 5000).1 = (checkForCommands pingState (some keyDev1) 5000).1) ∧
    (∀ t', (checkForCommands (checkForCommands pingState (some keyDev1) 5000).2
        (some keyDev1) t').1.pending
      = (checkForCommands pingState (some keyDev1) 5000).1.pending)) :=
  ⟨by decide, poll_returns_pending pingState keyDev1 5000 (by decide)⟩

/-! ## Completed is absorbing -/

theorem mapGet_map_snd (g : Command → Command) (l : List (String × Command)) (k : String) :
    mapGet sameKey (l.map fun e => (e.1, g e.2)) k = (mapGet sameKey l k).map g := by
  induction l with
  | nil => simp [mapGet]
  | cons e l ih =>
    obtain ⟨k', v⟩ := e
    by_cases h : k' = k
    · simp [mapGet, h]
    · simp [mapGet, h, ih]

theorem mapGet_of_mem (l : List (String × Command)) (h : (l.map Prod.fst).Nodup)
    (k : String) (v : Command) (hm : (k, v) ∈ l) : mapGet sameKey l k = some v := by
  induction l with
  | nil => simp at hm
  | cons e l ih =>
    obtain ⟨k', v'⟩ := e
    simp only [List.map_cons, List.nodup_cons] at h
    simp only [List.mem_cons, Prod.mk.injEq] at hm
    rcases hm with ⟨rfl, rfl⟩ | hm
    · simp [mapGet]
    · have hne : k' ≠ k := fun hk => h.1 (hk ▸ List.mem_map_of_mem Prod.fst hm)
      simp [mapGet, hne, ih h.2 hm]

/-- The command table after `sendCommand`. -/
theorem sendCommand_commands (st : State) (user : Option User) (deviceId command : JsVal)
    (idTime rnd now : Nat) :
    (sendCommand st user deviceId command idTime rnd now).2.activeCommands = st.activeCommands ∨
    ∃ email, (sendCommand st user deviceId command idTime rnd now).1.status = 200 ∧
      (sendCommand st user deviceId command idTime rnd now).2.activeCommands =
        mapSet sameKey st.activeCommands (genCommandId idTime rnd)
          (newCommand (genCommandId idTime rnd) command deviceId email now) := by
  unfold sendCommand
  split
  · exact Or.inl rfl
  · split
    · exact Or.inl rfl
    · split
      · exact Or.inl rfl
      · exact Or.inr ⟨_, rfl, rfl⟩

/-- The command table after `checkForCommands`. -/
theorem checkForCommands_commands (st : State) (apiKey : Option ApiKey) (t : Nat) :
    (checkForCommands st apiKey t).2.activeCommands = st.activeCommands ∨
    ∃ d, (checkForCommands st apiKey t).2.activeCommands =
      st.activeCommands.map fun e => (e.1, markFetched d t e.2) := by
  unfold checkForCommands
  split
  · exact Or.inl rfl
  · split
    · exact Or.inl rfl
    · exact Or.inr ⟨_, pollLoop_snd _ _ _⟩

/-- The command table after `submitCommandResult`. -/
theorem submitCommandResult_commands (st : State) (apiKey : Option ApiKey)
    (commandId r : JsVal) (now : Nat) :
    (submitCommandResult st apiKey commandId r now).2.activeCommands = st.activeCommands ∨
    ∃ s c, commandId = .str s ∧ mapGet sameKey st.activeCommands s = some c ∧
      (submitCommandResult st apiKey commandId r now).2.activeCommands =
        mapSet sameKey st.activeCommands s (completeWith c r now) := by
  cases apiKey with
  | none => exact Or.inl rfl
  | some key =>
    by_cases hk : key.deviceId.truthy = true
    · by_cases hc : commandId.truthy = true
      · cases hget : getCommand st.activeCommands commandId with
        | none => left; simp [submitCommandResult, hk, hc, hget]
        | some c =>
          by_cases hd : JsVal.strictEq c.deviceId key.deviceId = true
          · cases commandId with
            | str s =>
              exact Or.inr ⟨s, c, rfl, hget, by
                simp [submitCommandResult, hk, hc, hget, hd, setCommand, completeWith]⟩
            | _ => simp [getCommand] at hget
          · left; simp [submitCommandResult, hk, hc, hget, hd]
      · left; simp [submitCommandResult, hk, hc]
    · left; simp [submitCommandResult, hk]

theorem getCommandResult_state (st : State) (user : Option User) (cid : String) :
    (getCommandResult st user cid).2 = st := by
  unfold getCommandResult
  repeat' split
  all_goals rfl

/-- Every handler keeps the keys of the command table distinct. -/
theorem wellFormed_step (st : State) (r : Request) (h : WellFormed st) :
    WellFormed (step st r).2 := by
  unfold WellFormed commandIds at *
  cases r with
  | send user deviceId command idTime rnd now =>
    rcases sendCommand_commands st user deviceId command idTime rnd now with h' | ⟨_, _, h'⟩
    · simpa [step, h'] using h
    · simp only [step, h']
      exact keys_nodup_mapSet _ _ _ h
  | poll apiKey t =>
    rcases checkForCommands_commands st apiKey t with h' | ⟨_, h'⟩
    · simpa [step, h'] using h
    · simp only [step, h', List.map_map]
      exact h
  | submit apiKey commandId r now =>
    rcases submitCommandResult_commands st apiKey commandId r now with h' | ⟨_, _, _, _, h'⟩
    · simpa [step, h'] using h
    · simp only [step, h']
      exact keys_nodup_mapSet _ _ _ h
  | getResult user cid =>
    simpa [step, getCommandResult_state] using h

theorem wellFormed_run (reqs : List Request) (st : State) (h : WellFormed st) :
    WellFormed (run st reqs) := by
  induction reqs generalizing st with
  | nil => exact h
  | cons r rs ih => exact ih _ (wellFormed_step st r h)

/-- A command that has a result keeps one through any request, provided a `send`
does not reuse its id. -/
theorem completed_step (cid : String) (st : State) (r : Request) (h : Completed cid st)
    (hfresh : FreshIds st [r]) : Completed cid (step st r).2 := by
  obtain ⟨c, hget, htr⟩ := h
  cases r with
  | send user deviceId command idTime rnd now =>
    rcases sendCommand_commands st user deviceId command idTime rnd now with h' | ⟨_, h200, h'⟩
    · exact ⟨c, by simpa [step, h'] using hget, htr⟩
    · have hne : cid ≠ genCommandId idTime rnd := by
        intro he
        have hmem : cid ∈ st.activeCommands.map Prod.fst := by
          by_contra hn
          rw [(mapGet_eq_none_iff _ _).2 hn] at hget
          cases hget
        exact hfresh.1 h200 (he ▸ hmem)
      refine ⟨c, ?_, htr⟩
      simp only [step, h']
      rw [mapGet_mapSet_other _ _ _ _ hne]
      exact hget
  | poll apiKey t =>
    rcases checkForCommands_commands st apiKey t with h' | ⟨d, h'⟩
    · exact ⟨c, by simpa [step, h'] using hget, htr⟩
    · refine ⟨markFetched d t c, ?_, ?_⟩
      · simp only [step, h']
        rw [mapGet_map_snd, hget]
        rfl
      · rw [(markFetched_fields d t c).2.1]
        exact htr
  | submit apiKey commandId r now =>
    rcases submitCommandResult_commands st apiKey commandId r now with
      h' | ⟨s, c', _, hget', h'⟩
    · exact ⟨c, by simpa [step, h'] using hget, htr⟩
    · by_cases hs : cid = s
      · subst hs
        refine ⟨completeWith c' r now, ?_, orElse_truthy r⟩
        simp only [step, h']
        exact mapGet_mapSet_self _ _ _
      · refine ⟨c, ?_, htr⟩
        simp only [step, h']
        rw [mapGet_mapSet_other _ _ _ _ hs]
        exact hget
  | getResult user id =>
    exact ⟨c, by simpa [step, getCommandResult_state] using hget, htr⟩

theorem completed_run (cid : String) (reqs : List Request) (st : State)
    (h : Completed cid st) (hfresh : FreshIds st reqs) : Completed cid (run st reqs) := by
  induction reqs generalizing st with
  | nil => exact h
  | cons r rs ih =>
    exact ih _ (completed_step cid st r h ⟨hfresh.1, trivial⟩) hfresh.2

/-- An accepted submission had an authenticated device, a non-empty id and a stored
command addressed to the device. -/
theorem submit_accepted (st : State) (key : ApiKey) (cid : String) (r : JsVal) (now : Nat)
    (hok : (submitCommandResult st (some key) (.str cid) r now).1.status = 200) :
    key.deviceId.truthy = true ∧ cid ≠ "" ∧
    ∃ c, mapGet sameKey st.activeCommands cid = some c ∧
      JsVal.strictEq c.deviceId key.deviceId = true := by
  by_cases hk : key.deviceId.truthy = true
  · by_cases hc : (JsVal.str cid).truthy = true
    · cases hget : getCommand st.activeCommands (.str cid) with
      | none => simp [submitCommandResult, hk, hc, hget, Response.status] at hok
      | some c =>
        by_cases hd : JsVal.strictEq c.deviceId key.deviceId = true
        · refine ⟨hk, ?_, c, hget, hd⟩
          intro he
          simp [he, JsVal.truthy] at hc
        · simp [submitCommandResult, hk, hc, hget, hd, Response.status] at hok
    · simp [submitCommandResult, hk, hc, Response.status] at hok
  · simp [submitCommandResult, hk, Response.status] at hok

/-- C8: once a submission for the command under `cid` has been accepted (whatever the
payload, falsy ones included), after any sequence of `sendCommand`, `checkForCommands`,
`submitCommandResult` and `getCommandResult` requests in which every `sendCommand`
generates an id not yet in the table, the command still has a result: no poll
returns it and `getCommandResult` never reports it `pending`. -/
theorem completed_is_absorbing (st : State) (hwf : WellFormed st) (key : ApiKey)
    (cid : String) (r : JsVal) (now : Nat) (reqs : List Request)
    (hok : (submitCommandResult st (some key) (.str cid) r now).1.status = 200)
    (hfresh : FreshIds (submitCommandResult st (some key) (.str cid) r now).2 reqs) :
    (∃ c, mapGet sameKey
        (run (submitCommandResult st (some key) (.str cid) r now).2 reqs).activeCommands cid
          = some c ∧ c.result.truthy = true) ∧
    (∀ (apiKey : Option ApiKey) (t : Nat),
      ∀ p ∈ (checkForCommands (run (submitCommandResult st (some key) (.str cid) r now).2 reqs)
          apiKey t).1.pending, p.id ≠ cid) ∧
    (∀ (user : Option User),
      (getCommandResult (run (submitCommandResult st (some key) (.str cid) r now).2 reqs)
          user cid).1.shownStatus ≠ some "pending") := by
  obtain ⟨hkey, hcid, c, hget, hdev⟩ := submit_accepted st key cid r now hok
  have hsub := submitCommandResult_ok st key cid c r now hkey hcid hget hdev
  have hwf1 : WellFormed (submitCommandResult st (some key) (.str cid) r now).2 :=
    wellFormed_step st (.submit (some key) (.str cid) r now) hwf
  have hc1 : Completed cid (submitCommandResult st (some key) (.str cid) r now).2 := by
    rw [hsub]
    exact ⟨completeWith c r now, mapGet_mapSet_self _ _ _, orElse_truthy r⟩
  have hwfN := wellFormed_run reqs _ hwf1
  obtain ⟨cN, hgetN, htrN⟩ := completed_run cid reqs _ hc1 hfresh
  refine ⟨⟨cN, hgetN, htrN⟩, ?_, ?_⟩
  · intro apiKey t p hp
    cases apiKey with
    | none => simp [checkForCommands, Response.pending] at hp
    | some k =>
      by_cases hk : k.deviceId.truthy = true
      · rw [checkForCommands_ok _ k t hk] at hp
        simp only [Response.pending, pollLoop_fst, List.mem_map, List.mem_filter] at hp
        obtain ⟨e, ⟨hmem, hpend⟩, rfl⟩ := hp
        intro hid
        simp only at hid
        have hgetE := mapGet_of_mem _ hwfN e.1 e.2 hmem
        rw [hid, hgetN] at hgetE
        have hce : cN = e.2 := Option.some.inj hgetE
        simp only [isPendingFor, Bool.and_eq_true, Bool.not_eq_true', ← hce] at hpend
        rw [htrN] at hpend
        exact Bool.noConfusion hpend.2
      · simp [checkForCommands, hk, Response.pending] at hp
  · intro user
    cases user with
    | none => simp [getCommandResult, Response.shownStatus]
    | some u =>
      by_cases hu : u.email = ""
      · simp [getCommandResult, hu, Response.shownStatus]
      · by_cases hby : cN.issuedBy = u.email
        · rw [getCommandResult_ok _ u cid cN hu hcid hgetN hby]
          simp [Response.shownStatus, resultView, htrN]
        · rw [getCommandResult_forbidden _ u cid cN hu hcid hgetN hby]
          simp [Response.shownStatus]

theorem completed_is_absorbing_witness :
    (WellFormed pingState ∧
      (submitCommandResult pingState (some keyDev1) (.str "cmd_1000_00000007") .undefined
        3000).1.status = 200 ∧
      FreshIds (submitCommandResult pingState (some keyDev1) (.str "cmd_1000_00000007")
        .undefined 3000).2
        [.poll (some keyDev1) 4000,
         .send (some alice) (.str "dev1") (.str "ping") 5000 7 5001,
         .submit (some keyDev1) (.str "cmd_5000_00000007") (.str "pong") 6000,
         .getResult (some alice) "cmd_1000_00000007"]) ∧
    ((∃ c, mapGet sameKey
        (run (submitCommandResult pingState (some keyDev1) (.str "cmd_1000_00000007")
          .undefined 3000).2
          [.poll (some keyDev1) 4000,
           .send (some alice) (.str "dev1") (.str "ping") 5000 7 5001,
           .submit (some keyDev1) (.str "cmd_5000_00000007") (.str "pong") 6000,
           .getResult (some alice) "cmd_1000_00000007"]).activeCommands "cmd_1000_00000007"
          = some c ∧ c.result.truthy = true) ∧
    (∀ (apiKey : Option ApiKey) (t : Nat),
      ∀ p ∈ (checkForCommands
          (run (submitCommandResult pingState (some keyDev1) (.str "cmd_1000_00000007")
            .undefined 3000).2
            [.poll (some keyDev1) 4000,
             .send (some alice) (.str "dev1") (.str "ping") 5000 7 5001,
             .submit (some keyDev1) (.str "cmd_5000_00000007") (.str "pong") 6000,
             .getResult (some alice) "cmd_1000_00000007"])
          apiKey t).1.pending, p.id ≠ "cmd_1000_00000007") ∧
    (∀ (user : Option User),
      (getCommandResult
          (run (submitCommandResult pingState (some keyDev1) (.str "cmd_1000_00000007")
            .undefined 3000).2
            [.poll (some keyDev1) 4000,
             .send (some alice) (.str "dev1") (.str "ping") 5000 7 5001,
             .submit (some keyDev1) (.str "cmd_5000_00000007") (.str "pong") 6000,
             .getResult (some alice) "cmd_1000_00000007"])
          user "cmd_1000_00000007").1.shownStatus ≠ some "pending")) :=
  ⟨⟨by decide, by decide, ⟨trivial, fun _ => by decide, trivial, trivial, trivial⟩⟩,
   completed_is_absorbing pingState (by decide) keyDev1 "cmd_1000_00000007" .undefined 3000
     [.poll (some keyDev1) 4000,
      .send (some alice) (.str "dev1") (.str "ping") 5000 7 5001,
      .submit (some keyDev1) (.str "cmd_5000_00000007") (.str "pong") 6000,
      .getResult (some alice) "cmd_1000_00000007"]
     (by decide) ⟨trivial, fun _ => by decide, trivial, trivial, trivial⟩⟩

/-! ## Validation of `sendCommand` -/

/-- C9: for an authenticated operator, `sendCommand` with a falsy `deviceId` or a falsy
`command` (missing, `null`, empty string, `0`, `false`) answers 400
`Device ID and command are required` and leaves the state unchanged; with both
truthy it answers 200 with the generated id, whatever the presence table holds. -/
theorem sendCommand_validation (st : State) (user : User) (deviceId command : JsVal)
    (idTime rnd now : Nat) (hu : user.email ≠ "") :
    (deviceId.truthy = false ∨ command.truthy = false →
      sendCommand st (some user) deviceId command idTime rnd now
        = (.fail 400 "Device ID and command are required", st)) ∧
    (deviceId = .undefined ∨ deviceId = .str "" ∨ command = .undefined ∨ command = .str "" →
      sendCommand st (some user) deviceId command idTime rnd now
        = (.fail 400 "Device ID and command are required", st)) ∧
    (deviceId.truthy = true → command.truthy = true →
      ∀ presence : List (JsVal × Nat),
        (sendCommand { st with deviceActivity := presence } (some user) deviceId command
          idTime rnd now).1
          = .sent "Command sent to device" (genCommandId idTime rnd) deviceId now) := by
  have hfalsy : deviceId.truthy = false ∨ command.truthy = false →
      sendCommand st (some user) deviceId command idTime rnd now
        = (.fail 400 "Device ID and command are required", st) := by
    intro h
    rcases h with h | h <;> simp [sendCommand, hu, h]
  refine ⟨hfalsy, ?_, ?_⟩
  · intro h
    apply hfalsy
    rcases h with h | h | h | h
    · left; rw [h]; rfl
    · left; rw [h]; rfl
    · right; rw [h]; rfl
    · right; rw [h]; rfl
  · intro hd hc presence
    rw [sendCommand_ok _ user deviceId command idTime rnd now hu hd hc]

theorem sendCommand_validation_witness :
    alice.email ≠ "" ∧
    (((JsVal.str "").truthy = false ∨ (JsVal.str "ls").truthy = false →
      sendCommand pingState (some alice) (.str "") (.str "ls") 2000 9 2001
        = (.fail 400 "Device ID and command are required", pingState)) ∧
    (JsVal.str "" = .undefined ∨ JsVal.str "" = .str "" ∨ JsVal.str "ls" = .undefined ∨
        JsVal.str "ls" = .str "" →
      sendCommand pingState (some alice) (.str "") (.str "ls") 2000 9 2001
        = (.fail 400 "Device ID and command are required", pingState)) ∧
    ((JsVal.str "").truthy = true → (JsVal.str "ls").truthy = true →
      ∀ presence : List (JsVal × Nat),
        (sendCommand { pingState with deviceActivity := presence } (some alice) (.str "")
          (.str "ls") 2000 9 2001).1
          = .sent "Command sent to device" (genCommandId 2000 9) (.str "") 2001)) :=
  ⟨by decide, sendCommand_validation pingState alice (.str "") (.str "ls") 2000 9 2001
    (by decide)⟩

/-! ## Command ids -/

theorem digitChar_toNat (k : Nat) (h : k < 10) : (Nat.digitChar k).toNat - 48 = k := by
  interval_cases k <;> rfl

theorem decVal_append_singleton (l : List Char) (d : Char) :
    decVal (l ++ [d]) = 10 * decVal l + (d.toNat - 48) := by
  simp [decVal, List.foldl_append]

theorem toDigitsCore_spec (fuel : Nat) : ∀ (n : Nat) (ds : List Char), n < fuel →
    ∃ l, Nat.toDigitsCore 10 fuel n ds = l ++ ds ∧ decVal l = n := by
  induction fuel with
  | zero => intro n ds h; omega
  | succ fuel ih =>
    intro n ds h
    unfold Nat.toDigitsCore
    by_cases h0 : n / 10 = 0
    · refine ⟨[Nat.digitChar (n % 10)], by simp [h0], ?_⟩
      have : decVal [Nat.digitChar (n % 10)] = (Nat.digitChar (n % 10)).toNat - 48 := by
        simp [decVal]
      rw [this, digitChar_toNat _ (Nat.mod_lt _ (by decide))]
      omega
    · obtain ⟨l, hl, hv⟩ := ih (n / 10) (Nat.digitChar (n % 10) :: ds) (by omega)
      refine ⟨l ++ [Nat.digitChar (n % 10)], by simp [h0, hl], ?_⟩
      rw [decVal_append_singleton, hv, digitChar_toNat _ (Nat.mod_lt _ (by decide))]
      omega

theorem toString_nat_injective {a b : Nat} (h : (toString a).data = (toString b).data) : a = b := by
  obtain ⟨la, hla, hva⟩ := toDigitsCore_spec (a + 1) a [] (by omega)
  obtain ⟨lb, hlb, hvb⟩ := toDigitsCore_spec (b + 1) b [] (by omega)
  have ha : (toString a).data = la := by
    simpa [toString, Nat.repr, Nat.toDigits, List.asString] using hla
  have hb : (toString b).data = lb := by
    simpa [toString, Nat.repr, Nat.toDigits, List.asString] using hlb
  rw [ha, hb] at h
  rw [← hva, ← hvb, h]

theorem digitChar_inj16 : ∀ a b : Fin 16, Nat.digitChar a = Nat.digitChar b → a = b := by
  decide

theorem hex8_injective {a b : Nat} (h : (hex8 a).data = (hex8 b).data) :
    a % 2 ^ 32 = b % 2 ^ 32 := by
  have hr : List.range 8 = [0, 1, 2, 3, 4, 5, 6, 7] := by decide
  simp only [hex8, hr, List.map_cons, List.map_nil, List.cons.injEq, and_true] at h
  obtain ⟨h0, h1, h2, h3, h4, h5, h6, h7⟩ := h
  have key : ∀ x y : Nat, Nat.digitChar (x % 16) = Nat.digitChar (y % 16) → x % 16 = y % 16 := by
    intro x y hxy
    have := digitChar_inj16 ⟨x % 16, Nat.mod_lt _ (by decide)⟩ ⟨y % 16, Nat.mod_lt _ (by decide)⟩ hxy
    simpa using this
  have e0 := key _ _ h0
  have e1 := key _ _ h1
  have e2 := key _ _ h2
  have e3 := key _ _ h3
  have e4 := key _ _ h4
  have e5 := key _ _ h5
  have e6 := key _ _ h6
  have e7 := key _ _ h7
  have ha : a % 2 ^ 32 < 2 ^ 32 := Nat.mod_lt _ (by decide)
  have hb : b % 2 ^ 32 < 2 ^ 32 := Nat.mod_lt _ (by decide)
  generalize a % 2 ^ 32 = m at *
  generalize b % 2 ^ 32 = n at *
  norm_num at e0 e1 e2 e3 e4 e5 e6 e7 ha hb
  omega

theorem genCommandId_injective {t r t' r' : Nat} (h : genCommandId t r = genCommandId t' r') :
    t = t' ∧ r % 2 ^ 32 = r' % 2 ^ 32 := by
  have hd := congrArg String.data h
  simp only [genCommandId, String.data_append] at hd
  have hlen : (hex8 r).data.length = (hex8 r').data.length := by simp [hex8]
  obtain ⟨h1, h2⟩ := List.append_inj' hd hlen
  have h3 := List.append_cancel_right h1
  have h4 := List.append_cancel_left h3
  exact ⟨toString_nat_injective h4, hex8_injective h2⟩

/-- C10 (as amended): an accepted `sendCommand` whose generated id is not yet a key of the
command table appends one new pending command under that id and leaves every existing
entry (and the presence table) as it was; a second issue of the same text to the same
device that reads another clock value or other random bytes gets a different id, and
(that id being new as well) the table then holds both commands after the old ones. -/
theorem sendCommand_appends_when_fresh (st : State) (user : User) (deviceId command : JsVal)
    (idTime rnd now : Nat) (hu : user.email ≠ "") (hd : deviceId.truthy = true)
    (hc : command.truthy = true) (hfresh : genCommandId idTime rnd ∉ commandIds st) :
    sendCommand st (some user) deviceId command idTime rnd now =
      (.sent "Command sent to device" (genCommandId idTime rnd) deviceId now,
       { activeCommands := st.activeCommands ++
           [(genCommandId idTime rnd,
             newCommand (genCommandId idTime rnd) command deviceId user.email now)],
         deviceActivity := st.deviceActivity }) ∧
    (resultView (newCommand (genCommandId idTime rnd) command deviceId user.email now)).status
      = "pending" ∧
    (∀ idTime' rnd' now' : Nat, idTime' ≠ idTime ∨ rnd' % 2 ^ 32 ≠ rnd % 2 ^ 32 →
      genCommandId idTime' rnd' ∉ commandIds st →
      genCommandId idTime' rnd' ≠ genCommandId idTime rnd ∧
      (sendCommand (sendCommand st (some user) deviceId command idTime rnd now).2 (some user)
          deviceId command idTime' rnd' now').2.activeCommands =
        st.activeCommands ++
          [(genCommandId idTime rnd,
             newCommand (genCommandId idTime rnd) command deviceId user.email now),
           (genCommandId idTime' rnd',
             newCommand (genCommandId idTime' rnd') command deviceId user.email now')]) := by
  have h1 := sendCommand_ok st user deviceId command idTime rnd now hu hd hc
  rw [mapSet_of_not_mem _ _ _ hfresh] at h1
  refine ⟨h1, ?_, ?_⟩
  · simp [resultView, newCommand, JsVal.truthy]
  · intro idTime' rnd' now' hdiff hfresh'
    have hne : genCommandId idTime' rnd' ≠ genCommandId idTime rnd := by
      intro he
      obtain ⟨ht, hr⟩ := genCommandId_injective he
      rcases hdiff with h | h
      · exact h ht
      · exact h hr
    refine ⟨hne, ?_⟩
    rw [h1, sendCommand_ok _ user deviceId command idTime' rnd' now' hu hd hc]
    have hfresh2 : genCommandId idTime' rnd' ∉
        (st.activeCommands ++ [(genCommandId idTime rnd,
          newCommand (genCommandId idTime rnd) command deviceId user.email now)]).map Prod.fst := by
      simp only [List.map_append, List.map_cons, List.map_nil, List.mem_append,
        List.mem_singleton, not_or]
      exact ⟨hfresh', hne⟩
    simp only
    rw [mapSet_of_not_mem _ _ _ hfresh2, List.append_assoc]
    rfl

theorem sendCommand_appends_when_fresh_witness :
    (alice.email ≠ "" ∧ (JsVal.str "dev1").truthy = true ∧ (JsVal.str "ping").truthy = true ∧
      genCommandId 1000 8 ∉ commandIds pingState) ∧
    (sendCommand pingState (some alice) (.str "dev1") (.str "ping") 1000 8 1001 =
      (.sent "Command sent to device" (genCommandId 1000 8) (.str "dev1") 1001,
       { activeCommands := pingState.activeCommands ++
           [(genCommandId 1000 8,
             newCommand (genCommandId 1000 8) (.str "ping") (.str "dev1") alice.email 1001)],
         deviceActivity := pingState.deviceActivity }) ∧
    (resultView (newCommand (genCommandId 1000 8) (.str "ping") (.str "dev1") alice.email
      1001)).status = "pending" ∧
    (∀ idTime' rnd' now' : Nat, idTime' ≠ 1000 ∨ rnd' % 2 ^ 32 ≠ 8 % 2 ^ 32 →
      genCommandId idTime' rnd' ∉ commandIds pingState →
      genCommandId idTime' rnd' ≠ genCommandId 1000 8 ∧
      (sendCommand (sendCommand pingState (some alice) (.str "dev1") (.str "ping") 1000 8
          1001).2 (some alice) (.str "dev1") (.str "ping") idTime' rnd' now').2.activeCommands =
        pingState.activeCommands ++
          [(genCommandId 1000 8,
             newCommand (genCommandId 1000 8) (.str "ping") (.str "dev1") alice.email 1001),
           (genCommandId idTime' rnd',
             newCommand (genCommandId idTime' rnd') (.str "ping") (.str "dev1") alice.email
               now')])) :=
  ⟨⟨by decide, by decide, by decide, by decide⟩,
   sendCommand_appends_when_fresh pingState alice (.str "dev1") (.str "ping") 1000 8 1001
     (by decide) (by decide) (by decide) (by decide)⟩

/-- C10 (counterexample): `ping` was issued to `dev1` at clock value 1000 with random bytes
`00000007`; a second issue of the same text to the same device that reads the same
clock value and the same random bytes is accepted under the id that is already in the
table, and the table still holds one command, not two. -/
theorem sendCommand_same_id_not_appended :
    (sendCommand pingState (some alice) (.str "dev1") (.str "ping") 1000 7 1001).1
      = .sent "Command sent to device" "cmd_1000_00000007" (.str "dev1") 1001 ∧
    "cmd_1000_00000007" ∈ commandIds pingState ∧
    commandIds (sendCommand pingState (some alice) (.str "dev1") (.str "ping") 1000 7 1001).2
      = ["cmd_1000_00000007"] := by
  decide

/-! ## Presence -/

theorem strictEq_eq {a b : JsVal} (h : JsVal.strictEq a b = true) : a = b := by
  cases a <;> cases b <;> simp_all [JsVal.strictEq]

theorem strictEq_false_of_ne {a b : JsVal} (h : a ≠ b) : JsVal.strictEq a b = false := by
  cases hs : JsVal.strictEq a b
  · rfl
  · exact absurd (strictEq_eq hs) h

theorem presence_get_none (l : List (JsVal × Nat)) (d : JsVal)
    (h : ∀ e ∈ l, sameValueZero e.1 d = false) : mapGet sameValueZero l d = none := by
  induction l with
  | nil => rfl
  | cons e l ih =>
    obtain ⟨k, v⟩ := e
    have hk : sameValueZero k d = false := h (k, v) (List.mem_cons_self _ _)
    simp only [mapGet, hk]
    exact ih fun e he => h e (List.mem_cons_of_mem _ he)

theorem presence_get_set_self (l : List (JsVal × Nat)) (d : JsVal) (t : Nat)
    (hd : JsVal.strictEq d d = true) :
    mapGet sameValueZero (mapSet sameValueZero l d t) d = some t := by
  induction l with
  | nil => simp [mapSet, mapGet, sameValueZero, hd]
  | cons e l ih =>
    obtain ⟨k, v⟩ := e
    by_cases h : sameValueZero k d = true
    · simp [mapSet, mapGet, h]
    · simp [mapSet, mapGet, h, ih]

theorem presence_get_set_other (l : List (JsVal × Nat)) (d q : JsVal) (t : Nat)
    (hq : JsVal.strictEq d q = false) :
    mapGet sameValueZero (mapSet sameValueZero l d t) q = mapGet sameValueZero l q := by
  induction l with
  | nil => simp [mapSet, mapGet, sameValueZero, hq]
  | cons e l ih =>
    obtain ⟨k, v⟩ := e
    by_cases h : sameValueZero k d = true
    · have hkd : k = d := strictEq_eq h
      subst hkd
      have h2 : JsVal.strictEq k k = true := h
      simp [mapSet, mapGet, sameValueZero, hq, h2]
    · by_cases h' : sameValueZero k q = true
      · simp [mapSet, mapGet, h, h']
      · simp [mapSet, mapGet, h, h', ih]

/-- C11: for a device id under which the presence table holds no entry, `getDeviceStatus`
returns `online = false`, `lastSeen = null` (and no `lastSeenAgo`) at every clock value;
whatever the device id, the call returns a status and leaves both tables as they were. -/
theorem getDeviceStatus_unknown (st : State) (deviceId : JsVal) (now nowAgo : Nat)
    (h : ∀ e ∈ st.deviceActivity, sameValueZero e.1 deviceId = false) :
    (getDeviceStatus st deviceId now nowAgo).1
      = { online := false, lastSeen := none, lastSeenAgo := none } ∧
    (∀ (d : JsVal) (n m : Nat), (getDeviceStatus st d n m).2 = st) := by
  constructor
  · simp [getDeviceStatus, presence_get_none _ _ h]
  · intro d n m
    unfold getDeviceStatus
    split <;> rfl

theorem getDeviceStatus_unknown_witness :
    (∀ e ∈ polledState.deviceActivity, sameValueZero e.1 (.str "dev2") = false) ∧
    ((getDeviceStatus polledState (.str "dev2") 6000 6000).1
      = { online := false, lastSeen := none, lastSeenAgo := none } ∧
    (∀ (d : JsVal) (n m : Nat), (getDeviceStatus polledState d n m).2 = polledState)) :=
  ⟨by decide, getDeviceStatus_unknown polledState (.str "dev2") 6000 6000 (by decide)⟩

/-- C12: for a device whose presence entry is `t` and a clock value `now ≥ t`,
`getDeviceStatus` reports `online = true` exactly when `now - t < 120000` and
`lastSeen = t`; so it reports online at `now = t` and offline from `t + 120000` on. -/
theorem getDeviceStatus_window (st : State) (deviceId : JsVal) (t now nowAgo : Nat)
    (hget : mapGet sameValueZero st.deviceActivity deviceId = some t) (hnow : t ≤ now) :
    ((getDeviceStatus st deviceId now nowAgo).1.online = true ↔ now - t < 120000) ∧
    (getDeviceStatus st deviceId now nowAgo).1.lastSeen = some t ∧
    (getDeviceStatus st deviceId t nowAgo).1.online = true ∧
    (∀ late : Nat, t + 120000 ≤ late →
      (getDeviceStatus st deviceId late nowAgo).1.online = false) := by
  refine ⟨?_, ?_, ?_, ?_⟩
  · simp only [getDeviceStatus, hget, decide_eq_true_eq]
    omega
  · simp [getDeviceStatus, hget]
  · simp [getDeviceStatus, hget]
  · intro late hlate
    simp only [getDeviceStatus, hget, decide_eq_false_iff_not]
    omega

theorem getDeviceStatus_window_witness :
    (mapGet sameValueZero polledState.deviceActivity (.str "dev1") = some 5000 ∧ 5000 ≤ 124999) ∧
    (((getDeviceStatus polledState (.str "dev1") 124999 125000).1.online = true
        ↔ 124999 - 5000 < 120000) ∧
    (getDeviceStatus polledState (.str "dev1") 124999 125000).1.lastSeen = some 5000 ∧
    (getDeviceStatus polledState (.str "dev1") 5000 125000).1.online = true ∧
    (∀ late : Nat, 5000 + 120000 ≤ late →
      (getDeviceStatus polledState (.str "dev1") late 125000).1.online = false)) :=
  ⟨⟨by decide, by decide⟩,
   getDeviceStatus_window polledState (.str "dev1") 5000 124999 125000 (by decide) (by decide)⟩

/-- C13: a poll answered 200 for a device whose id is a primitive value (string, number,
boolean), at clock value `t`, leaves the presence entry of that id at `t` and the entry of
every other id as it was; `getDeviceStatus` for the device at clock value `t` then
reports `online = true` and `lastSeen = t`. -/
theorem poll_records_heartbeat (st : State) (key : ApiKey) (t nowAgo : Nat)
    (hkey : key.deviceId.truthy = true)
    (hprim : JsVal.strictEq key.deviceId key.deviceId = true) :
    (checkForCommands st (some key) t).1.status = 200 ∧
    mapGet sameValueZero (checkForCommands st (some key) t).2.deviceActivity key.deviceId
      = some t ∧
    (∀ other : JsVal, other ≠ key.deviceId →
      mapGet sameValueZero (checkForCommands st (some key) t).2.deviceActivity other
        = mapGet sameValueZero st.deviceActivity other) ∧
    (getDeviceStatus (checkForCommands st (some key) t).2 key.deviceId t nowAgo).1.online
      = true ∧
    (getDeviceStatus (checkForCommands st (some key) t).2 key.deviceId t nowAgo).1.lastSeen
      = some t := by
  rw [checkForCommands_ok st key t hkey]
  have hself := presence_get_set_self st.deviceActivity key.deviceId t hprim
  refine ⟨rfl, hself, ?_, ?_, ?_⟩
  · intro other hne
    exact presence_get_set_other _ _ _ _ (strictEq_false_of_ne (Ne.symm hne))
  · simp [getDeviceStatus, hself]
  · simp [getDeviceStatus, hself]

theorem poll_records_heartbeat_witness :
    (keyDev2.deviceId.truthy = true ∧ JsVal.strictEq keyDev2.deviceId keyDev2.deviceId = true) ∧
    ((checkForCommands polledState (some keyDev2) 7000).1.status = 200 ∧
    mapGet sameValueZero (checkForCommands polledState (some keyDev2) 7000).2.deviceActivity
      keyDev2.deviceId = some 7000 ∧
    (∀ other : JsVal, other ≠ keyDev2.deviceId →
      mapGet sameValueZero (checkForCommands polledState (some keyDev2) 7000).2.deviceActivity
        other = mapGet sameValueZero polledState.deviceActivity other) ∧
    (getDeviceStatus (checkForCommands polledState (some keyDev2) 7000).2 keyDev2.deviceId
      7000 7001).1.online = true ∧
    (getDeviceStatus (checkForCommands polledState (some keyDev2) 7000).2 keyDev2.deviceId
      7000 7001).1.lastSeen = some 7000) :=
  ⟨⟨by decide, by decide⟩, poll_records_heartbeat polledState keyDev2 7000 7001
    (by decide) (by decide)⟩

/-! ## One-time codes -/

theorem assoc_get_set_self {ν : Type} (l : List (String × ν)) (k : String) (v : ν) :
    mapGet sameKey (mapSet sameKey l k v) k = some v := by
  induction l with
  | nil => simp [mapSet, mapGet]
  | cons e l ih =>
    obtain ⟨k', v'⟩ := e
    by_cases h : k' = k
    · simp [mapSet, mapGet, h]
    · simp [mapSet, mapGet, h, ih]

theorem assoc_get_eq_none {ν : Type} (l : List (String × ν)) (k : String)
    (h : k ∉ l.map Prod.fst) : mapGet sameKey l k = none := by
  induction l with
  | nil => rfl
  | cons e l ih =>
    obtain ⟨k', v'⟩ := e
    simp only [List.map_cons, List.mem_cons, not_or] at h
    have hne : k' ≠ k := fun he => h.1 he.symm
    simp [mapGet, hne, ih h.2]

/-- After `delete`, a `Map` has no entry under the key. -/
theorem assoc_get_delete_self {ν : Type} (l : List (String × ν)) (k : String)
    (hwf : (l.map Prod.fst).Nodup) : mapGet sameKey (mapDelete sameKey l k) k = none := by
  induction l with
  | nil => rfl
  | cons e l ih =>
    obtain ⟨k', v'⟩ := e
    simp only [List.map_cons, List.nodup_cons] at hwf
    by_cases hk : k' = k
    · subst hk
      simp only [mapDelete, sameKey, beq_self_eq_true, if_true]
      exact assoc_get_eq_none l k' hwf.1
    · simp [mapDelete, mapGet, hk, ih hwf.2]

/-- A truthy code that `code.toString()` converts is converted to the same text by
the template literal of the log line. -/
theorem codeInTemplate_of_text (js : Builtins) (code : JsVal) (text : String)
    (htext : codeToString js code = some text) : codeInTemplate js code = some text := by
  cases code <;> simp_all [codeToString, codeInTemplate]

/-- A `verify` request whose code has no string conversion is answered 500 before the
table is read, and the table is left as it was. -/
theorem verify_code_throws (js : Builtins) (codes : List (String × CodeEntry))
    (email : String) (code : JsVal) (now nowIat : Nat)
    (hemail : email ≠ "") (hcode : code.truthy = true)
    (hthrows : codeInTemplate js code = none) :
    verify js codes (.str email) code now nowIat =
      (.fail 500 "Internal server error. Please try again.", codes) := by
  have he : (JsVal.str email).truthy = true := by simpa [JsVal.truthy] using hemail
  simp [verify, he, hcode, normalizeEmail, hthrows]

/-- A `verify` request for a stored, unexpired entry whose code matches. -/
theorem verify_ok (js : Builtins) (codes : List (String × CodeEntry)) (email : String)
    (code : JsVal) (text : String) (entry : CodeEntry) (now nowIat : Nat)
    (hemail : email ≠ "") (hcode : code.truthy = true)
    (hget : mapGet sameKey codes (js.trim (js.toLowerCase email)) = some entry)
    (hlive : now ≤ entry.expiresAt)
    (htext : codeToString js code = some text) (hmatch : js.trim text = js.trim entry.code) :
    verify js codes (.str email) code now nowIat =
      (.verified "Verification successful!"
        { email := js.trim (js.toLowerCase email), verified := true, iat := nowIat / 1000,
          exp := nowIat / 1000 + 24 * 60 * 60 }
        (js.trim (js.toLowerCase email)),
       mapDelete sameKey codes (js.trim (js.toLowerCase email))) := by
  have he : (JsVal.str email).truthy = true := by simpa [JsVal.truthy] using hemail
  have hnot : ¬ now > entry.expiresAt := by omega
  have hlog := codeInTemplate_of_text js code text htext
  simp [verify, he, hcode, normalizeEmail, hlog, hget, hnot, htext, hmatch]

/-- A `verify` request for an email without a stored entry. -/
theorem verify_no_request (js : Builtins) (codes : List (String × CodeEntry)) (email : String)
    (code : JsVal) (text : String) (now nowIat : Nat)
    (hemail : email ≠ "") (hcode : code.truthy = true)
    (htext : codeToString js code = some text)
    (hget : mapGet sameKey codes (js.trim (js.toLowerCase email)) = none) :
    verify js codes (.str email) code now nowIat =
      (.fail 400 "No verification request found for this email. Please request a new code.",
       codes) := by
  have he : (JsVal.str email).truthy = true := by simpa [JsVal.truthy] using hemail
  have hlog := codeInTemplate_of_text js code text htext
  simp [verify, he, hcode, normalizeEmail, hlog, hget]

/-- A `verify` request for a stored entry after its `expiresAt`. -/
theorem verify_expired (js : Builtins) (codes : List (String × CodeEntry)) (email : String)
    (code : JsVal) (text : String) (entry : CodeEntry) (now nowIat : Nat)
    (hemail : email ≠ "") (hcode : code.truthy = true)
    (htext : codeToString js code = some text)
    (hget : mapGet sameKey codes (js.trim (js.toLowerCase email)) = some entry)
    (hexp : now > entry.expiresAt) :
    verify js codes (.str email) code now nowIat =
      (.fail 400 "Verification code has expired. Please request a new one.",
       mapDelete sameKey codes (js.trim (js.toLowerCase email))) := by
  have he : (JsVal.str email).truthy = true := by simpa [JsVal.truthy] using hemail
  have hlog := codeInTemplate_of_text js code text htext
  simp [verify, he, hcode, normalizeEmail, hlog, hget, hexp]

/-- C14: for an email with a stored, unexpired entry, `verify` with a code whose trimmed
text is the trimmed stored code answers 200 with a token and deletes the entry; a second
`verify` for the same email with the same code, at any later clock value, answers 400
`No verification request found for this email`. -/
theorem verify_succeeds_once (js : Builtins) (codes : List (String × CodeEntry))
    (hwf : (codes.map Prod.fst).Nodup) (email : String) (code : JsVal) (text : String)
    (entry : CodeEntry) (now nowIat : Nat)
    (hemail : email ≠ "") (hcode : code.truthy = true)
    (hget : mapGet sameKey codes (js.trim (js.toLowerCase email)) = some entry)
    (hlive : now ≤ entry.expiresAt)
    (htext : codeToString js code = some text) (hmatch : js.trim text = js.trim entry.code) :
    (verify js codes (.str email) code now nowIat).1 =
      .verified "Verification successful!"
        { email := js.trim (js.toLowerCase email), verified := true, iat := nowIat / 1000,
          exp := nowIat / 1000 + 24 * 60 * 60 }
        (js.trim (js.toLowerCase email)) ∧
    (verify js codes (.str email) code now nowIat).2 =
      mapDelete sameKey codes (js.trim (js.toLowerCase email)) ∧
    mapGet sameKey (verify js codes (.str email) code now nowIat).2
      (js.trim (js.toLowerCase email)) = none ∧
    (∀ later laterIat : Nat,
      verify js (verify js codes (.str email) code now nowIat).2 (.str email) code later laterIat
        = (.fail 400
            "No verification request found for this email. Please request a new code.",
           (verify js codes (.str email) code now nowIat).2)) := by
  rw [verify_ok js codes email code text entry now nowIat hemail hcode hget hlive htext hmatch]
  have hdel := assoc_get_delete_self codes (js.trim (js.toLowerCase email)) hwf
  refine ⟨rfl, rfl, hdel, ?_⟩
  intro later laterIat
  exact verify_no_request js _ email code text later laterIat hemail hcode htext hdel

theorem verify_succeeds_once_witness :
    ((loginCodes.map Prod.fst).Nodup ∧ " User@x.com " ≠ "" ∧
      (JsVal.num 123456).truthy = true ∧
      mapGet sameKey loginCodes
        (asciiBuiltins.trim (asciiBuiltins.toLowerCase " User@x.com "))
        = some { code := "123456", expiresAt := 601000, verified := false, createdAt := 1000,
                 lastSent := none } ∧
      5000 ≤ 601000 ∧ codeToString asciiBuiltins (.num 123456) = some "123456" ∧
      asciiBuiltins.trim "123456" = asciiBuiltins.trim "123456") ∧
    ((verify asciiBuiltins loginCodes (.str " User@x.com ") (.num 123456) 5000 5001).1 =
      .verified "Verification successful!"
        { email := asciiBuiltins.trim (asciiBuiltins.toLowerCase " User@x.com "),
          verified := true, iat := 5001 / 1000, exp := 5001 / 1000 + 24 * 60 * 60 }
        (asciiBuiltins.trim (asciiBuiltins.toLowerCase " User@x.com ")) ∧
    (verify asciiBuiltins loginCodes (.str " User@x.com ") (.num 123456) 5000 5001).2 =
      mapDelete sameKey loginCodes
        (asciiBuiltins.trim (asciiBuiltins.toLowerCase " User@x.com ")) ∧
    mapGet sameKey (verify asciiBuiltins loginCodes (.str " User@x.com ") (.num 123456)
        5000 5001).2
      (asciiBuiltins.trim (asciiBuiltins.toLowerCase " User@x.com ")) = none ∧
    (∀ later laterIat : Nat,
      verify asciiBuiltins
          (verify asciiBuiltins loginCodes (.str " User@x.com ") (.num 123456) 5000 5001).2
          (.str " User@x.com ") (.num 123456) later laterIat
        = (.fail 400
            "No verification request found for this email. Please request a new code.",
           (verify asciiBuiltins loginCodes (.str " User@x.com ") (.num 123456)
             5000 5001).2))) :=
  ⟨⟨by decide, by decide, by decide, by decide, by decide, by decide, rfl⟩,
   verify_succeeds_once asciiBuiltins loginCodes (by decide) " User@x.com " (.num 123456)
     "123456" { code := "123456", expiresAt := 601000, verified := false, createdAt := 1000,
                lastSent := none } 5000 5001
     (by decide) (by decide) (by decide) (by decide) (by decide) rfl⟩

/-- C15: for an email with a stored, unexpired entry, `verify` with a code whose trimmed
text differs from the trimmed stored code answers 400 `Invalid verification code` and
leaves the code table as it was; a later `verify` with a matching code, not after
`expiresAt`, still succeeds. -/
theorem verify_mismatch_keeps_entry (js : Builtins) (codes : List (String × CodeEntry))
    (email : String) (code : JsVal) (text : String) (entry : CodeEntry) (now nowIat : Nat)
    (hemail : email ≠ "") (hcode : code.truthy = true)
    (hget : mapGet sameKey codes (js.trim (js.toLowerCase email)) = some entry)
    (hlive : now ≤ entry.expiresAt)
    (htext : codeToString js code = some text) (hwrong : js.trim text ≠ js.trim entry.code) :
    verify js codes (.str email) code now nowIat =
      (.fail 400 "Invalid verification code. Please check and try again.", codes) ∧
    (∀ (good : JsVal) (goodText : String) (later laterIat : Nat),
      good.truthy = true → codeToString js good = some goodText →
      js.trim goodText = js.trim entry.code → later ≤ entry.expiresAt →
      (verify js (verify js codes (.str email) code now nowIat).2 (.str email) good
          later laterIat).1.status = 200) := by
  have he : (JsVal.str email).truthy = true := by simpa [JsVal.truthy] using hemail
  have hnot : ¬ now > entry.expiresAt := by omega
  have hlog := codeInTemplate_of_text js code text htext
  have h1 : verify js codes (.str email) code now nowIat =
      (.fail 400 "Invalid verification code. Please check and try again.", codes) := by
    simp [verify, he, hcode, normalizeEmail, hlog, hget, hnot, htext, hwrong]
  refine ⟨h1, ?_⟩
  intro good goodText later laterIat hgood hgt hgm hlater
  rw [h1, verify_ok js codes email good goodText entry later laterIat hemail hgood hget hlater
    hgt hgm]
  rfl

theorem verify_mismatch_keeps_entry_witness :
    ("user@x.com" ≠ "" ∧ (JsVal.str "000000").truthy = true ∧
      mapGet sameKey loginCodes (asciiBuiltins.trim (asciiBuiltins.toLowerCase "user@x.com"))
        = some { code := "123456", expiresAt := 601000, verified := false, createdAt := 1000,
                 lastSent := none } ∧
      5000 ≤ 601000 ∧ codeToString asciiBuiltins (.str "000000") = some "000000" ∧
      asciiBuiltins.trim "000000" ≠ asciiBuiltins.trim "123456") ∧
    (verify asciiBuiltins loginCodes (.str "user@x.com") (.str "000000") 5000 5001 =
      (.fail 400 "Invalid verification code. Please check and try again.", loginCodes) ∧
    (∀ (good : JsVal) (goodText : String) (later laterIat : Nat),
      good.truthy = true → codeToString asciiBuiltins good = some goodText →
      asciiBuiltins.trim goodText = asciiBuiltins.trim "123456" → later ≤ 601000 →
      (verify asciiBuiltins
          (verify asciiBuiltins loginCodes (.str "user@x.com") (.str "000000") 5000 5001).2
          (.str "user@x.com") good later laterIat).1.status = 200)) :=
  ⟨⟨by decide, by decide, by decide, by decide, by decide, by decide⟩,
   verify_mismatch_keeps_entry asciiBuiltins loginCodes "user@x.com" (.str "000000") "000000"
     { code := "123456", expiresAt := 601000, verified := false, createdAt := 1000,
       lastSent := none } 5000 5001
     (by decide) (by decide) (by decide) (by decide) (by decide) (by decide)⟩

/-- C18: for a request with a non-empty email and a code that has a string conversion,
`verify` answers 400 `No verification request found` when no entry is stored under the
normalized email; when an entry is stored and `now > expiresAt` it answers 400
`Verification code has expired` and deletes the entry whatever the text of the code
(the stored one included), so that a following `verify` finds no request; and it answers
`Invalid verification code` only for a stored entry with `now ≤ expiresAt`. -/
theorem verify_not_found_and_expired (js : Builtins) (codes : List (String × CodeEntry))
    (hwf : (codes.map Prod.fst).Nodup) (email : String) (code : JsVal) (text : String)
    (now nowIat : Nat)
    (hemail : email ≠ "") (hcode : code.truthy = true)
    (htext : codeToString js code = some text) :
    (mapGet sameKey codes (js.trim (js.toLowerCase email)) = none →
      verify js codes (.str email) code now nowIat =
        (.fail 400 "No verification request found for this email. Please request a new code.",
         codes)) ∧
    (∀ entry, mapGet sameKey codes (js.trim (js.toLowerCase email)) = some entry →
      now > entry.expiresAt →
      verify js codes (.str email) code now nowIat =
        (.fail 400 "Verification code has expired. Please request a new one.",
         mapDelete sameKey codes (js.trim (js.toLowerCase email))) ∧
      (∀ (next : JsVal) (nextText : String) (later laterIat : Nat), next.truthy = true →
        codeToString js next = some nextText →
        verify js (verify js codes (.str email) code now nowIat).2 (.str email) next
            later laterIat =
          (.fail 400
            "No verification request found for this email. Please request a new code.",
           (verify js codes (.str email) code now nowIat).2))) ∧
    ((verify js codes (.str email) code now nowIat).1 =
        .fail 400 "Invalid verification code. Please check and try again." →
      ∃ entry, mapGet sameKey codes (js.trim (js.toLowerCase email)) = some entry ∧
        now ≤ entry.expiresAt) := by
  refine ⟨?_, ?_, ?_⟩
  · intro hnone
    exact verify_no_request js codes email code text now nowIat hemail hcode htext hnone
  · intro entry hget hexp
    have h1 := verify_expired js codes email code text entry now nowIat hemail hcode htext
      hget hexp
    refine ⟨h1, ?_⟩
    intro next nextText later laterIat hnext hnextText
    rw [h1]
    exact verify_no_request js _ email next nextText later laterIat hemail hnext hnextText
      (assoc_get_delete_self codes _ hwf)
  · intro hresp
    cases hget : mapGet sameKey codes (js.trim (js.toLowerCase email)) with
    | none =>
      rw [verify_no_request js codes email code text now nowIat hemail hcode htext hget]
        at hresp
      simp at hresp
    | some entry =>
      refine ⟨entry, rfl, ?_⟩
      by_contra hlt
      have hexp : now > entry.expiresAt := by omega
      rw [verify_expired js codes email code text entry now nowIat hemail hcode htext
        hget hexp] at hresp
      simp at hresp

theorem verify_not_found_and_expired_witness :
    ((loginCodes.map Prod.fst).Nodup ∧ "user@x.com" ≠ "" ∧
      (JsVal.str "123456").truthy = true ∧
      codeToString asciiBuiltins (.str "123456") = some "123456") ∧
    ((mapGet sameKey loginCodes (asciiBuiltins.trim (asciiBuiltins.toLowerCase "user@x.com"))
        = none →
      verify asciiBuiltins loginCodes (.str "user@x.com") (.str "123456") 601001 601001 =
        (.fail 400 "No verification request found for this email. Please request a new code.",
         loginCodes)) ∧
    (∀ entry,
      mapGet sameKey loginCodes (asciiBuiltins.trim (asciiBuiltins.toLowerCase "user@x.com"))
        = some entry →
      601001 > entry.expiresAt →
      verify asciiBuiltins loginCodes (.str "user@x.com") (.str "123456") 601001 601001 =
        (.fail 400 "Verification code has expired. Please request a new one.",
         mapDelete sameKey loginCodes
           (asciiBuiltins.trim (asciiBuiltins.toLowerCase "user@x.com"))) ∧
      (∀ (next : JsVal) (nextText : String) (later laterIat : Nat), next.truthy = true →
        codeToString asciiBuiltins next = some nextText →
        verify asciiBuiltins
            (verify asciiBuiltins loginCodes (.str "user@x.com") (.str "123456")
              601001 601001).2
            (.str "user@x.com") next later laterIat =
          (.fail 400
            "No verification request found for this email. Please request a new code.",
           (verify asciiBuiltins loginCodes (.str "user@x.com") (.str "123456")
             601001 601001).2))) ∧
    ((verify asciiBuiltins loginCodes (.str "user@x.com") (.str "123456") 601001 601001).1 =
        .fail 400 "Invalid verification code. Please check and try again." →
      ∃ entry,
        mapGet sameKey loginCodes (asciiBuiltins.trim (asciiBuiltins.toLowerCase "user@x.com"))
          = some entry ∧ 601001 ≤ entry.expiresAt)) :=
  ⟨⟨by decide, by decide, by decide, by decide⟩,
   verify_not_found_and_expired asciiBuiltins loginCodes (by decide) "user@x.com"
     (.str "123456") "123456" 601001 601001 (by decide) (by decide) (by decide)⟩

/-! ## Cooldown of `resendCode` -/

/-- C16 (the code at the failing input): `login` for `User@X.com` at clock value 1000
stores code `123456` without a `lastSent` field; `resendCode` for the same email one
millisecond later is not answered 429 but 200 `New verification code sent`, and the
stored code is replaced by the new one, `654321`. -/
theorem resend_right_after_login_accepted :
    (login asciiBuiltins [] (.str "User@X.com") 23456 1000 1000 true) =
      (.codeSent "Verification code sent to your email" "user@x.com" 600,
       [("user@x.com", { code := "123456", expiresAt := 601000, verified := false,
                           createdAt := 1000, lastSent := none })]) ∧
    (resendCode asciiBuiltins loginCodes (.str "User@X.com") 554321 1001 1001 1001 1001 true) =
      (.codeSent "New verification code sent" "user@x.com" 600,
       [("user@x.com", { code := "654321", expiresAt := 601001, verified := false,
                           createdAt := 1001, lastSent := some 1001 })]) ∧
    (resendCode asciiBuiltins loginCodes (.str "User@X.com") 554321 1001 1001 1001 1001
      true).1.status ≠ 429 := by
  decide

/-- An accepted `resendCode` was not in its cooldown and stored the new entry. -/
theorem resendCode_accepted (js : Builtins) (codes : List (String × CodeEntry))
    (email : String) (draw now nowExp nowSent nowCreated : Nat) (emailSent : Bool)
    (hemail : email ≠ "")
    (hcool : coolingDown (mapGet sameKey codes (js.trim (js.toLowerCase email))) now = false) :
    resendCode js codes (.str email) draw now nowExp nowSent nowCreated emailSent =
      (if emailSent then
          .codeSent "New verification code sent" (js.trim (js.toLowerCase email)) 600
        else .fail 500 "Internal server error",
       mapSet sameKey codes (js.trim (js.toLowerCase email))
         { code := generateVerificationCode draw, expiresAt := nowExp + 10 * 60 * 1000,
           lastSent := some nowSent, verified := false, createdAt := nowCreated }) := by
  have he : (JsVal.str email).truthy = true := by simpa [JsVal.truthy] using hemail
  cases emailSent <;> simp [resendCode, he, normalizeEmail, hcool]

/-- A `resendCode` in its cooldown is answered 429 and changes nothing. -/
theorem resendCode_limited (js : Builtins) (codes : List (String × CodeEntry))
    (email : String) (draw now nowExp nowSent nowCreated : Nat) (emailSent : Bool)
    (hemail : email ≠ "")
    (hcool : coolingDown (mapGet sameKey codes (js.trim (js.toLowerCase email))) now = true) :
    resendCode js codes (.str email) draw now nowExp nowSent nowCreated emailSent =
      (.fail 429 "Please wait before requesting a new code", codes) := by
  have he : (JsVal.str email).truthy = true := by simpa [JsVal.truthy] using hemail
  simp [resendCode, he, normalizeEmail, hcool]

theorem resendCode_status_200 (js : Builtins) (codes : List (String × CodeEntry))
    (email : String) (draw now nowExp nowSent nowCreated : Nat) (emailSent : Bool)
    (hemail : email ≠ "")
    (hok : (resendCode js codes (.str email) draw now nowExp nowSent nowCreated
      emailSent).1.status = 200) :
    coolingDown (mapGet sameKey codes (js.trim (js.toLowerCase email))) now = false := by
  cases hcool : coolingDown (mapGet sameKey codes (js.trim (js.toLowerCase email))) now
  · rfl
  · rw [resendCode_limited js codes email draw now nowExp nowSent nowCreated emailSent hemail
      hcool] at hok
    simp [AuthResponse.status] at hok

/-- C17: after a `resendCode` answered 200 that stored `lastSent = t` (a clock value after
the epoch), a further `resendCode` for an email with the same normalized form, at clock
value `t2`, is answered 429 with the code table unchanged exactly when `t2 < t + 60000`;
from `t + 60000` on it is not answered 429 (200 when the email goes out) and the entry
is replaced by one with the new code, `expiresAt` and `lastSent`. -/
theorem resend_cooldown (js : Builtins) (codes : List (String × CodeEntry))
    (email email2 : String) (draw now nowExp t nowCreated : Nat) (emailSent : Bool)
    (draw2 t2 nowExp2 nowSent2 nowCreated2 : Nat) (emailSent2 : Bool)
    (hemail : email ≠ "") (hemail2 : email2 ≠ "")
    (hsame : js.trim (js.toLowerCase email2) = js.trim (js.toLowerCase email))
    (hok : (resendCode js codes (.str email) draw now nowExp t nowCreated emailSent).1.status
      = 200)
    (ht : 0 < t) :
    (resendCode js (resendCode js codes (.str email) draw now nowExp t nowCreated emailSent).2
        (.str email2) draw2 t2 nowExp2 nowSent2 nowCreated2 emailSent2
      = (.fail 429 "Please wait before requesting a new code",
         (resendCode js codes (.str email) draw now nowExp t nowCreated emailSent).2)
      ↔ t2 < t + 60000) ∧
    (t + 60000 ≤ t2 →
      (resendCode js (resendCode js codes (.str email) draw now nowExp t nowCreated emailSent).2
        (.str email2) draw2 t2 nowExp2 nowSent2 nowCreated2 emailSent2).1
        = (if emailSent2 then
            .codeSent "New verification code sent" (js.trim (js.toLowerCase email)) 600
           else .fail 500 "Internal server error") ∧
      mapGet sameKey
        (resendCode js
          (resendCode js codes (.str email) draw now nowExp t nowCreated emailSent).2
          (.str email2) draw2 t2 nowExp2 nowSent2 nowCreated2 emailSent2).2
        (js.trim (js.toLowerCase email))
        = some { code := generateVerificationCode draw2, expiresAt := nowExp2 + 10 * 60 * 1000,
                 lastSent := some nowSent2, verified := false, createdAt := nowCreated2 }) := by
  have hcool := resendCode_status_200 js codes email draw now nowExp t nowCreated emailSent
    hemail hok
  rw [resendCode_accepted js codes email draw now nowExp t nowCreated emailSent hemail hcool]
  simp only
  have hget := assoc_get_set_self codes (js.trim (js.toLowerCase email))
    ({ code := generateVerificationCode draw, expiresAt := nowExp + 10 * 60 * 1000,
       lastSent := some t, verified := false, createdAt := nowCreated } : CodeEntry)
  have ht0 : (t != 0) = true := by
    simp only [bne_iff_ne, ne_eq]
    omega
  have hcool2 : coolingDown (mapGet sameKey (mapSet sameKey codes (js.trim (js.toLowerCase email))
      { code := generateVerificationCode draw, expiresAt := nowExp + 10 * 60 * 1000,
        lastSent := some t, verified := false, createdAt := nowCreated })
      (js.trim (js.toLowerCase email2))) t2 = decide (t2 < t + 60000) := by
    rw [hsame, hget]
    simp [coolingDown, ht0]
  constructor
  · constructor
    · intro hresp
      by_contra hlt
      have hc := hcool2.trans (decide_eq_false hlt)
      rw [resendCode_accepted js _ email2 draw2 t2 nowExp2 nowSent2 nowCreated2 emailSent2
        hemail2 hc] at hresp
      cases emailSent2 <;> simp at hresp
    · intro hlt
      have hc := hcool2.trans (decide_eq_true hlt)
      exact resendCode_limited js _ email2 draw2 t2 nowExp2 nowSent2 nowCreated2 emailSent2
        hemail2 hc
  · intro hge
    have hc := hcool2.trans (decide_eq_false (show ¬ t2 < t + 60000 by omega))
    rw [resendCode_accepted js _ email2 draw2 t2 nowExp2 nowSent2 nowCreated2 emailSent2
      hemail2 hc, hsame]
    exact ⟨rfl, assoc_get_set_self _ _ _⟩

theorem resend_cooldown_witness :
    ("user@x.com" ≠ "" ∧ " USER@x.com" ≠ "" ∧
      asciiBuiltins.trim (asciiBuiltins.toLowerCase " USER@x.com")
        = asciiBuiltins.trim (asciiBuiltins.toLowerCase "user@x.com") ∧
      (resendCode asciiBuiltins [] (.str "user@x.com") 23456 1000 1000 1000 1000
        true).1.status = 200 ∧ 0 < 1000) ∧
    ((resendCode asciiBuiltins
        (resendCode asciiBuiltins [] (.str "user@x.com") 23456 1000 1000 1000 1000 true).2
        (.str " USER@x.com") 554321 60999 60999 60999 60999 true
      = (.fail 429 "Please wait before requesting a new code",
         (resendCode asciiBuiltins [] (.str "user@x.com") 23456 1000 1000 1000 1000 true).2)
      ↔ 60999 < 1000 + 60000) ∧
    (1000 + 60000 ≤ 60999 →
      (resendCode asciiBuiltins
        (resendCode asciiBuiltins [] (.str "user@x.com") 23456 1000 1000 1000 1000 true).2
        (.str " USER@x.com") 554321 60999 60999 60999 60999 true).1
        = (if true then
            .codeSent "New verification code sent"
              (asciiBuiltins.trim (asciiBuiltins.toLowerCase "user@x.com")) 600
           else .fail 500 "Internal server error") ∧
      mapGet sameKey
        (resendCode asciiBuiltins
          (resendCode asciiBuiltins [] (.str "user@x.com") 23456 1000 1000 1000 1000 true).2
          (.str " USER@x.com") 554321 60999 60999 60999 60999 true).2
        (asciiBuiltins.trim (asciiBuiltins.toLowerCase "user@x.com"))
        = some { code := generateVerificationCode 554321, expiresAt := 60999 + 10 * 60 * 1000,
                 lastSent := some 60999, verified := false, createdAt := 60999 })) :=
  ⟨⟨by decide, by decide, by decide, by decide, by decide⟩,
   resend_cooldown asciiBuiltins [] "user@x.com" " USER@x.com" 23456 1000 1000 1000 1000 true
     554321 60999 60999 60999 60999 true (by decide) (by decide) (by decide) (by decide)
     (by decide)⟩

/-! ## API-key middleware -/

theorem touchLastUsed_erase (h : String) (now : Nat) (store : List ApiKeyRecord) :
    (touchLastUsed h now store).map (fun r => { r with lastUsed := none })
      = store.map fun r => { r with lastUsed := none } := by
  induction store with
  | nil => rfl
  | cons r rest ih =>
    by_cases hr : r.hashedKey = h
    · simp [touchLastUsed, hr]
    · simp [touchLastUsed, hr, ih]

theorem touchLastUsed_others (h : String) (now : Nat) (store : List ApiKeyRecord) :
    (touchLastUsed h now store).filter (fun r => r.hashedKey != h)
      = store.filter fun r => r.hashedKey != h := by
  induction store with
  | nil => rfl
  | cons r rest ih =>
    by_cases hr : r.hashedKey = h
    · simp [touchLastUsed, hr]
    · simp [touchLastUsed, hr, ih]

theorem find_hash_eq_none (h : String) (store : List ApiKeyRecord)
    (hno : ∀ r ∈ store, r.hashedKey ≠ h) :
    (store.find? fun key => key.hashedKey == h) = none := by
  rw [List.find?_eq_none]
  intro r hr
  simpa using hno r hr

/-- C19: for a non-empty presented key, `authenticateApiKey` decides in this order:
a key that does not start with `sk_` is rejected as `INVALID_API_KEY_FORMAT`; else, when
no record has `hashedKey = hashApiKey(key)`, as `INVALID_API_KEY`; else, when the found
record has `isActive = false`, as `API_KEY_INACTIVE`; else, when it has an `expiresAt`
earlier than `now`, as `API_KEY_EXPIRED`; otherwise `next()` is called with the found
record's `deviceId`, `deviceName` and permissions (`permissions || []`) attached.
Every rejection leaves the store as it was; after a success the store differs from
the old one at most in `lastUsed` fields, and in none of a record with another hash. -/
theorem authenticateApiKey_order (hash : String → String) (store : List ApiKeyRecord)
    (key : String) (now nowUsed : Nat) (writeOk : Bool) (hkey : key ≠ "") :
    (startsWith key "sk_" = false →
      authenticateApiKey hash store (some key) now nowUsed writeOk
        = (.reject 401 "Invalid API key format." "INVALID_API_KEY_FORMAT", store)) ∧
    (startsWith key "sk_" = true → (∀ r ∈ store, r.hashedKey ≠ hash key) →
      authenticateApiKey hash store (some key) now nowUsed writeOk
        = (.reject 401 "Invalid API key." "INVALID_API_KEY", store)) ∧
    (∀ r, startsWith key "sk_" = true →
      (store.find? fun k => k.hashedKey == hash key) = some r →
      (r.isActive = false →
        authenticateApiKey hash store (some key) now nowUsed writeOk
          = (.reject 401 "API key is inactive." "API_KEY_INACTIVE", store)) ∧
      (r.isActive = true → (∃ e, r.expiresAt = some e ∧ e < now) →
        authenticateApiKey hash store (some key) now nowUsed writeOk
          = (.reject 401 "API key has expired." "API_KEY_EXPIRED", store)) ∧
      (r.isActive = true → (∀ e, r.expiresAt = some e → now ≤ e) →
        (authenticateApiKey hash store (some key) now nowUsed writeOk).1
          = .next
              { id := r.id, deviceId := r.deviceId, deviceName := r.deviceName,
                userEmail := r.userEmail, permissions := r.permissions.orElse (.obj "[]"),
                name := r.name, createdAt := r.createdAt }
              { email := r.userEmail } ∧
        (authenticateApiKey hash store (some key) now nowUsed writeOk).2
          = (if writeOk then touchLastUsed (hash key) nowUsed store else store) ∧
        ((authenticateApiKey hash store (some key) now nowUsed writeOk).2.map
            fun k => { k with lastUsed := none })
          = (store.map fun k => { k with lastUsed := none }) ∧
        ((authenticateApiKey hash store (some key) now nowUsed writeOk).2.filter
            fun k => k.hashedKey != hash key)
          = (store.filter fun k => k.hashedKey != hash key))) := by
  refine ⟨?_, ?_, ?_⟩
  · intro hfmt
    simp [authenticateApiKey, hkey, hfmt]
  · intro hfmt hno
    simp only [authenticateApiKey, hkey, hfmt, if_false, Bool.not_true, Bool.false_eq_true]
    rw [find_hash_eq_none (hash key) store hno]
  · intro r hfmt hfind
    refine ⟨?_, ?_, ?_⟩
    · intro hina
      simp only [authenticateApiKey, hkey, hfmt, if_false, Bool.not_true, Bool.false_eq_true]
      rw [hfind]
      simp [hina]
    · intro hact hexp
      obtain ⟨e, he, hlt⟩ := hexp
      simp only [authenticateApiKey, hkey, hfmt, if_false, Bool.not_true, Bool.false_eq_true]
      rw [hfind]
      simp [hact, he, hlt]
    · intro hact hexp
      have hnot : (match r.expiresAt with
          | none => false
          | some expiresAt => decide (expiresAt < now)) = false := by
        cases he : r.expiresAt with
        | none => rfl
        | some e =>
          have := hexp e he
          simp only [decide_eq_false_iff_not]
          omega
      have hres : authenticateApiKey hash store (some key) now nowUsed writeOk =
          (.next
              { id := r.id, deviceId := r.deviceId, deviceName := r.deviceName,
                userEmail := r.userEmail, permissions := r.permissions.orElse (.obj "[]"),
                name := r.name, createdAt := r.createdAt }
              { email := r.userEmail },
           if writeOk then touchLastUsed (hash key) nowUsed store else store) := by
        simp only [authenticateApiKey, hkey, hfmt, if_false, Bool.not_true, Bool.false_eq_true]
        rw [hfind]
        simp only [hact, hnot, Bool.not_true, Bool.false_eq_true, if_false,
          updateApiKeyLastUsed, hfind]
        cases writeOk <;> rfl
      rw [hres]
      refine ⟨rfl, rfl, ?_, ?_⟩
      · cases writeOk
        · rfl
        · exact touchLastUsed_erase _ _ _
      · cases writeOk
        · rfl
        · exact touchLastUsed_others _ _ _

theorem authenticateApiKey_order_witness :
    "sk_abc" ≠ "" ∧
    ((startsWith "sk_abc" "sk_" = false →
      authenticateApiKey sampleHash sampleStore (some "sk_abc") 5000 5001 true
        = (.reject 401 "Invalid API key format." "INVALID_API_KEY_FORMAT", sampleStore)) ∧
    (startsWith "sk_abc" "sk_" = true →
      (∀ r ∈ sampleStore, r.hashedKey ≠ sampleHash "sk_abc") →
      authenticateApiKey sampleHash sampleStore (some "sk_abc") 5000 5001 true
        = (.reject 401 "Invalid API key." "INVALID_API_KEY", sampleStore)) ∧
    (∀ r, startsWith "sk_abc" "sk_" = true →
      (sampleStore.find? fun k => k.hashedKey == sampleHash "sk_abc") = some r →
      (r.isActive = false →
        authenticateApiKey sampleHash sampleStore (some "sk_abc") 5000 5001 true
          = (.reject 401 "API key is inactive." "API_KEY_INACTIVE", sampleStore)) ∧
      (r.isActive = true → (∃ e, r.expiresAt = some e ∧ e < 5000) →
        authenticateApiKey sampleHash sampleStore (some "sk_abc") 5000 5001 true
          = (.reject 401 "API key has expired." "API_KEY_EXPIRED", sampleStore)) ∧
      (r.isActive = true → (∀ e, r.expiresAt = some e → 5000 ≤ e) →
        (authenticateApiKey sampleHash sampleStore (some "sk_abc") 5000 5001 true).1
          = .next
              { id := r.id, deviceId := r.deviceId, deviceName := r.deviceName,
                userEmail := r.userEmail, permissions := r.permissions.orElse (.obj "[]"),
                name := r.name, createdAt := r.createdAt }
              { email := r.userEmail } ∧
        (authenticateApiKey sampleHash sampleStore (some "sk_abc") 5000 5001 true).2
          = (if true then touchLastUsed (sampleHash "sk_abc") 5001 sampleStore
             else sampleStore) ∧
        ((authenticateApiKey sampleHash sampleStore (some "sk_abc") 5000 5001 true).2.map
            fun k => { k with lastUsed := none })
          = (sampleStore.map fun k => { k with lastUsed := none }) ∧
        ((authenticateApiKey sampleHash sampleStore (some "sk_abc") 5000 5001 true).2.filter
            fun k => k.hashedKey != sampleHash "sk_abc")
          = (sampleStore.filter fun k => k.hashedKey != sampleHash "sk_abc")))) :=
  ⟨by decide, authenticateApiKey_order sampleHash sampleStore "sk_abc" 5000 5001 true
    (by decide)⟩

/-! ## Listing credentials -/

/-- C20: the list returned by `getUserApiKeys` for the email `E` holds, in store order,
one entry for each record whose `userEmail` is `E` and no other entry; the list is the
same for every store that differs from this one only in the `hashedKey` and `metadata`
fields of its records, which never reach the output; and the handler returns this list
with its length to an authenticated operator, leaving the store as it was. -/
theorem getUserApiKeys_own_metadata (store : List ApiKeyRecord) (E : String) :
    (getStoredUserApiKeys store E).length
      = store.countP (fun r => r.userEmail == E) ∧
    (getStoredUserApiKeys store E).map KeyMetadata.id
      = (store.filter fun r => r.userEmail == E).map ApiKeyRecord.id ∧
    (∀ r ∈ store, r.userEmail = E → toMetadata r ∈ getStoredUserApiKeys store E) ∧
    (∀ m ∈ getStoredUserApiKeys store E, ∃ r ∈ store, r.userEmail = E ∧ m = toMetadata r) ∧
    (∀ (h : ApiKeyRecord → String) (d : ApiKeyRecord → JsVal),
      getStoredUserApiKeys (store.map fun r => { r with hashedKey := h r, metadata := d r }) E
        = getStoredUserApiKeys store E) ∧
    (∀ user : User, user.email ≠ "" →
      getUserApiKeys store (some user)
        = (.apiKeys (getStoredUserApiKeys store user.email)
            (getStoredUserApiKeys store user.email).length, store)) := by
  refine ⟨?_, ?_, ?_, ?_, ?_, ?_⟩
  · simp [getStoredUserApiKeys, List.countP_eq_length_filter]
  · simp [getStoredUserApiKeys, toMetadata, Function.comp_def]
  · intro r hr hE
    simp only [getStoredUserApiKeys, List.mem_map, List.mem_filter]
    exact ⟨r, ⟨hr, by simpa using hE⟩, rfl⟩
  · intro m hm
    simp only [getStoredUserApiKeys, List.mem_map, List.mem_filter] at hm
    obtain ⟨r, ⟨hr, hE⟩, rfl⟩ := hm
    exact ⟨r, hr, by simpa using hE, rfl⟩
  · intro h d
    induction store with
    | nil => rfl
    | cons r rest ih =>
      by_cases hE : r.userEmail = E
      · simp only [getStoredUserApiKeys] at ih ⊢
        simp [List.filter_cons, hE, toMetadata, ih]
      · simp only [getStoredUserApiKeys] at ih ⊢
        simp [List.filter_cons, hE, ih]
  · intro user hu
    simp [getUserApiKeys, hu]

/-! ## Heartbeat of `submitCommandResult` -/

/-- C25: a submission by an authenticated device (primitive id) with a truthy `commandId`
sets the presence entry of the device to the call time, also when the call is then
answered 404 or 403; a submission with a falsy `commandId` (missing, empty) is
answered 400 and leaves the whole state, presence table included, as it was. -/
theorem submit_heartbeat (st : State) (key : ApiKey) (commandId result : JsVal) (now : Nat)
    (hkey : key.deviceId.truthy = true)
    (hprim : JsVal.strictEq key.deviceId key.deviceId = true) :
    (commandId.truthy = true →
      (submitCommandResult st (some key) commandId result now).2.deviceActivity
        = mapSet sameValueZero st.deviceActivity key.deviceId now ∧
      mapGet sameValueZero
        (submitCommandResult st (some key) commandId result now).2.deviceActivity
        key.deviceId = some now ∧
      (getCommand st.activeCommands commandId = none →
        (submitCommandResult st (some key) commandId result now).1
          = .fail 404 "Command not found") ∧
      (∀ c, getCommand st.activeCommands commandId = some c →
        JsVal.strictEq c.deviceId key.deviceId = false →
        (submitCommandResult st (some key) commandId result now).1
          = .fail 403 "Not authorized to submit result for this command")) ∧
    (commandId.truthy = false →
      submitCommandResult st (some key) commandId result now
        = (.fail 400 "commandId is required", st)) ∧
    (commandId = .undefined ∨ commandId = .str "" →
      submitCommandResult st (some key) commandId result now
        = (.fail 400 "commandId is required", st)) := by
  have hfalsy : commandId.truthy = false →
      submitCommandResult st (some key) commandId result now
        = (.fail 400 "commandId is required", st) := by
    intro hc
    simp [submitCommandResult, hkey, hc]
  refine ⟨?_, hfalsy, ?_⟩
  · intro hc
    have hact : (submitCommandResult st (some key) commandId result now).2.deviceActivity
        = mapSet sameValueZero st.deviceActivity key.deviceId now := by
      cases hget : getCommand st.activeCommands commandId with
      | none => simp [submitCommandResult, hkey, hc, hget]
      | some c =>
        by_cases hd : JsVal.strictEq c.deviceId key.deviceId = true
        · simp [submitCommandResult, hkey, hc, hget, hd]
        · simp [submitCommandResult, hkey, hc, hget, hd]
    refine ⟨hact, ?_, ?_, ?_⟩
    · rw [hact]
      exact presence_get_set_self _ _ _ hprim
    · intro hget
      simp [submitCommandResult, hkey, hc, hget]
    · intro c hget hd
      simp [submitCommandResult, hkey, hc, hget, hd]
  · intro h
    apply hfalsy
    rcases h with h | h <;> rw [h] <;> rfl

theorem submit_heartbeat_witness :
    (keyDev2.deviceId.truthy = true ∧ JsVal.strictEq keyDev2.deviceId keyDev2.deviceId = true) ∧
    (((JsVal.str "cmd_1000_00000007").truthy = true →
      (submitCommandResult pingState (some keyDev2) (.str "cmd_1000_00000007") (.str "x")
        3000).2.deviceActivity
        = mapSet sameValueZero pingState.deviceActivity keyDev2.deviceId 3000 ∧
      mapGet sameValueZero
        (submitCommandResult pingState (some keyDev2) (.str "cmd_1000_00000007") (.str "x")
          3000).2.deviceActivity
        keyDev2.deviceId = some 3000 ∧
      (getCommand pingState.activeCommands (.str "cmd_1000_00000007") = none →
        (submitCommandResult pingState (some keyDev2) (.str "cmd_1000_00000007") (.str "x")
          3000).1 = .fail 404 "Command not found") ∧
      (∀ c, getCommand pingState.activeCommands (.str "cmd_1000_00000007") = some c →
        JsVal.strictEq c.deviceId keyDev2.deviceId = false →
        (submitCommandResult pingState (some keyDev2) (.str "cmd_1000_00000007") (.str "x")
          3000).1 = .fail 403 "Not authorized to submit result for this command")) ∧
    ((JsVal.str "cmd_1000_00000007").truthy = false →
      submitCommandResult pingState (some keyDev2) (.str "cmd_1000_00000007") (.str "x") 3000
        = (.fail 400 "commandId is required", pingState)) ∧
    (JsVal.str "cmd_1000_00000007" = .undefined ∨ JsVal.str "cmd_1000_00000007" = .str "" →
      submitCommandResult pingState (some keyDev2) (.str "cmd_1000_00000007") (.str "x") 3000
        = (.fail 400 "commandId is required", pingState))) :=
  ⟨⟨by decide, by decide⟩,
   submit_heartbeat pingState keyDev2 (.str "cmd_1000_00000007") (.str "x") 3000
     (by decide) (by decide)⟩

/-! ## Default result -/

/-- C26: after an accepted submission the command stored under the id has
`completedAt` equal to the call time and `success = true`; its `result` is the literal
`command executed` when the payload is falsy (missing, `null`, empty string, `0`,
`false`) and the payload itself when it is truthy; the response shows the same
three values. -/
theorem submit_default_result (st : State) (key : ApiKey) (cid : String) (c : Command)
    (r : JsVal) (now : Nat) (hkey : key.deviceId.truthy = true) (hcid : cid ≠ "")
    (hget : mapGet sameKey st.activeCommands cid = some c)
    (hdev : JsVal.strictEq c.deviceId key.deviceId = true) :
    (∃ c', mapGet sameKey
        (submitCommandResult st (some key) (.str cid) r now).2.activeCommands cid = some c' ∧
      c'.completedAt = some now ∧ c'.success = some true ∧
      (r.truthy = false → c'.result = .str "command executed") ∧
      (r = .undefined ∨ r = .null ∨ r = .str "" ∨ r = .num 0 ∨ r = .bool false →
        c'.result = .str "command executed") ∧
      (r.truthy = true → c'.result = r) ∧
      (submitCommandResult st (some key) (.str cid) r now).1
        = .command
            { id := c.id, command := c.command, deviceId := c.deviceId,
              issuedBy := c.issuedBy, timestamp := c.timestamp, status := "completed",
              result := some c'.result, completedAt := some c'.completedAt,
              success := some c'.success }) := by
  rw [submitCommandResult_ok st key cid c r now hkey hcid hget hdev]
  refine ⟨completeWith c r now, mapGet_mapSet_self _ _ _, rfl, rfl, ?_, ?_, ?_, rfl⟩
  · intro hr
    simp [completeWith, JsVal.orElse, hr]
  · intro hr
    have hf : r.truthy = false := by
      rcases hr with h | h | h | h | h <;> rw [h] <;> rfl
    simp [completeWith, JsVal.orElse, hf]
  · intro hr
    simp [completeWith, JsVal.orElse, hr]

theorem submit_default_result_witness :
    (keyDev1.deviceId.truthy = true ∧ "cmd_1000_00000007" ≠ "" ∧
      mapGet sameKey pingState.activeCommands "cmd_1000_00000007" =
        some (newCommand "cmd_1000_00000007" (.str "ping") (.str "dev1") "alice@x.com" 1001) ∧
      JsVal.strictEq (.str "dev1") keyDev1.deviceId = true) ∧
    (∃ c', mapGet sameKey
        (submitCommandResult pingState (some keyDev1) (.str "cmd_1000_00000007") (.num 0)
          3000).2.activeCommands "cmd_1000_00000007" = some c' ∧
      c'.completedAt = some 3000 ∧ c'.success = some true ∧
      ((JsVal.num 0).truthy = false → c'.result = .str "command executed") ∧
      (JsVal.num 0 = .undefined ∨ JsVal.num 0 = .null ∨ JsVal.num 0 = .str "" ∨
          JsVal.num 0 = .num 0 ∨ JsVal.num 0 = .bool false →
        c'.result = .str "command executed") ∧
      ((JsVal.num 0).truthy = true → c'.result = .num 0) ∧
      (submitCommandResult pingState (some keyDev1) (.str "cmd_1000_00000007") (.num 0)
          3000).1
        = .command
            { id := "cmd_1000_00000007", command := .str "ping", deviceId := .str "dev1",
              issuedBy := "alice@x.com", timestamp := 1001, status := "completed",
              result := some c'.result, completedAt := some c'.completedAt,
              success := some c'.success }) :=
  ⟨⟨by decide, by decide, by decide, by decide⟩,
   submit_default_result pingState keyDev1 "cmd_1000_00000007"
     (newCommand "cmd_1000_00000007" (.str "ping") (.str "dev1") "alice@x.com" 1001)
     (.num 0) 3000 (by decide) (by decide) (by decide) (by decide)⟩

/-! ## Identity of a command -/

theorem mem_mapSet (l : List (String × Command)) (k : String) (v : Command)
    (e : String × Command) (he : e ∈ mapSet sameKey l k v) : e ∈ l ∨ e = (k, v) := by
  induction l with
  | nil =>
    right
    simpa [mapSet] using he
  | cons e₀ l ih =>
    obtain ⟨k', v'⟩ := e₀
    by_cases h : k' = k
    · subst h
      simp only [mapSet, sameKey, beq_self_eq_true, if_true, List.mem_cons] at he
      rcases he with he | he
      · exact Or.inr he
      · exact Or.inl (List.mem_cons_of_mem _ he)
    · simp only [mapSet, sameKey, beq_iff_eq, h, if_false, List.mem_cons] at he
      rcases he with he | he
      · exact Or.inl (he ▸ List.mem_cons_self _ _)
      · rcases ih he with h' | h'
        · exact Or.inl (List.mem_cons_of_mem _ h')
        · exact Or.inr h'

theorem mem_of_mapGet (l : List (String × Command)) (k : String) (c : Command)
    (h : mapGet sameKey l k = some c) : (k, c) ∈ l := by
  induction l with
  | nil => simp [mapGet] at h
  | cons e l ih =>
    obtain ⟨k', v'⟩ := e
    by_cases hk : k' = k
    · subst hk
      simp only [mapGet, sameKey, beq_self_eq_true, if_true, Option.some.injEq] at h
      subst h
      exact List.mem_cons_self _ _
    · simp only [mapGet, sameKey, beq_iff_eq, hk, if_false] at h
      exact List.mem_cons_of_mem _ (ih h)

theorem keys_mapSet_extends (l : List (String × Command)) (k : String) (v : Command) :
    l.map Prod.fst <+: (mapSet sameKey l k v).map Prod.fst := by
  by_cases hk : k ∈ l.map Prod.fst
  · rw [keys_mapSet_of_mem l k v hk]
  · rw [mapSet_of_not_mem l k v hk, List.map_append]
    exact List.prefix_append _ _

theorem sameIdentity_refl (c : Command) : SameIdentity c c := ⟨rfl, rfl, rfl, rfl, rfl⟩

theorem sameIdentity_trans {a b c : Command} (h₁ : SameIdentity a b) (h₂ : SameIdentity b c) :
    SameIdentity a c :=
  ⟨h₂.1.trans h₁.1, h₂.2.1.trans h₁.2.1, h₂.2.2.1.trans h₁.2.2.1,
   h₂.2.2.2.1.trans h₁.2.2.2.1, h₂.2.2.2.2.trans h₁.2.2.2.2⟩

theorem sameIdentity_markFetched (d : JsVal) (t : Nat) (c : Command) :
    SameIdentity c (markFetched d t c) := by
  unfold markFetched
  split
  · exact ⟨rfl, rfl, rfl, rfl, rfl⟩
  · exact sameIdentity_refl c

/-- Every handler keeps each command under its own id. -/
theorem idsMatch_step (st : State) (r : Request) (h : IdsMatchKeys st) :
    IdsMatchKeys (step st r).2 := by
  cases r with
  | send user deviceId command idTime rnd now =>
    rcases sendCommand_commands st user deviceId command idTime rnd now with h' | ⟨_, _, h'⟩
    · intro e he
      exact h e (by simpa [step, h'] using he)
    · intro e he
      simp only [step, h'] at he
      rcases mem_mapSet _ _ _ e he with hm | hm
      · exact h e hm
      · rw [hm]; rfl
  | poll apiKey t =>
    rcases checkForCommands_commands st apiKey t with h' | ⟨d, h'⟩
    · intro e he
      exact h e (by simpa [step, h'] using he)
    · intro e he
      simp only [step, h', List.mem_map] at he
      obtain ⟨e₀, he₀, rfl⟩ := he
      simp only
      rw [(sameIdentity_markFetched d t e₀.2).1]
      exact h e₀ he₀
  | submit apiKey commandId res now =>
    rcases submitCommandResult_commands st apiKey commandId res now with
      h' | ⟨s, c, _, hget, h'⟩
    · intro e he
      exact h e (by simpa [step, h'] using he)
    · intro e he
      simp only [step, h'] at he
      rcases mem_mapSet _ _ _ e he with hm | hm
      · exact h e hm
      · rw [hm]
        exact h (s, c) (mem_of_mapGet _ _ _ hget)
  | getResult user cid =>
    intro e he
    exact h e (by simpa [step, getCommandResult_state] using he)

/-- A stored command keeps its identity through any request, provided an accepted
`send` does not reuse its id. -/
theorem identity_step (st : State) (r : Request) (k : String) (c : Command)
    (hget : mapGet sameKey st.activeCommands k = some c) (hfresh : FreshIds st [r]) :
    ∃ c', mapGet sameKey (step st r).2.activeCommands k = some c' ∧ SameIdentity c c' := by
  cases r with
  | send user deviceId command idTime rnd now =>
    rcases sendCommand_commands st user deviceId command idTime rnd now with h' | ⟨_, h200, h'⟩
    · exact ⟨c, by simpa [step, h'] using hget, sameIdentity_refl c⟩
    · have hne : k ≠ genCommandId idTime rnd := by
        intro he
        have hmem : k ∈ st.activeCommands.map Prod.fst :=
          List.mem_map_of_mem Prod.fst (mem_of_mapGet _ _ _ hget)
        exact hfresh.1 h200 (he ▸ hmem)
      refine ⟨c, ?_, sameIdentity_refl c⟩
      simp only [step, h']
      rw [mapGet_mapSet_other _ _ _ _ hne]
      exact hget
  | poll apiKey t =>
    rcases checkForCommands_commands st apiKey t with h' | ⟨d, h'⟩
    · exact ⟨c, by simpa [step, h'] using hget, sameIdentity_refl c⟩
    · refine ⟨markFetched d t c, ?_, sameIdentity_markFetched d t c⟩
      simp only [step, h']
      rw [mapGet_map_snd, hget]
      rfl
  | submit apiKey commandId res now =>
    rcases submitCommandResult_commands st apiKey commandId res now with
      h' | ⟨s, c₀, _, hget₀, h'⟩
    · exact ⟨c, by simpa [step, h'] using hget, sameIdentity_refl c⟩
    · by_cases hs : k = s
      · subst hs
        rw [hget] at hget₀
        cases hget₀
        refine ⟨completeWith c res now, ?_, ⟨rfl, rfl, rfl, rfl, rfl⟩⟩
        simp only [step, h']
        exact mapGet_mapSet_self _ _ _
      · refine ⟨c, ?_, sameIdentity_refl c⟩
        simp only [step, h']
        rw [mapGet_mapSet_other _ _ _ _ hs]
        exact hget
  | getResult user cid =>
    exact ⟨c, by simpa [step, getCommandResult_state] using hget, sameIdentity_refl c⟩

/-- No handler removes or reorders a key of the command table. -/
theorem keys_step (st : State) (r : Request) :
    commandIds st <+: commandIds (step st r).2 := by
  unfold commandIds
  cases r with
  | send user deviceId command idTime rnd now =>
    rcases sendCommand_commands st user deviceId command idTime rnd now with h' | ⟨_, _, h'⟩
    · simp [step, h']
    · simp only [step, h']
      exact keys_mapSet_extends _ _ _
  | poll apiKey t =>
    rcases checkForCommands_commands st apiKey t with h' | ⟨d, h'⟩
    · simp [step, h']
    · simp [step, h', Function.comp_def]
  | submit apiKey commandId res now =>
    rcases submitCommandResult_commands st apiKey commandId res now with
      h' | ⟨s, c, _, _, h'⟩
    · simp [step, h']
    · simp only [step, h']
      exact keys_mapSet_extends _ _ _
  | getResult user cid =>
    simp [step, getCommandResult_state]

/-- C27: from a command table in which every entry is stored under its own `id`, after
any sequence of `sendCommand`, `checkForCommands`, `submitCommandResult` and
`getCommandResult` requests in which every accepted `sendCommand` generates an id not yet
in the table: every entry is still stored under its own `id`; every command of the
initial table is still there, under the same key, with the same `id`, text,
`deviceId`, `issuedBy` and `timestamp`; and the initial keys are an initial segment of
the final ones, in the same order. -/
theorem relay_keeps_identity (st : State) (reqs : List Request) (hids : IdsMatchKeys st)
    (hfresh : FreshIds st reqs) :
    IdsMatchKeys (run st reqs) ∧
    (∀ k c, mapGet sameKey st.activeCommands k = some c →
      ∃ c', mapGet sameKey (run st reqs).activeCommands k = some c' ∧ SameIdentity c c') ∧
    commandIds st <+: commandIds (run st reqs) := by
  induction reqs generalizing st with
  | nil =>
    exact ⟨hids, fun k c h => ⟨c, h, sameIdentity_refl c⟩, List.prefix_refl _⟩
  | cons r rs ih =>
    obtain ⟨h1, h2, h3⟩ := ih (step st r).2 (idsMatch_step st r hids) hfresh.2
    refine ⟨h1, ?_, (keys_step st r).trans h3⟩
    intro k c hget
    obtain ⟨c₁, hget₁, hs₁⟩ := identity_step st r k c hget ⟨hfresh.1, trivial⟩
    obtain ⟨c₂, hget₂, hs₂⟩ := h2 k c₁ hget₁
    exact ⟨c₂, hget₂, sameIdentity_trans hs₁ hs₂⟩

theorem relay_keeps_identity_witness :
    (IdsMatchKeys pingState ∧
      FreshIds pingState
        [.poll (some keyDev1) 4000,
         .send (some bob) (.str "dev2") (.str "ls") 5000 7 5001,
         .submit (some keyDev1) (.str "cmd_1000_00000007") (.str "pong") 6000,
         .getResult (some alice) "cmd_1000_00000007"]) ∧
    (IdsMatchKeys (run pingState
        [.poll (some keyDev1) 4000,
         .send (some bob) (.str "dev2") (.str "ls") 5000 7 5001,
         .submit (some keyDev1) (.str "cmd_1000_00000007") (.str "pong") 6000,
         .getResult (some alice) "cmd_1000_00000007"]) ∧
    (∀ k c, mapGet sameKey pingState.activeCommands k = some c →
      ∃ c', mapGet sameKey (run pingState
        [.poll (some keyDev1) 4000,
         .send (some bob) (.str "dev2") (.str "ls") 5000 7 5001,
         .submit (some keyDev1) (.str "cmd_1000_00000007") (.str "pong") 6000,
         .getResult (some alice) "cmd_1000_00000007"]).activeCommands k = some c' ∧
        SameIdentity c c') ∧
    commandIds pingState <+: commandIds (run pingState
        [.poll (some keyDev1) 4000,
         .send (some bob) (.str "dev2") (.str "ls") 5000 7 5001,
         .submit (some keyDev1) (.str "cmd_1000_00000007") (.str "pong") 6000,
         .getResult (some alice) "cmd_1000_00000007"])) :=
  ⟨⟨by decide, ⟨trivial, fun _ => by decide, trivial, trivial, trivial⟩⟩,
   relay_keeps_identity pingState
     [.poll (some keyDev1) 4000,
      .send (some bob) (.str "dev2") (.str "ls") 5000 7 5001,
      .submit (some keyDev1) (.str "cmd_1000_00000007") (.str "pong") 6000,
      .getResult (some alice) "cmd_1000_00000007"]
     (by decide) ⟨trivial, fun _ => by decide, trivial, trivial, trivial⟩⟩

/-! ## `fetchedAt` is never read -/

theorem eraseFetched_idem (c : Command) : eraseFetched (eraseFetched c) = eraseFetched c := rfl

theorem eraseFetched_markFetched (d : JsVal) (t : Nat) (c : Command) :
    eraseFetched (markFetched d t c) = eraseFetched c := by
  unfold markFetched
  split <;> rfl

theorem erase_map_idem (l : List (String × Command)) :
    (l.map fun e => (e.1, eraseFetched e.2)).map (fun e => (e.1, eraseFetched e.2))
      = l.map fun e => (e.1, eraseFetched e.2) := by
  simp [List.map_map, Function.comp_def, eraseFetched]

theorem eraseFetchedAll_idem (st : State) :
    eraseFetchedAll (eraseFetchedAll st) = eraseFetchedAll st := by
  simp only [eraseFetchedAll, erase_map_idem]

theorem erase_map_mapSet (l : List (String × Command)) (k : String) (v : Command) :
    (mapSet sameKey l k v).map (fun e => (e.1, eraseFetched e.2))
      = mapSet sameKey (l.map fun e => (e.1, eraseFetched e.2)) k (eraseFetched v) := by
  induction l with
  | nil => simp [mapSet]
  | cons e l ih =>
    obtain ⟨k', v'⟩ := e
    by_cases h : k' = k
    · simp [mapSet, h]
    · simp [mapSet, h, ih]

theorem sendCommand_erase (st : State) (user : Option User) (deviceId command : JsVal)
    (idTime rnd now : Nat) :
    (sendCommand st user deviceId command idTime rnd now).1
      = (sendCommand (eraseFetchedAll st) user deviceId command idTime rnd now).1 ∧
    eraseFetchedAll (sendCommand st user deviceId command idTime rnd now).2
      = eraseFetchedAll
          (sendCommand (eraseFetchedAll st) user deviceId command idTime rnd now).2 := by
  cases user with
  | none => exact ⟨rfl, (eraseFetchedAll_idem st).symm⟩
  | some u =>
    by_cases hu : u.email = ""
    · simp [sendCommand, hu, eraseFetchedAll_idem]
    · by_cases hd : deviceId.truthy = true
      · by_cases hc : command.truthy = true
        · rw [sendCommand_ok st u deviceId command idTime rnd now hu hd hc,
            sendCommand_ok _ u deviceId command idTime rnd now hu hd hc]
          refine ⟨rfl, ?_⟩
          simp only [eraseFetchedAll, erase_map_mapSet, erase_map_idem]
        · simp [sendCommand, hu, hd, hc, eraseFetchedAll_idem]
      · simp [sendCommand, hu, hd, eraseFetchedAll_idem]

theorem checkForCommands_erase (st : State) (apiKey : Option ApiKey) (t : Nat) :
    (checkForCommands st apiKey t).1 = (checkForCommands (eraseFetchedAll st) apiKey t).1 ∧
    eraseFetchedAll (checkForCommands st apiKey t).2
      = eraseFetchedAll (checkForCommands (eraseFetchedAll st) apiKey t).2 := by
  cases apiKey with
  | none => simp [checkForCommands, eraseFetchedAll_idem]
  | some key =>
    by_cases hk : key.deviceId.truthy = true
    · rw [checkForCommands_ok st key t hk, checkForCommands_ok _ key t hk]
      simp only [eraseFetchedAll]
      constructor
      · rw [pollLoop_fst_congr key.deviceId t t (fun e => eraseFetched e.2)
          (fun e => ⟨rfl, rfl, rfl, rfl, rfl⟩)]
      · simp only [pollLoop_snd, List.map_map, Function.comp_def, eraseFetched_markFetched,
          eraseFetched_idem]
    · simp [checkForCommands, hk, eraseFetchedAll_idem]

theorem mapGet_erase (l : List (String × Command)) (k : String) :
    mapGet sameKey (l.map fun e => (e.1, eraseFetched e.2)) k
      = (mapGet sameKey l k).map eraseFetched :=
  mapGet_map_snd eraseFetched l k

theorem submitCommandResult_erase (st : State) (apiKey : Option ApiKey)
    (commandId r : JsVal) (now : Nat) :
    (submitCommandResult st apiKey commandId r now).1
      = (submitCommandResult (eraseFetchedAll st) apiKey commandId r now).1 ∧
    eraseFetchedAll (submitCommandResult st apiKey commandId r now).2
      = eraseFetchedAll (submitCommandResult (eraseFetchedAll st) apiKey commandId r now).2 := by
  cases apiKey with
  | none => simp [submitCommandResult, eraseFetchedAll_idem]
  | some key =>
    by_cases hk : key.deviceId.truthy = true
    · by_cases hc : commandId.truthy = true
      · have hmiss : ∀ st' : State, getCommand st'.activeCommands commandId = none →
            submitCommandResult st' (some key) commandId r now =
              (.fail 404 "Command not found",
               { st' with
                 deviceActivity := mapSet sameValueZero st'.deviceActivity key.deviceId now }) := by
          intro st' hg
          simp [submitCommandResult, hk, hc, hg]
        have hforb : ∀ (st' : State) (c : Command),
            getCommand st'.activeCommands commandId = some c →
            JsVal.strictEq c.deviceId key.deviceId = false →
            submitCommandResult st' (some key) commandId r now =
              (.fail 403 "Not authorized to submit result for this command",
               { st' with
                 deviceActivity := mapSet sameValueZero st'.deviceActivity key.deviceId now }) := by
          intro st' c hg hd
          simp [submitCommandResult, hk, hc, hg, hd]
        cases commandId with
        | str s =>
          have hs : s ≠ "" := by
            intro he
            simp [he, JsVal.truthy] at hc
          have hE : mapGet sameKey (eraseFetchedAll st).activeCommands s
              = (mapGet sameKey st.activeCommands s).map eraseFetched := mapGet_erase _ _
          cases hget : mapGet sameKey st.activeCommands s with
          | none =>
            rw [hget] at hE
            rw [hmiss st hget, hmiss (eraseFetchedAll st) hE]
            exact ⟨rfl, by simp only [eraseFetchedAll, erase_map_idem]⟩
          | some c =>
            rw [hget] at hE
            by_cases hd : JsVal.strictEq c.deviceId key.deviceId = true
            · rw [submitCommandResult_ok st key s c r now hk hs hget hd,
                submitCommandResult_ok (eraseFetchedAll st) key s (eraseFetched c) r now hk hs
                  hE hd]
              refine ⟨rfl, ?_⟩
              simp only [eraseFetchedAll, erase_map_mapSet, erase_map_idem]
              rfl
            · have hd' : JsVal.strictEq c.deviceId key.deviceId = false := by simpa using hd
              rw [hforb st c hget hd', hforb (eraseFetchedAll st) (eraseFetched c) hE hd']
              exact ⟨rfl, by simp only [eraseFetchedAll, erase_map_idem]⟩
        | undefined =>
          rw [hmiss st rfl, hmiss (eraseFetchedAll st) rfl]
          exact ⟨rfl, by simp only [eraseFetchedAll, erase_map_idem]⟩
        | null =>
          rw [hmiss st rfl, hmiss (eraseFetchedAll st) rfl]
          exact ⟨rfl, by simp only [eraseFetchedAll, erase_map_idem]⟩
        | bool b =>
          rw [hmiss st rfl, hmiss (eraseFetchedAll st) rfl]
          exact ⟨rfl, by simp only [eraseFetchedAll, erase_map_idem]⟩
        | num n =>
          rw [hmiss st rfl, hmiss (eraseFetchedAll st) rfl]
          exact ⟨rfl, by simp only [eraseFetchedAll, erase_map_idem]⟩
        | obj j =>
          rw [hmiss st rfl, hmiss (eraseFetchedAll st) rfl]
          exact ⟨rfl, by simp only [eraseFetchedAll, erase_map_idem]⟩
      · simp [submitCommandResult, hk, hc, eraseFetchedAll_idem]
    · simp [submitCommandResult, hk, eraseFetchedAll_idem]

theorem getCommandResult_erase (st : State) (user : Option User) (cid : String) :
    (getCommandResult st user cid).1 = (getCommandResult (eraseFetchedAll st) user cid).1 ∧
    eraseFetchedAll (getCommandResult st user cid).2
      = eraseFetchedAll (getCommandResult (eraseFetchedAll st) user cid).2 := by
  refine ⟨?_, by simp [getCommandResult_state, eraseFetchedAll_idem]⟩
  cases user with
  | none => rfl
  | some u =>
    by_cases hu : u.email = ""
    · simp [getCommandResult, hu]
    · by_cases hcid : cid = ""
      · simp [getCommandResult, hu, hcid]
      · have hE : mapGet sameKey (eraseFetchedAll st).activeCommands cid
            = (mapGet sameKey st.activeCommands cid).map eraseFetched := mapGet_erase _ _
        cases hget : mapGet sameKey st.activeCommands cid with
        | none =>
          rw [hget] at hE
          simp [getCommandResult, hu, hcid, hget, hE]
        | some c =>
          rw [hget] at hE
          by_cases hby : c.issuedBy = u.email
          · rw [getCommandResult_ok st u cid c hu hcid hget hby,
              getCommandResult_ok _ u cid (eraseFetched c) hu hcid hE hby]
            rfl
          · rw [getCommandResult_forbidden st u cid c hu hcid hget hby,
              getCommandResult_forbidden _ u cid (eraseFetched c) hu hcid hE hby]

/-- The response of a handler, and its next state up to `fetchedAt`, are those it
gives on the state with every `fetchedAt` removed. -/
theorem step_erase (st : State) (r : Request) :
    (step st r).1 = (step (eraseFetchedAll st) r).1 ∧
    eraseFetchedAll (step st r).2 = eraseFetchedAll (step (eraseFetchedAll st) r).2 := by
  cases r with
  | send user deviceId command idTime rnd now =>
    exact sendCommand_erase st user deviceId command idTime rnd now
  | poll apiKey t => exact checkForCommands_erase st apiKey t
  | submit apiKey commandId res now => exact submitCommandResult_erase st apiKey commandId res now
  | getResult user cid => exact getCommandResult_erase st user cid

theorem step_eqUpToFetched (st₁ st₂ : State) (h : EqUpToFetched st₁ st₂) (r : Request) :
    (step st₁ r).1 = (step st₂ r).1 ∧ EqUpToFetched (step st₁ r).2 (step st₂ r).2 := by
  unfold EqUpToFetched at *
  obtain ⟨a₁, b₁⟩ := step_erase st₁ r
  obtain ⟨a₂, b₂⟩ := step_erase st₂ r
  constructor
  · rw [a₁, a₂, h]
  · rw [b₁, b₂, h]

theorem responses_eqUpToFetched (reqs : List Request) (st₁ st₂ : State)
    (h : EqUpToFetched st₁ st₂) : responses st₁ reqs = responses st₂ reqs := by
  induction reqs generalizing st₁ st₂ with
  | nil => rfl
  | cons r rs ih =>
    obtain ⟨hr, hs⟩ := step_eqUpToFetched st₁ st₂ h r
    simp only [responses, hr, ih _ _ hs]

/-- C23: two states that differ only in the `fetchedAt` fields of their commands give the
same response to every `sendCommand`, `checkForCommands`, `submitCommandResult` and
`getCommandResult` request, and to every sequence of such requests, the states staying
equal up to `fetchedAt`; any rewriting of the `fetchedAt` fields gives such a state; and
the device a command was issued to can submit its result (200) although the command
was never polled. -/
theorem fetchedAt_never_gates (st₁ st₂ : State) (h : EqUpToFetched st₁ st₂) :
    (∀ (user : Option User) (deviceId command : JsVal) (idTime rnd now : Nat),
      (sendCommand st₁ user deviceId command idTime rnd now).1
        = (sendCommand st₂ user deviceId command idTime rnd now).1) ∧
    (∀ (apiKey : Option ApiKey) (t : Nat),
      (checkForCommands st₁ apiKey t).1 = (checkForCommands st₂ apiKey t).1) ∧
    (∀ (apiKey : Option ApiKey) (commandId r : JsVal) (now : Nat),
      (submitCommandResult st₁ apiKey commandId r now).1
        = (submitCommandResult st₂ apiKey commandId r now).1) ∧
    (∀ (user : Option User) (cid : String),
      (getCommandResult st₁ user cid).1 = (getCommandResult st₂ user cid).1) ∧
    (∀ r : Request, EqUpToFetched (step st₁ r).2 (step st₂ r).2) ∧
    (∀ reqs : List Request, responses st₁ reqs = responses st₂ reqs) ∧
    (∀ f : String × Command → Option Nat,
      EqUpToFetched st₁
        { st₁ with activeCommands :=
            st₁.activeCommands.map fun e => (e.1, { e.2 with fetchedAt := f e }) }) ∧
    (∀ (user : User) (key : ApiKey) (d : String) (command r : JsVal) (idTime rnd now t : Nat),
      user.email ≠ "" → d ≠ "" → command.truthy = true → key.deviceId = .str d →
      (mapGet sameKey (sendCommand st₁ (some user) (.str d) command idTime rnd now).2.activeCommands
          (genCommandId idTime rnd)).map Command.fetchedAt = some none ∧
      (submitCommandResult (sendCommand st₁ (some user) (.str d) command idTime rnd now).2
        (some key) (.str (genCommandId idTime rnd)) r t).1.status = 200) := by
  refine ⟨?_, ?_, ?_, ?_, ?_, ?_, ?_, ?_⟩
  · intro user deviceId command idTime rnd now
    exact (step_eqUpToFetched st₁ st₂ h (.send user deviceId command idTime rnd now)).1
  · intro apiKey t
    exact (step_eqUpToFetched st₁ st₂ h (.poll apiKey t)).1
  · intro apiKey commandId r now
    exact (step_eqUpToFetched st₁ st₂ h (.submit apiKey commandId r now)).1
  · intro user cid
    exact (step_eqUpToFetched st₁ st₂ h (.getResult user cid)).1
  · intro r
    exact (step_eqUpToFetched st₁ st₂ h r).2
  · intro reqs
    exact responses_eqUpToFetched reqs st₁ st₂ h
  · intro f
    simp [EqUpToFetched, eraseFetchedAll, List.map_map, Function.comp_def, eraseFetched]
  · intro user key d command r idTime rnd now t hu hd hc hkey
    have hdt : (JsVal.str d).truthy = true := by simpa [JsVal.truthy] using hd
    rw [sendCommand_ok st₁ user (.str d) command idTime rnd now hu hdt hc]
    have hget := mapGet_mapSet_self st₁.activeCommands (genCommandId idTime rnd)
      (newCommand (genCommandId idTime rnd) command (.str d) user.email now)
    refine ⟨by rw [hget]; rfl, ?_⟩
    rw [submitCommandResult_ok _ key (genCommandId idTime rnd) _ r t (by rw [hkey]; exact hdt)
      (genCommandId_ne_empty idTime rnd) hget
      (by rw [hkey]; exact strictEq_str_self d)]
    rfl

theorem fetchedAt_never_gates_witness :
    EqUpToFetched pingState fetchedState ∧
    ((∀ (user : Option User) (deviceId command : JsVal) (idTime rnd now : Nat),
      (sendCommand pingState user deviceId command idTime rnd now).1
        = (sendCommand fetchedState user deviceId command idTime rnd now).1) ∧
    (∀ (apiKey : Option ApiKey) (t : Nat),
      (checkForCommands pingState apiKey t).1 = (checkForCommands fetchedState apiKey t).1) ∧
    (∀ (apiKey : Option ApiKey) (commandId r : JsVal) (now : Nat),
      (submitCommandResult pingState apiKey commandId r now).1
        = (submitCommandResult fetchedState apiKey commandId r now).1) ∧
    (∀ (user : Option User) (cid : String),
      (getCommandResult pingState user cid).1 = (getCommandResult fetchedState user cid).1) ∧
    (∀ r : Request, EqUpToFetched (step pingState r).2 (step fetchedState r).2) ∧
    (∀ reqs : List Request, responses pingState reqs = responses fetchedState reqs) ∧
    (∀ f : String × Command → Option Nat,
      EqUpToFetched pingState
        { pingState with activeCommands :=
            pingState.activeCommands.map fun e => (e.1, { e.2 with fetchedAt := f e }) }) ∧
    (∀ (user : User) (key : ApiKey) (d : String) (command r : JsVal) (idTime rnd now t : Nat),
      user.email ≠ "" → d ≠ "" → command.truthy = true → key.deviceId = .str d →
      (mapGet sameKey
          (sendCommand pingState (some user) (.str d) command idTime rnd now).2.activeCommands
          (genCommandId idTime rnd)).map Command.fetchedAt = some none ∧
      (submitCommandResult (sendCommand pingState (some user) (.str d) command idTime rnd now).2
        (some key) (.str (genCommandId idTime rnd)) r t).1.status = 200)) :=
  ⟨by decide, fetchedAt_never_gates pingState fetchedState (by decide)⟩

/-! ## What a third party can observe -/

theorem agree_lookup (foreign : Command → Bool) (l₁ l₂ : List (String × Command))
    (h : AgreeExceptForeign foreign l₁ l₂) (k : String) :
    mapGet sameKey l₁ k = mapGet sameKey l₂ k ∨
    ∃ c₁ c₂, mapGet sameKey l₁ k = some c₁ ∧ mapGet sameKey l₂ k = some c₂ ∧
      foreign c₁ = true ∧ foreign c₂ = true := by
  unfold AgreeExceptForeign at h
  induction h with
  | nil => exact Or.inl rfl
  | @cons e₁ e₂ t₁ t₂ he _ ih =>
    obtain ⟨k₁, c₁⟩ := e₁
    obtain ⟨k₂, c₂⟩ := e₂
    obtain ⟨hk, hc⟩ := he
    simp only at hk hc
    subst hk
    by_cases hkk : k₁ = k
    · rcases hc with hc | ⟨h1, h2⟩
      · left
        simp [mapGet, hkk, hc]
      · right
        exact ⟨c₁, c₂, by simp [mapGet, hkk], by simp [mapGet, hkk], h1, h2⟩
    · simpa [mapGet, hkk] using ih

theorem agree_pollLoop (d : JsVal) (t : Nat) (l₁ l₂ : List (String × Command))
    (h : AgreeExceptForeign (foreignToDevice d) l₁ l₂) :
    (pollLoop d t l₁).1 = (pollLoop d t l₂).1 := by
  unfold AgreeExceptForeign at h
  induction h with
  | nil => rfl
  | @cons e₁ e₂ t₁ t₂ he _ ih =>
    obtain ⟨k₁, c₁⟩ := e₁
    obtain ⟨k₂, c₂⟩ := e₂
    obtain ⟨hk, hc⟩ := he
    simp only at hk hc
    subst hk
    rcases hc with hc | ⟨h1, h2⟩
    · subst hc
      by_cases hp : isPendingFor d c₁ = true
      · simp [pollLoop, hp, ih]
      · simp [pollLoop, hp, ih]
    · have hp₁ : isPendingFor d c₁ = false := by
        simp only [foreignToDevice, Bool.not_eq_true'] at h1
        simp [isPendingFor, h1]
      have hp₂ : isPendingFor d c₂ = false := by
        simp only [foreignToDevice, Bool.not_eq_true'] at h2
        simp [isPendingFor, h2]
      simp [pollLoop, hp₁, hp₂, ih]

/-- The response of `submitCommandResult` is determined by what the lookup finds. -/
theorem submit_response_of_lookup (st₁ st₂ : State) (apiKey : Option ApiKey)
    (commandId r : JsVal) (now : Nat)
    (h : getCommand st₁.activeCommands commandId = getCommand st₂.activeCommands commandId) :
    (submitCommandResult st₁ apiKey commandId r now).1
      = (submitCommandResult st₂ apiKey commandId r now).1 := by
  cases apiKey with
  | none => rfl
  | some key =>
    by_cases hk : key.deviceId.truthy = true
    · by_cases hc : commandId.truthy = true
      · cases hget : getCommand st₂.activeCommands commandId with
        | none =>
          rw [hget] at h
          simp [submitCommandResult, hk, hc, hget, h]
        | some c =>
          rw [hget] at h
          by_cases hd : JsVal.strictEq c.deviceId key.deviceId = true
          · simp [submitCommandResult, hk, hc, hget, h, hd]
          · simp [submitCommandResult, hk, hc, hget, h, hd]
      · simp [submitCommandResult, hk, hc]
    · simp [submitCommandResult, hk]

/-- The response of `getCommandResult` is determined by what the lookup finds. -/
theorem getResult_response_of_lookup (st₁ st₂ : State) (user : Option User) (cid : String)
    (h : mapGet sameKey st₁.activeCommands cid = mapGet sameKey st₂.activeCommands cid) :
    (getCommandResult st₁ user cid).1 = (getCommandResult st₂ user cid).1 := by
  cases user with
  | none => rfl
  | some u =>
    by_cases hu : u.email = ""
    · simp [getCommandResult, hu]
    · by_cases hcid : cid = ""
      · simp [getCommandResult, hu, hcid]
      · cases hget : mapGet sameKey st₂.activeCommands cid with
        | none =>
          rw [hget] at h
          simp [getCommandResult, hu, hcid, hget, h]
        | some c =>
          rw [hget] at h
          by_cases hby : c.issuedBy = u.email
          · rw [getCommandResult_ok st₁ u cid c hu hcid h hby,
              getCommandResult_ok st₂ u cid c hu hcid hget hby]
          · rw [getCommandResult_forbidden st₁ u cid c hu hcid h hby,
              getCommandResult_forbidden st₂ u cid c hu hcid hget hby]

/-- The response of `sendCommand` does not depend on the state. -/
theorem sendCommand_response_any_state (st₁ st₂ : State) (user : Option User)
    (deviceId command : JsVal) (idTime rnd now : Nat) :
    (sendCommand st₁ user deviceId command idTime rnd now).1
      = (sendCommand st₂ user deviceId command idTime rnd now).1 := by
  cases user with
  | none => rfl
  | some u =>
    by_cases hu : u.email = ""
    · simp [sendCommand, hu]
    · by_cases hd : deviceId.truthy = true
      · by_cases hc : command.truthy = true
        · rw [sendCommand_ok st₁ u deviceId command idTime rnd now hu hd hc,
            sendCommand_ok st₂ u deviceId command idTime rnd now hu hd hc]
        · simp [sendCommand, hu, hd, hc]
      · simp [sendCommand, hu, hd]

/-- C22 (as amended): for two states whose command tables hold the same ids in the same
order and differ only in commands that are not addressed to the calling device, every
`checkForCommands` and `submitCommandResult` call of that device gets the same
response; for two such tables that differ only in commands not issued by the calling
operator, every `getCommandResult` and `sendCommand` call of that operator gets the
same response. -/
theorem third_party_relay_responses (st₁ st₂ : State) :
    (∀ key : ApiKey,
      AgreeExceptForeign (foreignToDevice key.deviceId) st₁.activeCommands st₂.activeCommands →
      (∀ t : Nat, (checkForCommands st₁ (some key) t).1 = (checkForCommands st₂ (some key) t).1) ∧
      (∀ (commandId r : JsVal) (now : Nat),
        (submitCommandResult st₁ (some key) commandId r now).1
          = (submitCommandResult st₂ (some key) commandId r now).1)) ∧
    (∀ user : User,
      AgreeExceptForeign (foreignToOperator user.email) st₁.activeCommands st₂.activeCommands →
      (∀ cid : String,
        (getCommandResult st₁ (some user) cid).1 = (getCommandResult st₂ (some user) cid).1) ∧
      (∀ (deviceId command : JsVal) (idTime rnd now : Nat),
        (sendCommand st₁ (some user) deviceId command idTime rnd now).1
          = (sendCommand st₂ (some user) deviceId command idTime rnd now).1)) := by
  constructor
  · intro key h
    constructor
    · intro t
      by_cases hk : key.deviceId.truthy = true
      · rw [checkForCommands_ok st₁ key t hk, checkForCommands_ok st₂ key t hk,
          agree_pollLoop key.deviceId t _ _ h]
      · simp [checkForCommands, hk]
    · intro commandId r now
      cases commandId with
      | str s =>
        rcases agree_lookup _ _ _ h s with heq | ⟨c₁, c₂, h1, h2, f1, f2⟩
        · exact submit_response_of_lookup st₁ st₂ (some key) (.str s) r now heq
        · by_cases hk : key.deviceId.truthy = true
          · by_cases hc : (JsVal.str s).truthy = true
            · have g1 : getCommand st₁.activeCommands (.str s) = some c₁ := h1
              have g2 : getCommand st₂.activeCommands (.str s) = some c₂ := h2
              simp only [foreignToDevice, Bool.not_eq_true'] at f1 f2
              simp [submitCommandResult, hk, hc, g1, g2, f1, f2]
            · simp [submitCommandResult, hk, hc]
          · simp [submitCommandResult, hk]
      | undefined => exact submit_response_of_lookup st₁ st₂ (some key) _ r now rfl
      | null => exact submit_response_of_lookup st₁ st₂ (some key) _ r now rfl
      | bool b => exact submit_response_of_lookup st₁ st₂ (some key) _ r now rfl
      | num n => exact submit_response_of_lookup st₁ st₂ (some key) _ r now rfl
      | obj j => exact submit_response_of_lookup st₁ st₂ (some key) _ r now rfl
  · intro user h
    constructor
    · intro cid
      rcases agree_lookup _ _ _ h cid with heq | ⟨c₁, c₂, h1, h2, f1, f2⟩
      · exact getResult_response_of_lookup st₁ st₂ (some user) cid heq
      · by_cases hu : user.email = ""
        · simp [getCommandResult, hu]
        · by_cases hcid : cid = ""
          · simp [getCommandResult, hu, hcid]
          · simp only [foreignToOperator, bne_iff_ne, ne_eq] at f1 f2
            rw [getCommandResult_forbidden st₁ user cid c₁ hu hcid h1 f1,
              getCommandResult_forbidden st₂ user cid c₂ hu hcid h2 f2]
    · intro deviceId command idTime rnd now
      exact sendCommand_response_any_state st₁ st₂ (some user) deviceId command idTime rnd now

/-- The tables of `pingState` and `otherTextState` differ in the text of a command
addressed to `dev1` and issued by `alice`: `dev2` and `bob` get the same responses
on both. -/
theorem third_party_relay_responses_witness :
    ((∀ t : Nat, (checkForCommands pingState (some keyDev2) t).1
        = (checkForCommands otherTextState (some keyDev2) t).1) ∧
      (∀ (commandId r : JsVal) (now : Nat),
        (submitCommandResult pingState (some keyDev2) commandId r now).1
          = (submitCommandResult otherTextState (some keyDev2) commandId r now).1)) ∧
    ((∀ cid : String,
        (getCommandResult pingState (some bob) cid).1
          = (getCommandResult otherTextState (some bob) cid).1) ∧
      (∀ (deviceId command : JsVal) (idTime rnd now : Nat),
        (sendCommand pingState (some bob) deviceId command idTime rnd now).1
          = (sendCommand otherTextState (some bob) deviceId command idTime rnd now).1)) :=
  ⟨(third_party_relay_responses pingState otherTextState).1 keyDev2
      (List.Forall₂.cons ⟨rfl, Or.inr ⟨by decide, by decide⟩⟩ List.Forall₂.nil),
   (third_party_relay_responses pingState otherTextState).2 bob
      (List.Forall₂.cons ⟨rfl, Or.inr ⟨by decide, by decide⟩⟩ List.Forall₂.nil)⟩

/-- C22 (counterexample): `pingState` and the empty state differ only in a command that
`alice` issued to `dev1`. The debug endpoint, which anyone can call, answers with
different bodies on the two and shows the id, target, text and issuer of the command;
and `bob`, who does not own the command, is answered 403 for its id on the first and
404 on the second. -/
theorem debugState_reveals_commands :
    debugState pingState (fun _ => 2000) ≠ debugState emptyState (fun _ => 2000) ∧
    (debugState pingState (fun _ => 2000)).map DebugBody.commands
      = some [{ id := "cmd_1000_00000007", deviceId := .str "dev1", command := utf16 "ping",
                result := "⏳ Pending", issuedBy := "alice@x.com", fetched := false }] ∧
    (debugState emptyState (fun _ => 2000)).map DebugBody.commands = some [] ∧
    (getCommandResult pingState (some bob) "cmd_1000_00000007").1
      = .fail 403 "Not authorized to view this command" ∧
    (getCommandResult emptyState (some bob) "cmd_1000_00000007").1
      = .fail 404 "Command not found" := by
  decide

/-! ## Revoking a credential -/

theorem findIndex_none {α : Type} (p : α → Bool) (l : List α) :
    findIndex p l = none ↔ ∀ a ∈ l, p a = false := by
  induction l with
  | nil => simp [findIndex]
  | cons a l ih =>
    by_cases h : p a = true
    · simp [findIndex, h]
    · simp [findIndex, h, ih]

theorem findIndex_some {α : Type} (p : α → Bool) (l : List α) (i : Nat)
    (h : findIndex p l = some i) :
    ∃ l₁ a l₂, l = l₁ ++ a :: l₂ ∧ (∀ b ∈ l₁, p b = false) ∧ p a = true ∧
      l.eraseIdx i = l₁ ++ l₂ := by
  induction l generalizing i with
  | nil => simp [findIndex] at h
  | cons a l ih =>
    by_cases hp : p a = true
    · simp only [findIndex, hp, if_true, Option.some.injEq] at h
      subst h
      exact ⟨[], a, l, rfl, by simp, hp, rfl⟩
    · simp only [findIndex, hp, Bool.false_eq_true, if_false, Option.map_eq_some'] at h
      obtain ⟨j, hj, rfl⟩ := h
      obtain ⟨l₁, b, l₂, hl, hno, hb, he⟩ := ih j hj
      refine ⟨a :: l₁, b, l₂, by simp [hl], ?_, hb, by simp [he]⟩
      intro c hc
      simp only [List.mem_cons] at hc
      rcases hc with rfl | hc
      · simpa using hp
      · exact hno c hc

theorem startsWith_ne_empty {s : String} (h : startsWith s "sk_" = true) : s ≠ "" := by
  intro he
  subst he
  revert h
  decide

/-- C24: for an authenticated operator `E` and a credential id `I`, with a store that
can be written, `revokeApiKey` answers 404 and leaves the store as it was exactly when
no record has id `I` and owner `E`; otherwise it answers 200 and the store loses the
first such record and nothing else, the other records keeping their order; a key
whose hash is the removed record's and no other record's is then rejected by
`authenticateApiKey` as `INVALID_API_KEY`. -/
theorem revokeApiKey_spec (store : List ApiKeyRecord) (user : User) (I : String)
    (hu : user.email ≠ "") :
    (revokeApiKey store (some user) I true
        = (.fail 404 "API key not found or access denied", store)
      ↔ ∀ r ∈ store, ¬ (r.id = I ∧ r.userEmail = user.email)) ∧
    ((∃ r ∈ store, r.id = I ∧ r.userEmail = user.email) →
      ∃ l₁ r l₂, store = l₁ ++ r :: l₂ ∧
        (∀ b ∈ l₁, ¬ (b.id = I ∧ b.userEmail = user.email)) ∧
        r.id = I ∧ r.userEmail = user.email ∧
        revokeApiKey store (some user) I true
          = (.revoked "API key revoked successfully", l₁ ++ l₂) ∧
        (∀ (hash : String → String) (K : String) (now nowUsed : Nat) (w : Bool),
          startsWith K "sk_" = true → hash K = r.hashedKey →
          (∀ b ∈ l₁ ++ l₂, b.hashedKey ≠ r.hashedKey) →
          authenticateApiKey hash (l₁ ++ l₂) (some K) now nowUsed w
            = (.reject 401 "Invalid API key." "INVALID_API_KEY", l₁ ++ l₂))) := by
  have hp : ∀ r : ApiKeyRecord,
      ((r.id == I && r.userEmail == user.email) = false) ↔ ¬ (r.id = I ∧ r.userEmail = user.email) := by
    intro r
    simp
  have hfound : (∃ r ∈ store, r.id = I ∧ r.userEmail = user.email) →
      ∃ l₁ r l₂, store = l₁ ++ r :: l₂ ∧
        (∀ b ∈ l₁, ¬ (b.id = I ∧ b.userEmail = user.email)) ∧
        r.id = I ∧ r.userEmail = user.email ∧
        revokeApiKey store (some user) I true
          = (.revoked "API key revoked successfully", l₁ ++ l₂) := by
    intro hex
    cases hfi : findIndex (fun key => key.id == I && key.userEmail == user.email) store with
    | none =>
      obtain ⟨r, hr, hI⟩ := hex
      have := (findIndex_none _ _).1 hfi r hr
      exact absurd hI ((hp r).1 this)
    | some i =>
      obtain ⟨l₁, r, l₂, hl, hno, hr, he⟩ := findIndex_some _ _ i hfi
      have hr' : r.id = I ∧ r.userEmail = user.email := by simpa using hr
      refine ⟨l₁, r, l₂, hl, fun b hb => (hp b).1 (hno b hb), hr'.1, hr'.2, ?_⟩
      simp [revokeApiKey, hu, deleteApiKeyRecord, hfi, he]
  refine ⟨?_, ?_⟩
  · constructor
    · intro hresp r hr hI
      obtain ⟨l₁, r', l₂, _, _, _, _, hrev⟩ := hfound ⟨r, hr, hI⟩
      rw [hrev] at hresp
      simp at hresp
    · intro hno
      have hfi : findIndex (fun key => key.id == I && key.userEmail == user.email) store
          = none := (findIndex_none _ _).2 fun r hr => (hp r).2 (hno r hr)
      simp [revokeApiKey, hu, deleteApiKeyRecord, hfi]
  · intro hex
    obtain ⟨l₁, r, l₂, hl, hno, hI, hE, hrev⟩ := hfound hex
    refine ⟨l₁, r, l₂, hl, hno, hI, hE, hrev, ?_⟩
    intro hash K now nowUsed w hfmt hh hothers
    have hK := startsWith_ne_empty hfmt
    simp only [authenticateApiKey, hK, hfmt, if_false, Bool.not_true, Bool.false_eq_true]
    rw [find_hash_eq_none (hash K) (l₁ ++ l₂) (by rw [hh]; exact hothers)]

theorem revokeApiKey_spec_witness :
    bob.email ≠ "" ∧
    ((revokeApiKey sampleStore (some bob) "id-2" true
        = (.fail 404 "API key not found or access denied", sampleStore)
      ↔ ∀ r ∈ sampleStore, ¬ (r.id = "id-2" ∧ r.userEmail = bob.email)) ∧
    ((∃ r ∈ sampleStore, r.id = "id-2" ∧ r.userEmail = bob.email) →
      ∃ l₁ r l₂, sampleStore = l₁ ++ r :: l₂ ∧
        (∀ b ∈ l₁, ¬ (b.id = "id-2" ∧ b.userEmail = bob.email)) ∧
        r.id = "id-2" ∧ r.userEmail = bob.email ∧
        revokeApiKey sampleStore (some bob) "id-2" true
          = (.revoked "API key revoked successfully", l₁ ++ l₂) ∧
        (∀ (hash : String → String) (K : String) (now nowUsed : Nat) (w : Bool),
          startsWith K "sk_" = true → hash K = r.hashedKey →
          (∀ b ∈ l₁ ++ l₂, b.hashedKey ≠ r.hashedKey) →
          authenticateApiKey hash (l₁ ++ l₂) (some K) now nowUsed w
            = (.reject 401 "Invalid API key." "INVALID_API_KEY", l₁ ++ l₂)))) :=
  ⟨by decide, revokeApiKey_spec sampleStore bob "id-2" (by decide)⟩

/-! ## Generated keys -/

theorem key_data (now rnd : Nat) :
    (generateApiKey now rnd).data
      = 's' :: 'k' :: '_' :: ((toBase36 now).data ++ '_' :: (hex64 rnd).data) := by
  simp [generateApiKey, String.data_append]

theorem key_startsWith (now rnd : Nat) : startsWith (generateApiKey now rnd) "sk_" = true := by
  simp [startsWith, key_data, List.isPrefixOf]

theorem hex64_length (rnd : Nat) : (hex64 rnd).data.length = 64 := by
  simp [hex64]

theorem key_length (now rnd : Nat) : 68 ≤ (generateApiKey now rnd).length := by
  have h : (generateApiKey now rnd).length = (generateApiKey now rnd).data.length := rfl
  rw [h, key_data]
  simp only [List.length_cons, List.length_append, hex64_length]
  omega

theorem key_last (now rnd : Nat) :
    (generateApiKey now rnd).data.getLast? = some (Nat.digitChar (rnd % 2 ^ 256 % 16)) := by
  have h64 : List.range 64 = List.range 63 ++ [63] := List.range_succ 63
  have h : (generateApiKey now rnd).data
      = ('s' :: 'k' :: '_' :: ((toBase36 now).data ++ '_' ::
          (List.range 63).map fun i => Nat.digitChar ((rnd % 2 ^ 256) / 16 ^ (63 - i) % 16)))
        ++ [Nat.digitChar (rnd % 2 ^ 256 % 16)] := by
    rw [key_data]
    simp [hex64, h64]
  rw [h, List.getLast?_concat]

theorem hexDigit_ne_y (m : Nat) : Nat.digitChar (m % 16) ≠ 'y' := by
  have h : ∀ d : Fin 16, Nat.digitChar d ≠ 'y' := by decide
  exact h ⟨m % 16, Nat.mod_lt _ (by decide)⟩

theorem name_ne_key (text : String) (now rnd : Nat) :
    text ++ " API Key" ≠ generateApiKey now rnd := by
  intro he
  have hd := congrArg (fun s => s.data.getLast?) he
  simp only [String.data_append] at hd
  rw [key_last] at hd
  have hl : (text.data ++ " API Key".data).getLast? = some 'y' := by
    have : " API Key".data = [' ', 'A', 'P', 'I', ' ', 'K', 'e'] ++ ['y'] := by decide
    rw [this, ← List.append_assoc, List.getLast?_concat]
  rw [hl] at hd
  exact hexDigit_ne_y _ (Option.some.inj hd).symm

theorem pfx_ne_key (now rnd : Nat) :
    String.mk ((generateApiKey now rnd).data.take 10) ++ "..." ≠ generateApiKey now rnd := by
  intro he
  have hl := congrArg String.length he
  have hk := key_length now rnd
  have h3 : "...".length = 3 := by decide
  have ht : (String.mk ((generateApiKey now rnd).data.take 10)).length ≤ 10 := by
    show ((generateApiKey now rnd).data.take 10).length ≤ 10
    simp [List.length_take]
  rw [String.length_append] at hl
  omega

theorem ne_of_length_lt {a b : String} (h : a.length < b.length) : a ≠ b := by
  intro he
  rw [he] at h
  exact Nat.lt_irrefl _ h

theorem ne_of_head_ne {a b : String} (h : a.data.head? ≠ b.data.head?) : a ≠ b := by
  intro he
  exact h (by rw [he])

theorem key_head (now rnd : Nat) : (generateApiKey now rnd).data.head? = some 's' := by
  rw [key_data]
  rfl

theorem genDeviceId_ne_key (a b now rnd : Nat) : genDeviceId a b ≠ generateApiKey now rnd := by
  apply ne_of_head_ne
  rw [key_head]
  simp [genDeviceId, String.data_append]

theorem message_ne_key (text : String) (now rnd : Nat) :
    "API key generated for " ++ text ≠ generateApiKey now rnd := by
  apply ne_of_head_ne
  rw [key_head]
  simp [String.data_append]

/-- An accepted `generateApiKeyForUser`: the response and the store it leaves. -/
theorem generateApiKeyForUser_ok (hash : String → String) (js : Builtins)
    (store : List ApiKeyRecord) (user : User) (deviceName deviceId permissions : JsVal)
    (metadataJson : String) (nowDevice rndDevice nowKey rndKey : Nat) (uuid : String)
    (nowCreated : Nat) (nameText : String)
    (hu : user.email ≠ "") (hname : deviceName.truthy = true)
    (htext : codeToString js deviceName = some nameText) :
    generateApiKeyForUser hash js store (some user) deviceName deviceId permissions metadataJson
        nowDevice rndDevice nowKey rndKey uuid nowCreated true true
      = (.created ("API key generated for " ++ nameText)
          { id := uuid, deviceId := deviceId.orElse (.str (genDeviceId nowDevice rndDevice)),
            deviceName := deviceName, name := nameText ++ " API Key",
            pfx := String.mk ((generateApiKey nowKey rndKey).data.take 10) ++ "...",
            createdAt := nowCreated, permissions := permissions.orElse defaultPermissions }
          "API key has been sent to your email. Store it securely as it will not be shown again.",
         store ++ [newApiKeyRecord hash user.email deviceName
           (deviceId.orElse (.str (genDeviceId nowDevice rndDevice))) permissions nameText
           metadataJson (generateApiKey nowKey rndKey) uuid nowCreated]) := by
  simp [generateApiKeyForUser, hu, hname, htext, newApiKeyRecord]

theorem find_hash_first (h : String) (l₁ l₂ : List ApiKeyRecord) (r : ApiKeyRecord)
    (hno : ∀ b ∈ l₁, b.hashedKey ≠ h) (hr : r.hashedKey = h) :
    ((l₁ ++ r :: l₂).find? fun key => key.hashedKey == h) = some r := by
  induction l₁ with
  | nil => simp [List.find?, hr]
  | cons a l ih =>
    have ha : a.hashedKey ≠ h := hno a (List.mem_cons_self _ _)
    have := ih fun b hb => hno b (List.mem_cons_of_mem _ hb)
    have hb : (a.hashedKey == h) = false := by simpa using ha
    rw [List.cons_append, List.find?_cons, hb]
    exact this

/-- A well-formed key whose record is found, active and without expiry is let
through with the record's fields attached. -/
theorem authenticateApiKey_accepts (hash : String → String) (store : List ApiKeyRecord)
    (K : String) (r : ApiKeyRecord) (now nowUsed : Nat) (w : Bool)
    (hfmt : startsWith K "sk_" = true)
    (hfind : (store.find? fun key => key.hashedKey == hash K) = some r)
    (hact : r.isActive = true) (hexp : r.expiresAt = none) :
    (authenticateApiKey hash store (some K) now nowUsed w).1
      = .next
          { id := r.id, deviceId := r.deviceId, deviceName := r.deviceName,
            userEmail := r.userEmail, permissions := r.permissions.orElse (.obj "[]"),
            name := r.name, createdAt := r.createdAt }
          { email := r.userEmail } := by
  have hK := startsWith_ne_empty hfmt
  simp only [authenticateApiKey, hK, hfmt, if_false, Bool.not_true, Bool.false_eq_true]
  rw [hfind]
  simp [hact, hexp]

/-- A key whose hash is the `hashedKey` of no record is rejected, the store staying
as it was. -/
theorem authenticateApiKey_rejects_unknown (hash : String → String)
    (store : List ApiKeyRecord) (s : String) (now nowUsed : Nat) (w : Bool)
    (hno : ∀ b ∈ store, b.hashedKey ≠ hash s) :
    ∃ status message code,
      authenticateApiKey hash store (some s) now nowUsed w
        = (.reject status message code, store) := by
  by_cases hs : s = ""
  · exact ⟨401, "API key is required.", "NO_API_KEY", by simp [authenticateApiKey, hs]⟩
  · by_cases hfmt : startsWith s "sk_" = true
    · refine ⟨401, "Invalid API key.", "INVALID_API_KEY", ?_⟩
      simp only [authenticateApiKey, hs, hfmt, if_false, Bool.not_true, Bool.false_eq_true]
      rw [find_hash_eq_none (hash s) store hno]
    · exact ⟨401, "Invalid API key format.", "INVALID_API_KEY_FORMAT",
        by simp [authenticateApiKey, hs, hfmt]⟩

/-- C28: a key `K` returned by `generateApiKey` starts with `sk_`; when
`generateApiKeyForUser` has written the record for `K` to a store none of whose records
has the same `hashedKey`, `authenticateApiKey` presented with `K` calls `next()` with that
record's `deviceId`, `deviceName` and `userEmail` attached, on the store just written
and on any later store that holds the record (its `lastUsed` possibly set) behind
records with other hashes; and a string whose hash is the `hashedKey` of no record is
rejected. -/
theorem key_round_trip (hash : String → String) (js : Builtins)
    (store : List ApiKeyRecord) (user : User) (deviceName deviceId permissions : JsVal)
    (metadataJson : String) (nowDevice rndDevice nowKey rndKey : Nat) (uuid : String)
    (nowCreated : Nat) (nameText : String)
    (hu : user.email ≠ "") (hname : deviceName.truthy = true)
    (htext : codeToString js deviceName = some nameText)
    (hnew : ∀ b ∈ store, b.hashedKey ≠ hash (generateApiKey nowKey rndKey)) :
    startsWith (generateApiKey nowKey rndKey) "sk_" = true ∧
    (∀ (now nowUsed : Nat) (w : Bool),
      (authenticateApiKey hash
        (generateApiKeyForUser hash js store (some user) deviceName deviceId permissions
          metadataJson nowDevice rndDevice nowKey rndKey uuid nowCreated true true).2
        (some (generateApiKey nowKey rndKey)) now nowUsed w).1
        = .next
            { id := uuid, deviceId := deviceId.orElse (.str (genDeviceId nowDevice rndDevice)),
              deviceName := deviceName, userEmail := user.email,
              permissions := (permissions.orElse defaultPermissions).orElse (.obj "[]"),
              name := nameText ++ " API Key", createdAt := nowCreated }
            { email := user.email }) ∧
    (∀ (earlier later : List ApiKeyRecord) (used : Option Nat) (now nowUsed : Nat) (w : Bool),
      (∀ b ∈ earlier, b.hashedKey ≠ hash (generateApiKey nowKey rndKey)) →
      (authenticateApiKey hash
        (earlier ++
          { newApiKeyRecord hash user.email deviceName
              (deviceId.orElse (.str (genDeviceId nowDevice rndDevice))) permissions nameText
              metadataJson (generateApiKey nowKey rndKey) uuid nowCreated with
            lastUsed := used } :: later)
        (some (generateApiKey nowKey rndKey)) now nowUsed w).1
        = .next
            { id := uuid, deviceId := deviceId.orElse (.str (genDeviceId nowDevice rndDevice)),
              deviceName := deviceName, userEmail := user.email,
              permissions := (permissions.orElse defaultPermissions).orElse (.obj "[]"),
              name := nameText ++ " API Key", createdAt := nowCreated }
            { email := user.email }) ∧
    (∀ (anyStore : List ApiKeyRecord) (s : String) (now nowUsed : Nat) (w : Bool),
      (∀ b ∈ anyStore, b.hashedKey ≠ hash s) →
      ∃ status message code,
        authenticateApiKey hash anyStore (some s) now nowUsed w
          = (.reject status message code, anyStore)) := by
  have hfmt := key_startsWith nowKey rndKey
  have hlater : ∀ (earlier later : List ApiKeyRecord) (used : Option Nat) (now nowUsed : Nat)
      (w : Bool), (∀ b ∈ earlier, b.hashedKey ≠ hash (generateApiKey nowKey rndKey)) →
      (authenticateApiKey hash
        (earlier ++
          { newApiKeyRecord hash user.email deviceName
              (deviceId.orElse (.str (genDeviceId nowDevice rndDevice))) permissions nameText
              metadataJson (generateApiKey nowKey rndKey) uuid nowCreated with
            lastUsed := used } :: later)
        (some (generateApiKey nowKey rndKey)) now nowUsed w).1
        = .next
            { id := uuid, deviceId := deviceId.orElse (.str (genDeviceId nowDevice rndDevice)),
              deviceName := deviceName, userEmail := user.email,
              permissions := (permissions.orElse defaultPermissions).orElse (.obj "[]"),
              name := nameText ++ " API Key", createdAt := nowCreated }
            { email := user.email } := by
    intro earlier later used now nowUsed w hno
    rw [authenticateApiKey_accepts hash _ _ _ now nowUsed w hfmt
      (find_hash_first _ earlier later _ hno rfl) rfl rfl]
    rfl
  refine ⟨hfmt, ?_, hlater, ?_⟩
  · intro now nowUsed w
    rw [generateApiKeyForUser_ok hash js store user deviceName deviceId permissions
      metadataJson nowDevice rndDevice nowKey rndKey uuid nowCreated nameText hu hname htext]
    exact hlater store [] none now nowUsed w hnew
  · intro anyStore s now nowUsed w hno
    exact authenticateApiKey_rejects_unknown hash anyStore s now nowUsed w hno

theorem key_round_trip_witness :
    (alice.email ≠ "" ∧ (JsVal.str "Device One").truthy = true ∧
      codeToString asciiBuiltins (.str "Device One") = some "Device One" ∧
      (∀ b ∈ sampleStore, b.hashedKey ≠ sampleHash (generateApiKey 1700000000000 1))) ∧
    (startsWith (generateApiKey 1700000000000 1) "sk_" = true ∧
    (∀ (now nowUsed : Nat) (w : Bool),
      (authenticateApiKey sampleHash
        (generateApiKeyForUser sampleHash asciiBuiltins sampleStore (some alice)
          (.str "Device One") .undefined .undefined "\x7b\x7d" 1699999999999 7 1700000000000 1
          "123e4567-e89b-42d3-a456-426614174000" 1700000000001 true true).2
        (some (generateApiKey 1700000000000 1)) now nowUsed w).1
        = .next
            { id := "123e4567-e89b-42d3-a456-426614174000",
              deviceId := JsVal.undefined.orElse (.str (genDeviceId 1699999999999 7)),
              deviceName := .str "Device One", userEmail := alice.email,
              permissions := (JsVal.undefined.orElse defaultPermissions).orElse (.obj "[]"),
              name := "Device One" ++ " API Key", createdAt := 1700000000001 }
            { email := alice.email }) ∧
    (∀ (earlier later : List ApiKeyRecord) (used : Option Nat) (now nowUsed : Nat) (w : Bool),
      (∀ b ∈ earlier, b.hashedKey ≠ sampleHash (generateApiKey 1700000000000 1)) →
      (authenticateApiKey sampleHash
        (earlier ++
          { newApiKeyRecord sampleHash alice.email (.str "Device One")
              (JsVal.undefined.orElse (.str (genDeviceId 1699999999999 7))) .undefined
              "Device One" "\x7b\x7d" (generateApiKey 1700000000000 1)
              "123e4567-e89b-42d3-a456-426614174000" 1700000000001 with
            lastUsed := used } :: later)
        (some (generateApiKey 1700000000000 1)) now nowUsed w).1
        = .next
            { id := "123e4567-e89b-42d3-a456-426614174000",
              deviceId := JsVal.undefined.orElse (.str (genDeviceId 1699999999999 7)),
              deviceName := .str "Device One", userEmail := alice.email,
              permissions := (JsVal.undefined.orElse defaultPermissions).orElse (.obj "[]"),
              name := "Device One" ++ " API Key", createdAt := 1700000000001 }
            { email := alice.email }) ∧
    (∀ (anyStore : List ApiKeyRecord) (s : String) (now nowUsed : Nat) (w : Bool),
      (∀ b ∈ anyStore, b.hashedKey ≠ sampleHash s) →
      ∃ status message code,
        authenticateApiKey sampleHash anyStore (some s) now nowUsed w
          = (.reject status message code, anyStore))) :=
  ⟨⟨by decide, by decide, by decide, by decide⟩,
   key_round_trip sampleHash asciiBuiltins sampleStore alice (.str "Device One") .undefined
     .undefined "\x7b\x7d" 1699999999999 7 1700000000000 1
     "123e4567-e89b-42d3-a456-426614174000" 1700000000001 "Device One"
     (by decide) (by decide) (by decide) (by decide)⟩

/-! ## What is stored of a generated key -/

theorem orElse_ne_str {v d : JsVal} {K : String} (hv : v ≠ .str K) (hd : d ≠ .str K) :
    v.orElse d ≠ .str K := by
  unfold JsVal.orElse
  split
  · exact hv
  · exact hd

/-- C21: an accepted `generateApiKeyForUser` appends one record for the generated key `K`.
The record holds `hashApiKey(K)` as `hashedKey` and the first 10 characters of `K`
followed by `...` as `prefix`; its other fields are the values of the request, the user
and the clock and are the same whatever `K` is; the fields computed from `K` are not
`K` (the digest having 64 characters, the UUID 36), so no field of the record is `K`
unless the request itself supplied `K`; the response shows fields of the record and
two texts that are not `K`. -/
theorem generated_key_not_stored (hash : String → String) (js : Builtins)
    (store : List ApiKeyRecord) (user : User) (deviceName deviceId permissions : JsVal)
    (metadataJson : String) (nowDevice rndDevice nowKey rndKey : Nat) (uuid : String)
    (nowCreated : Nat) (nameText : String)
    (hu : user.email ≠ "") (hname : deviceName.truthy = true)
    (htext : codeToString js deviceName = some nameText) :
    ∃ (info : ApiKeyInfo) (record : ApiKeyRecord) (message notice : String),
      generateApiKeyForUser hash js store (some user) deviceName deviceId permissions
          metadataJson nowDevice rndDevice nowKey rndKey uuid nowCreated true true
        = (.created message info notice, store ++ [record]) ∧
      record.hashedKey = hash (generateApiKey nowKey rndKey) ∧
      record.pfx = String.mk ((generateApiKey nowKey rndKey).data.take 10) ++ "..." ∧
      record.pfx ≠ generateApiKey nowKey rndKey ∧
      record.name ≠ generateApiKey nowKey rndKey ∧
      ((hash (generateApiKey nowKey rndKey)).length = 64 →
        record.hashedKey ≠ generateApiKey nowKey rndKey) ∧
      (uuid.length = 36 → record.id ≠ generateApiKey nowKey rndKey) ∧
      record.id = uuid ∧ record.userEmail = user.email ∧ record.deviceName = deviceName ∧
      record.deviceId = deviceId.orElse (.str (genDeviceId nowDevice rndDevice)) ∧
      record.permissions = permissions.orElse defaultPermissions ∧
      record.metadata = .obj metadataJson ∧
      (user.email ≠ generateApiKey nowKey rndKey →
        deviceName ≠ .str (generateApiKey nowKey rndKey) →
        deviceId ≠ .str (generateApiKey nowKey rndKey) →
        permissions ≠ .str (generateApiKey nowKey rndKey) →
        (hash (generateApiKey nowKey rndKey)).length = 64 → uuid.length = 36 →
        record.id ≠ generateApiKey nowKey rndKey ∧
        record.userEmail ≠ generateApiKey nowKey rndKey ∧
        record.deviceId ≠ .str (generateApiKey nowKey rndKey) ∧
        record.deviceName ≠ .str (generateApiKey nowKey rndKey) ∧
        record.hashedKey ≠ generateApiKey nowKey rndKey ∧
        record.pfx ≠ generateApiKey nowKey rndKey ∧
        record.name ≠ generateApiKey nowKey rndKey ∧
        record.permissions ≠ .str (generateApiKey nowKey rndKey) ∧
        record.metadata ≠ .str (generateApiKey nowKey rndKey)) ∧
      (∀ otherNow otherRnd : Nat,
        newApiKeyRecord hash user.email deviceName
            (deviceId.orElse (.str (genDeviceId nowDevice rndDevice))) permissions nameText
            metadataJson (generateApiKey otherNow otherRnd) uuid nowCreated
          = { record with
              hashedKey := hash (generateApiKey otherNow otherRnd)
              pfx := String.mk ((generateApiKey otherNow otherRnd).data.take 10) ++ "..." }) ∧
      info = { id := record.id, deviceId := record.deviceId, deviceName := record.deviceName,
               name := record.name, pfx := record.pfx, createdAt := record.createdAt,
               permissions := record.permissions } ∧
      message = "API key generated for " ++ nameText ∧
      message ≠ generateApiKey nowKey rndKey ∧ notice ≠ generateApiKey nowKey rndKey := by
  have hK := key_length nowKey rndKey
  have hpfx := pfx_ne_key nowKey rndKey
  have hnm := name_ne_key nameText nowKey rndKey
  have hhash : (hash (generateApiKey nowKey rndKey)).length = 64 →
      hash (generateApiKey nowKey rndKey) ≠ generateApiKey nowKey rndKey :=
    fun h64 => ne_of_length_lt (by omega)
  have hid : uuid.length = 36 → uuid ≠ generateApiKey nowKey rndKey :=
    fun h36 => ne_of_length_lt (by omega)
  have hdef : defaultPermissions ≠ .str (generateApiKey nowKey rndKey) := by
    simp [defaultPermissions]
  have hgen : JsVal.str (genDeviceId nowDevice rndDevice) ≠ .str (generateApiKey nowKey rndKey) := by
    intro he
    exact genDeviceId_ne_key nowDevice rndDevice nowKey rndKey (JsVal.str.inj he)
  refine ⟨_, _, _, _, generateApiKeyForUser_ok hash js store user deviceName deviceId permissions
    metadataJson nowDevice rndDevice nowKey rndKey uuid nowCreated nameText hu hname htext,
    rfl, rfl, hpfx, hnm, hhash, hid, rfl, rfl, rfl, rfl, rfl, rfl, ?_, ?_, rfl, rfl,
    message_ne_key nameText nowKey rndKey, ?_⟩
  · intro he hdn hdi hpe h64 h36
    exact ⟨hid h36, he, orElse_ne_str hdi hgen, hdn, hhash h64, hpfx, hnm,
      orElse_ne_str hpe hdef, by simp [newApiKeyRecord]⟩
  · intro otherNow otherRnd
    rfl
  · apply ne_of_head_ne
    rw [key_head]
    decide

theorem generated_key_not_stored_witness :
    (alice.email ≠ "" ∧ (JsVal.str "Device One").truthy = true ∧
      codeToString asciiBuiltins (.str "Device One") = some "Device One") ∧
    (∃ (info : ApiKeyInfo) (record : ApiKeyRecord) (message notice : String),
      generateApiKeyForUser sampleHash asciiBuiltins sampleStore (some alice) (.str "Device One")
          .undefined .undefined
          "\x7b\x7d" 1699999999999 7 1700000000000 1
          "123e4567-e89b-42d3-a456-426614174000" 1700000000001 true true
        = (.created message info notice, sampleStore ++ [record]) ∧
      record.hashedKey = sampleHash (generateApiKey 1700000000000 1) ∧
      record.pfx = String.mk ((generateApiKey 1700000000000 1).data.take 10) ++ "..." ∧
      record.pfx ≠ generateApiKey 1700000000000 1 ∧
      record.name ≠ generateApiKey 1700000000000 1 ∧
      ((sampleHash (generateApiKey 1700000000000 1)).length = 64 →
        record.hashedKey ≠ generateApiKey 1700000000000 1) ∧
      ("123e4567-e89b-42d3-a456-426614174000".length = 36 →
        record.id ≠ generateApiKey 1700000000000 1) ∧
      record.id = "123e4567-e89b-42d3-a456-426614174000" ∧ record.userEmail = alice.email ∧
      record.deviceName = .str "Device One" ∧
      record.deviceId = JsVal.undefined.orElse (.str (genDeviceId 1699999999999 7)) ∧
      record.permissions = JsVal.undefined.orElse defaultPermissions ∧
      record.metadata = .obj "\x7b\x7d" ∧
      (alice.email ≠ generateApiKey 1700000000000 1 →
        JsVal.str "Device One" ≠ .str (generateApiKey 1700000000000 1) →
        JsVal.undefined ≠ .str (generateApiKey 1700000000000 1) →
        JsVal.undefined ≠ .str (generateApiKey 1700000000000 1) →
        (sampleHash (generateApiKey 1700000000000 1)).length = 64 →
        "123e4567-e89b-42d3-a456-426614174000".length = 36 →
        record.id ≠ generateApiKey 1700000000000 1 ∧
        record.userEmail ≠ generateApiKey 1700000000000 1 ∧
        record.deviceId ≠ .str (generateApiKey 1700000000000 1) ∧
        record.deviceName ≠ .str (generateApiKey 1700000000000 1) ∧
        record.hashedKey ≠ generateApiKey 1700000000000 1 ∧
        record.pfx ≠ generateApiKey 1700000000000 1 ∧
        record.name ≠ generateApiKey 1700000000000 1 ∧
        record.permissions ≠ .str (generateApiKey 1700000000000 1) ∧
        record.metadata ≠ .str (generateApiKey 1700000000000 1)) ∧
      (∀ otherNow otherRnd : Nat,
        newApiKeyRecord sampleHash alice.email (.str "Device One")
            (JsVal.undefined.orElse (.str (genDeviceId 1699999999999 7))) .undefined "Device One"
            "\x7b\x7d" (generateApiKey otherNow otherRnd)
            "123e4567-e89b-42d3-a456-426614174000" 1700000000001
          = { record with
              hashedKey := sampleHash (generateApiKey otherNow otherRnd)
              pfx := String.mk ((generateApiKey otherNow otherRnd).data.take 10) ++ "..." }) ∧
      info = { id := record.id, deviceId := record.deviceId, deviceName := record.deviceName,
               name := record.name, pfx := record.pfx, createdAt := record.createdAt,
               permissions := record.permissions } ∧
      message = "API key generated for " ++ "Device One" ∧
      message ≠ generateApiKey 1700000000000 1 ∧ notice ≠ generateApiKey 1700000000000 1) :=
  ⟨⟨by decide, by decide, by decide⟩,
   generated_key_not_stored sampleHash asciiBuiltins sampleStore alice (.str "Device One")
     .undefined .undefined "\x7b\x7d" 1699999999999 7 1700000000000 1
     "123e4567-e89b-42d3-a456-426614174000" 1700000000001 "Device One"
     (by decide) (by decide) (by decide)⟩

end RemoteShell
